import Mathlib

/-!
CatVodSpider runner dispatch: a shallow embedding.

The three runner entry scripts (`runner/runner.js` for QuickJS, `runner/runner_node.js`
for Node and `runner/runner.php` for PHP) decode a flat vector of command-line strings
into the typed parameters of one lifecycle method of a loaded extension ("spider"), call
it, and write the outcome to standard output.

The development has three layers:

* a model of the plain-data values of the two languages and of the JSON text functions
  the runners rely on (`JSON.parse` / `JSON.stringify`, `json_decode` / `json_encode`);
* the dispatchers `QuickJS.callMethod`, `Node.callMethod` and `PHP.callMethod`, translated
  statement by statement from the sources, as functions from the extension, the method
  name and the argument vector to the record of everything the dispatch did;
* the theorems about them.

Beside the runners, the loaders of the three entry scripts and the helper libraries
`js/lib/bridge.js`, `js/lib/http.js`, `js/lib/spider.js` and `js/lib/global.js` are modelled
function by function, each with the theorems about it.
-/

set_option autoImplicit false

/-! ## JavaScript values -/

/-- Plain-data JavaScript values: what an extension method receives from the dispatcher
and what it hands back. Numbers are the integral ones; `obj` lists the own enumerable
properties in enumeration order. -/
inductive JSValue where
  | undefined
  | null
  | bool (b : Bool)
  | num (n : Int)
  | str (s : String)
  | arr (xs : List JSValue)
  | obj (kvs : List (String × JSValue))

namespace JSValue

/-- The test `typeof v === 'string'`. -/
def isString : JSValue → Bool
  | str _ => true
  | _ => false

/-- The test `v !== undefined && v !== null`. -/
def isPresent : JSValue → Bool
  | undefined => false
  | null => false
  | _ => true

/-- The array of strings `ids` as a value. -/
def ofStrings (ids : List String) : JSValue :=
  arr (ids.map str)

end JSValue

/-! ## JSON text -/

namespace JSON

/-- The double quote character. -/
def dquote : Char := Char.ofNat 34

/-- The backslash character. -/
def bslash : Char := Char.ofNat 92

/-- Lower-case hexadecimal digit of a number below sixteen. -/
def hexDigit (n : Nat) : Char :=
  if n < 10 then Char.ofNat (48 + n) else Char.ofNat (87 + n)

/-- Value of a hexadecimal digit, in either case. -/
def hexVal (c : Char) : Option Nat :=
  if 48 ≤ c.toNat ∧ c.toNat ≤ 57 then some (c.toNat - 48)
  else if 97 ≤ c.toNat ∧ c.toNat ≤ 102 then some (c.toNat - 87)
  else if 65 ≤ c.toNat ∧ c.toNat ≤ 70 then some (c.toNat - 55)
  else none

/-- Value of four hexadecimal digits. -/
def hex4 (a b c d : Char) : Option Nat :=
  match hexVal a, hexVal b, hexVal c, hexVal d with
  | some x, some y, some z, some w => some (((x * 16 + y) * 16 + z) * 16 + w)
  | _, _, _, _ => none

/-- The escape `\uXXXX` of a 16-bit code unit, lower-case digits. -/
def unicodeEscape (n : Nat) : List Char :=
  [bslash, 'u', hexDigit (n / 4096 % 16), hexDigit (n / 256 % 16),
    hexDigit (n / 16 % 16), hexDigit (n % 16)]

/-- One character of `QuoteJSONString` (ECMA-262): the two-character escapes for
backspace, tab, line feed, form feed, carriage return, the double quote and the
backslash; `\u00XX` for the other control characters; every other character as itself. -/
def quoteChar (c : Char) : List Char :=
  if c = Char.ofNat 8 then [bslash, 'b']
  else if c = Char.ofNat 9 then [bslash, 't']
  else if c = Char.ofNat 10 then [bslash, 'n']
  else if c = Char.ofNat 12 then [bslash, 'f']
  else if c = Char.ofNat 13 then [bslash, 'r']
  else if c = dquote then [bslash, dquote]
  else if c = bslash then [bslash, bslash]
  else if c.toNat < 32 then unicodeEscape c.toNat
  else [c]

/-- The characters of a string between its quotes. -/
def quoteBody : List Char → List Char
  | [] => []
  | c :: cs => quoteChar c ++ quoteBody cs

/-- The JSON text of a string: `QuoteJSONString`. -/
def quote (s : String) : List Char :=
  dquote :: (quoteBody s.data ++ [dquote])

mutual
/-- The JSON text of a value other than top-level `undefined`: `SerializeJSONProperty`
without a gap. Inside an array `undefined` is written `null`. -/
def stringifyChars : JSValue → List Char
  | .undefined => "null".data
  | .null => "null".data
  | .bool b => if b then "true".data else "false".data
  | .num n => (toString n).data
  | .str s => quote s
  | .arr xs => '[' :: (stringifyElems xs ++ [']'])
  | .obj kvs => Char.ofNat 123 :: (stringifyProps false kvs ++ [Char.ofNat 125])
/-- The elements of an array, separated by commas. -/
def stringifyElems : List JSValue → List Char
  | [] => []
  | [x] => stringifyChars x
  | x :: y :: t => stringifyChars x ++ ',' :: stringifyElems (y :: t)
/-- The properties of an object, separated by commas; a property whose value is
`undefined` is left out. The flag says whether a property has been written already. -/
def stringifyProps : Bool → List (String × JSValue) → List Char
  | _, [] => []
  | started, (_, .undefined) :: t => stringifyProps started t
  | started, (k, v) :: t =>
    (if started then [','] else []) ++ quote k ++ ':' :: stringifyChars v
      ++ stringifyProps true t
end

/-- `JSON.stringify(v)`: a string, or `undefined` (here `none`) for `undefined`. -/
def stringify : JSValue → Option String
  | .undefined => none
  | v => some (String.mk (stringifyChars v))

/-- JSON white space: space, tab, line feed, carriage return. -/
def isWs (c : Char) : Bool :=
  c = ' ' || c = Char.ofNat 9 || c = Char.ofNat 10 || c = Char.ofNat 13

/-- Drop leading white space. -/
def skipWs : List Char → List Char
  | [] => []
  | c :: r => if isWs c then skipWs r else c :: r

/-- Put a character in front of a parsed string. -/
def consChar (c : Char) : Option (List Char × List Char) → Option (List Char × List Char)
  | some (s, r) => some (c :: s, r)
  | none => none

/-- The character a two-character escape stands for. -/
def unescape (e : Char) : Option Char :=
  if e = dquote then some dquote
  else if e = bslash then some bslash
  else if e = '/' then some '/'
  else if e = 'b' then some (Char.ofNat 8)
  else if e = 'f' then some (Char.ofNat 12)
  else if e = 'n' then some (Char.ofNat 10)
  else if e = 'r' then some (Char.ofNat 13)
  else if e = 't' then some (Char.ofNat 9)
  else none

/-- The low half of a surrogate pair: after the escape of the high surrogate `hi` the
escape of a low surrogate must follow, and the two denote one character. -/
def parseLowSurrogate (hi : Nat) : List Char → Option (Char × List Char)
  | b1 :: u1 :: e1 :: f1 :: g1 :: h1 :: r3 =>
    if b1 = bslash ∧ u1 = 'u' then
      match hex4 e1 f1 g1 h1 with
      | none => none
      | some lo =>
        if 0xDC00 ≤ lo ∧ lo < 0xE000 then
          some (Char.ofNat (0x10000 + (hi - 0xD800) * 0x400 + (lo - 0xDC00)), r3)
        else none
    else none
  | _ => none

/-- The four digits after `\u`. An unpaired surrogate escape has no counterpart among
the strings of the model and is refused. -/
def parseUnicode : List Char → Option (Char × List Char)
  | a :: b :: c :: d :: r2 =>
    match hex4 a b c d with
    | none => none
    | some hi =>
      if 0xD800 ≤ hi ∧ hi < 0xDC00 then parseLowSurrogate hi r2
      else if 0xDC00 ≤ hi ∧ hi < 0xE000 then none
      else some (Char.ofNat hi, r2)
  | _ => none

/-- What follows a backslash inside a string: the character denoted and the rest. -/
def parseEscape : List Char → Option (Char × List Char)
  | [] => none
  | e :: r1 =>
    if e = 'u' then parseUnicode r1
    else
      match unescape e with
      | some x => some (x, r1)
      | none => none

/-- Parse a JSON string after its opening quote, reading at most the given number of
characters of the string: the characters up to the closing quote and the rest of the
input. -/
def parseStringAux : Nat → List Char → Option (List Char × List Char)
  | 0, _ => none
  | _ + 1, [] => none
  | n + 1, c :: r =>
    if c = dquote then some ([], r)
    else if c = bslash then
      match parseEscape r with
      | some (x, r1) => consChar x (parseStringAux n r1)
      | none => none
    else if c.toNat < 32 then none
    else consChar c (parseStringAux n r)

/-- Parse a JSON string after its opening quote. Every step consumes a character, so the
length of the input bounds the steps. -/
def parseString (cs : List Char) : Option (List Char × List Char) :=
  parseStringAux cs.length cs

/-- Split off the leading decimal digits. -/
def takeDigits : List Char → List Char × List Char
  | [] => ([], [])
  | c :: r =>
    if c.isDigit then ((takeDigits r).1.cons c, (takeDigits r).2) else ([], c :: r)

/-- Value of a list of decimal digits. -/
def digitsVal (ds : List Char) : Nat :=
  ds.foldl (fun acc c => acc * 10 + (c.toNat - 48)) 0

/-- Parse an unsigned JSON integer: `0`, or a digit from 1 to 9 followed by digits. A
fraction or an exponent makes a number that is not integral, which the model leaves
out, so such a literal is refused. -/
def parseNat (cs : List Char) : Option (Nat × List Char) :=
  match takeDigits cs with
  | ([], _) => none
  | (d :: ds, r) =>
    if d = '0' ∧ ds ≠ [] then none
    else
      match r with
      | c :: _ => if c = '.' ∨ c = 'e' ∨ c = 'E' then none else some (digitsVal (d :: ds), r)
      | [] => some (digitsVal (d :: ds), r)

/-- A key that is an array index: the canonical decimal form of a number below
`2^32 - 1`. Such keys are enumerated first, in ascending order. -/
def arrayIndex (k : String) : Option Nat :=
  match k.data with
  | [] => none
  | d :: ds =>
    if (d :: ds).all Char.isDigit ∧ ¬ (d = '0' ∧ ds ≠ []) ∧ digitsVal (d :: ds) < 4294967295
    then some (digitsVal (d :: ds))
    else none

/-- Place a new property: an array index before the first property that is not an index
or is a larger one, any other key at the end. -/
def insertProp (k : String) (v : JSValue) : List (String × JSValue) → List (String × JSValue)
  | [] => [(k, v)]
  | (k1, v1) :: t =>
    match arrayIndex k, arrayIndex k1 with
    | some i, some j => if i < j then (k, v) :: (k1, v1) :: t else (k1, v1) :: insertProp k v t
    | some _, none => (k, v) :: (k1, v1) :: t
    | none, _ => (k1, v1) :: insertProp k v t

/-- Define property `k`: overwrite the value where the key exists, else place it. -/
def setProp (k : String) (v : JSValue) (kvs : List (String × JSValue)) :
    List (String × JSValue) :=
  if kvs.any (fun p => p.1 = k) then kvs.map (fun p => if p.1 = k then (k, v) else p)
  else insertProp k v kvs

/-- The object built from the members of an object literal, in source order. -/
def objectOf (members : List (String × JSValue)) : JSValue :=
  .obj (members.foldl (fun acc p => setProp p.1 p.2 acc) [])

mutual
/-- Parse one JSON value, white space before it allowed, into its syntax tree: an object
keeps its members as written, in source order. The first argument bounds the number of
nested calls. -/
def parseValue : Nat → List Char → Option (JSValue × List Char)
  | 0, _ => none
  | fuel + 1, cs =>
    match skipWs cs with
    | [] => none
    | c :: r =>
      if c = dquote then
        match parseString r with
        | some (s, r1) => some (.str (String.mk s), r1)
        | none => none
      else if c = '[' then
        match skipWs r with
        | ']' :: r1 => some (.arr [], r1)
        | _ =>
          match parseElems fuel r with
          | some (xs, r1) => some (.arr xs, r1)
          | none => none
      else if c = Char.ofNat 123 then
        match skipWs r with
        | [] => none
        | c1 :: r1 =>
          if c1 = Char.ofNat 125 then some (.obj [], r1)
          else
            match parseMembers fuel r with
            | some (ms, r2) => some (.obj ms, r2)
            | none => none
      else if c = '-' then
        match parseNat r with
        | some (n, r1) => some (.num (-(n : Int)), r1)
        | none => none
      else if c.isDigit then
        match parseNat (c :: r) with
        | some (n, r1) => some (.num (n : Int), r1)
        | none => none
      else
        match c :: r with
        | 'n' :: 'u' :: 'l' :: 'l' :: r1 => some (.null, r1)
        | 't' :: 'r' :: 'u' :: 'e' :: r1 => some (.bool true, r1)
        | 'f' :: 'a' :: 'l' :: 's' :: 'e' :: r1 => some (.bool false, r1)
        | _ => none
/-- Parse the elements of a non-empty array up to and including the closing bracket. -/
def parseElems : Nat → List Char → Option (List JSValue × List Char)
  | 0, _ => none
  | fuel + 1, cs =>
    match parseValue fuel cs with
    | none => none
    | some (v, r) =>
      match skipWs r with
      | [] => none
      | c :: r1 =>
        if c = ',' then
          match parseElems fuel r1 with
          | some (vs, r2) => some (v :: vs, r2)
          | none => none
        else if c = ']' then some ([v], r1)
        else none
/-- Parse the members of a non-empty object up to and including the closing brace. -/
def parseMembers : Nat → List Char → Option (List (String × JSValue) × List Char)
  | 0, _ => none
  | fuel + 1, cs =>
    match skipWs cs with
    | [] => none
    | q :: r =>
      if q = dquote then
        match parseString r with
        | none => none
        | some (k, r1) =>
          match skipWs r1 with
          | [] => none
          | c :: r2 =>
            if c = ':' then
              match parseValue fuel r2 with
              | none => none
              | some (v, r3) =>
                match skipWs r3 with
                | [] => none
                | c1 :: r4 =>
                  if c1 = ',' then
                    match parseMembers fuel r4 with
                    | some (ms, r5) => some ((String.mk k, v) :: ms, r5)
                    | none => none
                  else if c1 = Char.ofNat 125 then some ([(String.mk k, v)], r4)
                  else none
            else none
      else none
end

/-- The syntax tree of a whole JSON text, or `none` when the text is not JSON. Every
nested call consumes a character first and a level of nesting costs two calls, so twice
the length of the text bounds the calls needed. -/
def parseText (s : String) : Option JSValue :=
  match parseValue (2 * s.length + 2) s.data with
  | some (v, r) => if skipWs r = [] then some v else none
  | none => none

mutual
/-- The JavaScript value a syntax tree denotes: every object is built from its members. -/
def build : JSValue → JSValue
  | .arr xs => .arr (buildElems xs)
  | .obj ms => objectOf (buildMembers ms)
  | v => v
/-- The values the elements denote. -/
def buildElems : List JSValue → List JSValue
  | [] => []
  | x :: t => build x :: buildElems t
/-- The members with the values they denote. -/
def buildMembers : List (String × JSValue) → List (String × JSValue)
  | [] => []
  | (k, v) :: t => (k, build v) :: buildMembers t
end

/-- `JSON.parse(s)`: the value the whole text denotes, or `none` where the engine throws
a `SyntaxError`. -/
def parse (s : String) : Option JSValue :=
  match parseText s with
  | some v => some (build v)
  | none => none

mutual
/-- How deep arrays and objects are nested in a syntax tree; a scalar has depth 0. -/
def nesting : JSValue → Nat
  | .arr xs => nestingElems xs + 1
  | .obj ms => nestingMembers ms + 1
  | _ => 0
/-- The deepest nesting among elements. -/
def nestingElems : List JSValue → Nat
  | [] => 0
  | x :: t => max (nesting x) (nestingElems t)
/-- The deepest nesting among members. -/
def nestingMembers : List (String × JSValue) → Nat
  | [] => 0
  | (_, v) :: t => max (nesting v) (nestingMembers t)
end

end JSON

/-! ## The extension and the JavaScript runners -/

/-- An extension method as the dispatcher sees it through `await`: applied to its
arguments it yields the value the call settles to, or throws an `Error` whose message is
the given string. -/
abbrev JSMethod := List JSValue → Except String JSValue

/-- What the property `spider.<name>` holds: nothing, a value that is not a function
(of which only the truthiness matters), or a function. -/
inductive Member where
  | absent
  | data (truthy : Bool)
  | fn (f : JSMethod)

/-- The loaded extension: the object bound to `spider`, seen through its properties. -/
abbrev JSSpider := String → Member

/-- Texts that the engine chooses: the message of the `TypeError` raised by calling
`spider.<name>` when that is not a function, the message of the `SyntaxError` raised by
`JSON.parse` on a text, and the message of the `TypeError` raised by
`process.stdout.write(undefined)`. -/
structure JSEngine where
  notAFunction : String → String
  parseErrorMessage : String → String
  invalidChunk : String

/-- One call of an extension method: its name and the arguments it received. -/
abbrev JSCall := String × List JSValue

/-- Everything one run of `callMethod` did: the extension methods called, the texts
written to standard output and the texts written to standard error, each in order. -/
structure JSTrace where
  calls : List JSCall
  out : List String
  err : List String

/-- A process run: what the dispatch did and the exit status. -/
structure JSRun where
  trace : JSTrace
  exit : Nat

/-- `methodArgs[i]`: the string at position `i`, `undefined` past the end. -/
def argAt (methodArgs : List String) (i : Nat) : JSValue :=
  match methodArgs[i]? with
  | some s => .str s
  | none => .undefined

/-- `methodArgs[i] || d`: the argument when it is truthy (a non-empty string), else `d`. -/
def argOr (methodArgs : List String) (i : Nat) (d : String) : JSValue :=
  match methodArgs[i]? with
  | some s => if s = "" then .str d else .str s
  | none => .str d

/-- `methodArgs[i] === 'true'`. -/
def argIsTrue (methodArgs : List String) (i : Nat) : Bool :=
  match methodArgs[i]? with
  | some s => decide (s = "true")
  | none => false

/-- `methodArgs[i] ? JSON.parse(methodArgs[i]) : d`: a truthy argument is parsed, which
may throw; an absent or empty one gives `d`. -/
def argJson (E : JSEngine) (methodArgs : List String) (i : Nat) (d : JSValue) :
    Except String JSValue :=
  match methodArgs[i]? with
  | some s =>
    if s = "" then .ok d
    else
      match JSON.parse s with
      | some v => .ok v
      | none => .error (E.parseErrorMessage s)
  | none => .ok d

/-- The call `spider.<name>(args)`: the arguments are evaluated first, so an error there
wins; then a property that is not a function raises a `TypeError`; else the method runs. -/
def invoke (E : JSEngine) (spider : JSSpider) (name : String)
    (args : Except String (List JSValue)) : List JSCall × Except String JSValue :=
  match args with
  | .error m => ([], .error m)
  | .ok as =>
    match spider name with
    | .fn f => ([(name, as)], f as)
    | _ => ([], .error (E.notAFunction name))

/-- The `switch (method)` statement of `callMethod` in `runner.js` (lines 79 to 135): the
calls made, and the value assigned to `result` or the error thrown. -/
def switchBody (E : JSEngine) (spider : JSSpider) (method : String)
    (methodArgs : List String) : List JSCall × Except String JSValue :=
  match method with
  | "init" => invoke E spider "init" (.ok [argOr methodArgs 0 ""])
  | "homeContent" => invoke E spider "homeContent" (.ok [.bool (argIsTrue methodArgs 0)])
  | "homeVideoContent" => invoke E spider "homeVideoContent" (.ok [])
  | "categoryContent" =>
    invoke E spider "categoryContent"
      (match argJson E methodArgs 3 (.obj []) with
        | .ok extend =>
          .ok [argAt methodArgs 0, argAt methodArgs 1, .bool (argIsTrue methodArgs 2), extend]
        | .error m => .error m)
  | "detailContent" =>
    invoke E spider "detailContent"
      (match argJson E methodArgs 0 (.arr []) with
        | .ok ids => .ok [ids]
        | .error m => .error m)
  | "searchContent" =>
    invoke E spider "searchContent"
      (.ok [argAt methodArgs 0, .bool (argIsTrue methodArgs 1), argOr methodArgs 2 "1"])
  | "playerContent" =>
    invoke E spider "playerContent"
      (match argJson E methodArgs 2 (.arr []) with
        | .ok vipFlags => .ok [argAt methodArgs 0, argAt methodArgs 1, vipFlags]
        | .error m => .error m)
  | "liveContent" => invoke E spider "liveContent" (.ok [argOr methodArgs 0 ""])
  | "proxy" =>
    invoke E spider "proxy"
      (match argJson E methodArgs 0 (.obj []) with
        | .ok params => .ok [params]
        | .error m => .error m)
  | "action" => invoke E spider "action" (.ok [argOr methodArgs 0 ""])
  | "destroy" =>
    match spider "destroy" with
    | .fn f =>
      match f [] with
      | .ok _ => ([("destroy", [])], .ok (.str ""))
      | .error m => ([("destroy", [])], .error m)
    | .data true => ([], .error (E.notAFunction "destroy"))
    | _ => ([], .ok (.str ""))
  | _ => ([], .error ("未知方法: " ++ method))

/-- The text `JSON.stringify({ error: m })`. -/
def errorEnvelope (m : String) : String :=
  String.mk (JSON.stringifyChars (.obj [("error", .str m)]))

/-- The line written to standard error in the `catch` block. QuickJS builds it by
concatenation and ends it with a line feed; `console.error` in Node joins its four string
arguments with single spaces and ends the line, which is the same text. -/
def failureLine (method m : String) : String :=
  "执行方法失败: " ++ method ++ " - " ++ m ++ "\n"

namespace QuickJS

/-- The output step of `runner.js`: a string is written as it is, `undefined` and `null`
write nothing, any other value is written as `JSON.stringify` gives it (`std.out.puts`
turns its argument into a string). -/
def emit (result : JSValue) : List String :=
  match result with
  | .str s => [s]
  | .undefined => []
  | .null => []
  | v =>
    match JSON.stringify v with
    | some t => [t]
    | none => ["undefined"]

/-- The function `callMethod` of `runner.js`. -/
def callMethod (E : JSEngine) (spider : JSSpider) (method : String)
    (methodArgs : List String) : JSTrace :=
  match switchBody E spider method methodArgs with
  | (calls, .ok result) => { calls := calls, out := emit result, err := [] }
  | (calls, .error m) =>
    { calls := calls, out := [errorEnvelope m], err := [failureLine method m] }

/-- The last statement of `runner.js`, `callMethod();`: the script ends after it and the
process leaves with status 0. -/
def main (E : JSEngine) (spider : JSSpider) (method : String) (methodArgs : List String) :
    JSRun :=
  { trace := callMethod E spider method methodArgs, exit := 0 }

end QuickJS

namespace Node

/-- The `switch (method)` statement of `callMethod` in `runner_node.js` (lines 80 to 136),
written from that file: the calls made, and the value assigned to `result` or the error
thrown. -/
def switchBody (E : JSEngine) (spider : JSSpider) (method : String)
    (methodArgs : List String) : List JSCall × Except String JSValue :=
  match method with
  | "init" => invoke E spider "init" (.ok [argOr methodArgs 0 ""])
  | "homeContent" => invoke E spider "homeContent" (.ok [.bool (argIsTrue methodArgs 0)])
  | "homeVideoContent" => invoke E spider "homeVideoContent" (.ok [])
  | "categoryContent" =>
    invoke E spider "categoryContent"
      (match argJson E methodArgs 3 (.obj []) with
        | .ok extend =>
          .ok [argAt methodArgs 0, argAt methodArgs 1, .bool (argIsTrue methodArgs 2), extend]
        | .error m => .error m)
  | "detailContent" =>
    invoke E spider "detailContent"
      (match argJson E methodArgs 0 (.arr []) with
        | .ok ids => .ok [ids]
        | .error m => .error m)
  | "searchContent" =>
    invoke E spider "searchContent"
      (.ok [argAt methodArgs 0, .bool (argIsTrue methodArgs 1), argOr methodArgs 2 "1"])
  | "playerContent" =>
    invoke E spider "playerContent"
      (match argJson E methodArgs 2 (.arr []) with
        | .ok vipFlags => .ok [argAt methodArgs 0, argAt methodArgs 1, vipFlags]
        | .error m => .error m)
  | "liveContent" => invoke E spider "liveContent" (.ok [argOr methodArgs 0 ""])
  | "proxy" =>
    invoke E spider "proxy"
      (match argJson E methodArgs 0 (.obj []) with
        | .ok params => .ok [params]
        | .error m => .error m)
  | "action" => invoke E spider "action" (.ok [argOr methodArgs 0 ""])
  | "destroy" =>
    match spider "destroy" with
    | .fn f =>
      match f [] with
      | .ok _ => ([("destroy", [])], .ok (.str ""))
      | .error m => ([("destroy", [])], .error m)
    | .data true => ([], .error (E.notAFunction "destroy"))
    | _ => ([], .ok (.str ""))
  | _ => ([], .error ("未知方法: " ++ method))

/-- The output step of `runner_node.js`: as in `runner.js`, except that
`process.stdout.write` throws a `TypeError` when handed `undefined`. -/
def emit (E : JSEngine) (result : JSValue) : Except String (List String) :=
  match result with
  | .str s => .ok [s]
  | .undefined => .ok []
  | .null => .ok []
  | v =>
    match JSON.stringify v with
    | some t => .ok [t]
    | none => .error E.invalidChunk

/-- The function `callMethod` of `runner_node.js`. -/
def callMethod (E : JSEngine) (spider : JSSpider) (method : String)
    (methodArgs : List String) : JSTrace :=
  match Node.switchBody E spider method methodArgs with
  | (calls, .ok result) =>
    match emit E result with
    | .ok texts => { calls := calls, out := texts, err := [] }
    | .error m => { calls := calls, out := [errorEnvelope m], err := [failureLine method m] }
  | (calls, .error m) =>
    { calls := calls, out := [errorEnvelope m], err := [failureLine method m] }

/-- The last statement of `runner_node.js`: `callMethod()` catches every error itself,
so its promise is fulfilled and the `then` handler runs `process.exit(0)`. -/
def main (E : JSEngine) (spider : JSSpider) (method : String) (methodArgs : List String) :
    JSRun :=
  { trace := callMethod E spider method methodArgs, exit := 0 }

end Node

/-- The eleven method names of the `switch`. -/
def closedSet : List String :=
  ["init", "homeContent", "homeVideoContent", "categoryContent", "detailContent",
    "searchContent", "playerContent", "liveContent", "proxy", "action", "destroy"]

/-- The defaults of `Spider.prototype` in `js/lib/spider.js`: every method returns the
empty string, except `proxy`, which returns `null`, and `destroy`, which returns
nothing. -/
def baseSpider : JSSpider := fun name =>
  match name with
  | "init" => .fn (fun _ => .ok (.str ""))
  | "homeContent" => .fn (fun _ => .ok (.str ""))
  | "homeVideoContent" => .fn (fun _ => .ok (.str ""))
  | "categoryContent" => .fn (fun _ => .ok (.str ""))
  | "detailContent" => .fn (fun _ => .ok (.str ""))
  | "searchContent" => .fn (fun _ => .ok (.str ""))
  | "playerContent" => .fn (fun _ => .ok (.str ""))
  | "liveContent" => .fn (fun _ => .ok (.str ""))
  | "proxy" => .fn (fun _ => .ok .null)
  | "action" => .fn (fun _ => .ok (.str ""))
  | "destroy" => .fn (fun _ => .ok .undefined)
  | _ => .absent

/-- An extension whose only method is a `destroy` that returns the string `"bye"`. -/
def farewellSpider : JSSpider := fun name =>
  match name with
  | "destroy" => .fn (fun _ => .ok (.str "bye"))
  | _ => .absent

/-- An extension whose `init` returns the string `"ready"` and whose `homeContent`
returns the object `{ list: [] }`. -/
def catalogSpider : JSSpider := fun name =>
  match name with
  | "init" => .fn (fun _ => .ok (.str "ready"))
  | "homeContent" => .fn (fun _ => .ok (.obj [("list", .arr [])]))
  | _ => .absent

/-- An extension with no method at all. -/
def emptySpider : JSSpider := fun _ => .absent

/-- An engine with fixed message texts, for the concrete instances. -/
def sampleEngine : JSEngine :=
  { notAFunction := fun name => name ++ " is not a function"
    parseErrorMessage := fun _ => "unexpected token"
    invalidChunk := "invalid chunk" }

/-- An engine with other message texts, as those of V8 differ from those of QuickJS. -/
def otherEngine : JSEngine :=
  { notAFunction := fun name => "spider." ++ name ++ " is not a function"
    parseErrorMessage := fun text => "Unexpected token in JSON: " ++ text
    invalidChunk := "The chunk argument must be of type string" }

/-! ## PHP values and the PHP JSON functions -/

/-- A key of a PHP array: an integer or a string. -/
inductive PHPKey where
  | int (n : Int)
  | str (s : String)
deriving DecidableEq

/-- Plain-data PHP values. An array is an ordered map; a list is an array whose keys are
`0, 1, 2, ...` in order, and `[]` is both the empty list and the empty map. -/
inductive PHPValue where
  | null
  | bool (b : Bool)
  | int (n : Int)
  | str (s : String)
  | arr (items : List (PHPKey × PHPValue))

namespace PHPValue

/-- The items of a list with the given elements, the keys counting up from `i`. -/
def listItems (i : Nat) : List PHPValue → List (PHPKey × PHPValue)
  | [] => []
  | v :: t => (.int (i : Int), v) :: listItems (i + 1) t

/-- The list of strings `ids` as a value. -/
def ofStrings (ids : List String) : PHPValue :=
  arr (listItems 0 (ids.map str))

end PHPValue

namespace PHP

/-- `strtolower`: the letters `A` to `Z` become lower case, every other character stays. -/
def strtolower (s : String) : String :=
  String.mk (s.data.map Char.toLower)

/-- The array key a string is stored under: a canonical decimal integer in the range of
a 64-bit integer becomes an integer key, any other string stays a string key. -/
def arrayKey (k : String) : PHPKey :=
  match k.data with
  | [] => .str k
  | c :: cs =>
    if c = '-' then
      match cs with
      | [] => .str k
      | d :: ds =>
        if (d :: ds).all Char.isDigit ∧ d ≠ '0' ∧ JSON.digitsVal (d :: ds) ≤ 9223372036854775808
        then .int (-(JSON.digitsVal (d :: ds) : Int))
        else .str k
    else
      if (c :: cs).all Char.isDigit ∧ ¬ (c = '0' ∧ cs ≠ []) ∧
        JSON.digitsVal (c :: cs) ≤ 9223372036854775807
      then .int (JSON.digitsVal (c :: cs) : Int)
      else .str k

/-- The assignment `$a[k] = v`: overwrite in place where the key exists, else append. -/
def setKey (k : PHPKey) (v : PHPValue) (items : List (PHPKey × PHPValue)) :
    List (PHPKey × PHPValue) :=
  if items.any (fun p => p.1 = k) then items.map (fun p => if p.1 = k then (k, v) else p)
  else items ++ [(k, v)]

mutual
/-- The PHP value of a JSON syntax tree under `json_decode($s, true)`: arrays become
lists and objects become arrays keyed by their member names. -/
def ofJSON : JSValue → PHPValue
  | .undefined => .null
  | .null => .null
  | .bool b => .bool b
  | .num n => .int n
  | .str s => .str s
  | .arr xs => .arr (PHPValue.listItems 0 (ofJSONElems xs))
  | .obj ms => .arr ((ofJSONMembers ms).foldl (fun acc p => setKey p.1 p.2 acc) [])
/-- The PHP values of the elements. -/
def ofJSONElems : List JSValue → List PHPValue
  | [] => []
  | x :: t => ofJSON x :: ofJSONElems t
/-- The members, keyed as PHP keys them. -/
def ofJSONMembers : List (String × JSValue) → List (PHPKey × PHPValue)
  | [] => []
  | (k, v) :: t => (arrayKey k, ofJSON v) :: ofJSONMembers t
end

/-- The default nesting limit of `json_decode` and `json_encode`. -/
def depthLimit : Nat := 512

/-- `json_decode($s, true)`: the value of a JSON text nested no deeper than the limit;
`null` for any other text. No exception is thrown. -/
def json_decode (s : String) : PHPValue :=
  match JSON.parseText s with
  | some v => if JSON.nesting v ≤ depthLimit then ofJSON v else .null
  | none => .null

/-- The escapes of a character as UTF-16 code units: one `\uXXXX`, or a surrogate pair
for a character beyond the basic plane. -/
def utf16Escape (c : Char) : List Char :=
  if c.toNat < 65536 then JSON.unicodeEscape c.toNat
  else
    JSON.unicodeEscape (55296 + (c.toNat - 65536) / 1024) ++
      JSON.unicodeEscape (56320 + (c.toNat - 65536) % 1024)

/-- One character of a string under `json_encode`. The slash is escaped. With the flag
`JSON_UNESCAPED_UNICODE` a character outside ASCII is written as itself, except the
line and paragraph separators; without the flag it is escaped. -/
def quoteChar (unescapedUnicode : Bool) (c : Char) : List Char :=
  if c = JSON.dquote then [JSON.bslash, JSON.dquote]
  else if c = JSON.bslash then [JSON.bslash, JSON.bslash]
  else if c = '/' then [JSON.bslash, '/']
  else if c = Char.ofNat 8 then [JSON.bslash, 'b']
  else if c = Char.ofNat 12 then [JSON.bslash, 'f']
  else if c = Char.ofNat 10 then [JSON.bslash, 'n']
  else if c = Char.ofNat 13 then [JSON.bslash, 'r']
  else if c = Char.ofNat 9 then [JSON.bslash, 't']
  else if c.toNat < 32 then JSON.unicodeEscape c.toNat
  else if c.toNat < 128 then [c]
  else if unescapedUnicode ∧ c.toNat ≠ 8232 ∧ c.toNat ≠ 8233 then [c]
  else utf16Escape c

/-- The characters of a string between its quotes. -/
def quoteBody (unescapedUnicode : Bool) : List Char → List Char
  | [] => []
  | c :: cs => quoteChar unescapedUnicode c ++ quoteBody unescapedUnicode cs

/-- The JSON text of a string under `json_encode`. -/
def quote (unescapedUnicode : Bool) (s : String) : List Char :=
  JSON.dquote :: (quoteBody unescapedUnicode s.data ++ [JSON.dquote])

/-- Whether the keys are `i, i + 1, ...` in order, which makes the array a list. -/
def isListFrom (i : Nat) : List (PHPKey × PHPValue) → Bool
  | [] => true
  | (k, _) :: t => decide (k = .int (i : Int)) && isListFrom (i + 1) t

/-- The text of a key as a member name. -/
def keyText (unescapedUnicode : Bool) : PHPKey → List Char
  | .int n => JSON.dquote :: ((toString n).data ++ [JSON.dquote])
  | .str s => quote unescapedUnicode s

mutual
/-- The JSON text of a value under `json_encode`: a list is written as an array, any
other array as an object. -/
def encodeChars (unescapedUnicode : Bool) : PHPValue → List Char
  | .null => "null".data
  | .bool b => if b then "true".data else "false".data
  | .int n => (toString n).data
  | .str s => quote unescapedUnicode s
  | .arr items =>
    if isListFrom 0 items then '[' :: (encodeElems unescapedUnicode items ++ [']'])
    else Char.ofNat 123 :: (encodeMembers unescapedUnicode items ++ [Char.ofNat 125])
/-- The values of the items, separated by commas. -/
def encodeElems (unescapedUnicode : Bool) : List (PHPKey × PHPValue) → List Char
  | [] => []
  | [(_, v)] => encodeChars unescapedUnicode v
  | (_, v) :: p :: t =>
    encodeChars unescapedUnicode v ++ ',' :: encodeElems unescapedUnicode (p :: t)
/-- The items as members, separated by commas. -/
def encodeMembers (unescapedUnicode : Bool) : List (PHPKey × PHPValue) → List Char
  | [] => []
  | [(k, v)] => keyText unescapedUnicode k ++ ':' :: encodeChars unescapedUnicode v
  | (k, v) :: p :: t =>
    keyText unescapedUnicode k ++ ':' :: encodeChars unescapedUnicode v
      ++ ',' :: encodeMembers unescapedUnicode (p :: t)
end

mutual
/-- How deep arrays are nested in a value; a scalar has depth 0. -/
def nesting : PHPValue → Nat
  | .arr items => nestingItems items + 1
  | _ => 0
/-- The deepest nesting among items. -/
def nestingItems : List (PHPKey × PHPValue) → Nat
  | [] => 0
  | (_, v) :: t => max (nesting v) (nestingItems t)
end

/-- `json_encode($v, $flags)` with or without `JSON_UNESCAPED_UNICODE`: the JSON text, or
`false` (here `none`) when the value is nested deeper than the limit. -/
def json_encode (unescapedUnicode : Bool) (v : PHPValue) : Option String :=
  if nesting v ≤ depthLimit then some (String.mk (encodeChars unescapedUnicode v)) else none

/-- What a call of an extension method does: return a value, throw an `Exception` with a
message, or end the script with an error that `catch (Exception $e)` does not catch. -/
inductive Outcome where
  | ret (v : PHPValue)
  | exception (message : String)
  | fatal

/-- An extension method. -/
abbrev Method := List PHPValue → Outcome

/-- The loaded extension: the object bound to `$spider`, seen through its methods; `none`
where the object has no such method. -/
abbrev Spider := String → Option Method

/-- One call of an extension method: its name and the arguments it received. -/
abbrev Call := String × List PHPValue

/-- A run of the script from the call of `callMethod` on: the extension methods called,
the texts echoed to standard output, the texts written to standard error, and the exit
status. -/
structure Run where
  calls : List Call
  out : List String
  err : List String
  exit : Nat

/-- `$args[i] ?? d`. -/
def argOr (args : List String) (i : Nat) (d : String) : PHPValue :=
  match args[i]? with
  | some s => .str s
  | none => .str d

/-- `isset($args[i]) && strtolower($args[i]) === 'true'`. -/
def argIsTrue (args : List String) (i : Nat) : Bool :=
  match args[i]? with
  | some s => decide (strtolower s = "true")
  | none => false

/-- `isset($args[i]) ? json_decode($args[i], true) : []`, then `?? []` at the call: a
`null` from the decoder is replaced by the empty array. -/
def argJson (args : List String) (i : Nat) : PHPValue :=
  match args[i]? with
  | some s =>
    match json_decode s with
    | .null => .arr []
    | v => v
  | none => .arr []

/-- The call `$spider->name(...)`: calling a method the object does not have raises an
`Error`, which is not an `Exception`. -/
def invoke (spider : Spider) (name : String) (args : List PHPValue) : List Call × Outcome :=
  match spider name with
  | some f => ([(name, args)], f args)
  | none => ([], .fatal)

/-- The `switch ($method)` statement of `callMethod` in `runner.php`: the calls made and
the value assigned to `$result`, or what was thrown. -/
def switchBody (spider : Spider) (method : String) (args : List String) :
    List Call × Outcome :=
  match method with
  | "init" => invoke spider "init" [argOr args 0 ""]
  | "homeContent" => invoke spider "homeContent" [.bool (argIsTrue args 0)]
  | "homeVideoContent" => invoke spider "homeVideoContent" []
  | "categoryContent" =>
    invoke spider "categoryContent"
      [argOr args 0 "", argOr args 1 "1", .bool (argIsTrue args 2), argJson args 3]
  | "detailContent" => invoke spider "detailContent" [argJson args 0]
  | "searchContent" =>
    invoke spider "searchContent" [argOr args 0 "", .bool (argIsTrue args 1), argOr args 2 "1"]
  | "playerContent" =>
    invoke spider "playerContent" [argOr args 0 "", argOr args 1 "", argJson args 2]
  | "liveContent" => invoke spider "liveContent" [argOr args 0 ""]
  | "proxy" => invoke spider "proxy" [argJson args 0]
  | "action" => invoke spider "action" [argOr args 0 ""]
  | "destroy" =>
    match spider "destroy" with
    | some f =>
      match f [] with
      | .ret _ => ([("destroy", [])], .ret (.str ""))
      | .exception m => ([("destroy", [])], .exception m)
      | .fatal => ([("destroy", [])], .fatal)
    | none => ([], .ret (.str ""))
  | _ => ([], .exception ("未知方法: " ++ method))

/-- The value `json_encode(['error' => $m])`, flags at their default: a string, or `false`. -/
def errorEnvelope (m : String) : PHPValue :=
  match json_encode false (.arr [(.str "error", .str m)]) with
  | some t => .str t
  | none => .bool false

/-- The line written to standard error in the `catch` block. -/
def failureLine (method m : String) : String :=
  "执行方法失败: " ++ method ++ " - " ++ m ++ "\n"

/-- The function `callMethod` of `runner.php`: the calls made, the lines written to
standard error, and the value returned, `none` when an uncaught error ends the script. -/
def callMethod (spider : Spider) (method : String) (args : List String) :
    List Call × List String × Option PHPValue :=
  match switchBody spider method args with
  | (calls, .ret result) => (calls, [], some result)
  | (calls, .exception m) => (calls, [failureLine method m], some (errorEnvelope m))
  | (calls, .fatal) => (calls, [], none)

/-- The output step: a string is echoed as it is, `null` echoes nothing, any other value
is echoed as `json_encode($result, JSON_UNESCAPED_UNICODE)` gives it, and `false` from
the encoder is echoed as the empty text. -/
def emit (result : PHPValue) : List String :=
  match result with
  | .str s => [s]
  | .null => []
  | v =>
    match json_encode true v with
    | some t => [t]
    | none => [""]

/-- The script from `$result = callMethod($spider, $method, $methodArgs);` to its end.
An uncaught error ends the script with status 255 before anything is echoed. -/
def main (spider : Spider) (method : String) (args : List String) : Run :=
  match callMethod spider method args with
  | (calls, err, some result) => { calls := calls, out := emit result, err := err, exit := 0 }
  | (calls, err, none) => { calls := calls, out := [], err := err, exit := 255 }

/-- The defaults of class `Spider` in `php/base/spider.php`: every method returns the
empty string, except `proxy` and `destroy`, which return `null`. -/
def baseSpider : Spider := fun name =>
  match name with
  | "init" => some (fun _ => .ret (.str ""))
  | "homeContent" => some (fun _ => .ret (.str ""))
  | "homeVideoContent" => some (fun _ => .ret (.str ""))
  | "categoryContent" => some (fun _ => .ret (.str ""))
  | "detailContent" => some (fun _ => .ret (.str ""))
  | "searchContent" => some (fun _ => .ret (.str ""))
  | "playerContent" => some (fun _ => .ret (.str ""))
  | "liveContent" => some (fun _ => .ret (.str ""))
  | "proxy" => some (fun _ => .ret .null)
  | "action" => some (fun _ => .ret (.str ""))
  | "destroy" => some (fun _ => .ret .null)
  | _ => none

end PHP

/-! ## Loading the extension -/

/-- What a variable or property read by a loader holds, as far as the loader can tell:
nothing (`typeof` gives `'undefined'`), a falsy value that is defined (`null`, `false`,
`0`, `''`), or a truthy value, seen through its properties. -/
inductive Binding where
  | undefined
  | falsy
  | object (s : JSSpider)

namespace Binding

/-- The test `typeof x !== 'undefined'`. -/
def isDefined : Binding → Bool
  | undefined => false
  | _ => true

/-- Whether `x` is truthy, the negation of `!x`. -/
def truthy : Binding → Bool
  | object _ => true
  | _ => false

/-- The value of `a || b`. -/
def or (a b : Binding) : Binding :=
  if a.truthy then a else b

end Binding

namespace QuickJS

/-- The two global bindings an extension script may leave behind. -/
structure Globals where
  spider : Binding
  altSpider : Binding

/-- What surrounds `runner.js`: the lines `loadLib` wrote to standard error, the content
`std.loadFile` returns for a path (`null`, here `none`, when the file cannot be read), and
what `std.evalScript` does with the code of the extension: the message of the error it
throws, or the global bindings named `spider` and `__spider__` afterwards. -/
structure Host where
  libLines : List String
  loadFile : String → Option String
  evalScript : String → Except String Globals

/-- The block `// 加载爬虫脚本` of `runner.js`, up to the `catch`. The script is a module
(it begins with `import` declarations), so `let spider = null;` declares a binding of the
module. A script run by `std.evalScript` runs in the global scope and cannot reach that
binding, and inside the module the identifier `spider` denotes the module's binding, not a
global of the same name: the test `typeof spider !== 'undefined'` reads `null`. -/
def load (H : Host) (spiderPath : String) : Except String JSSpider :=
  let spider : Binding := .falsy
  match H.loadFile spiderPath with
  | none => .error ("无法读取爬虫脚本: " ++ spiderPath)
  | some spiderCode =>
    if spiderCode = "" then .error ("无法读取爬虫脚本: " ++ spiderPath)
    else
      match H.evalScript spiderCode with
      | .error m => .error m
      | .ok globals =>
        let chosen : Except String Binding :=
          if spider.isDefined then .ok spider
          else if globals.altSpider.isDefined then .ok globals.altSpider
          else .error "爬虫脚本未导出 spider 对象"
        match chosen with
        | .error m => .error m
        | .ok (.object s) => .ok s
        | .ok _ => .error "爬虫脚本未导出 spider 对象"

/-- The script `runner.js` from the loading block to its end, for an argument vector that
names the extension path and the method: a loading error is reported on standard error
and ends the process with `std.exit(1)`; else the method is dispatched. -/
def runner (E : JSEngine) (H : Host) (spiderPath method : String)
    (methodArgs : List String) : JSRun :=
  match load H spiderPath with
  | .error m =>
    { trace := { calls := [], out := [],
                 err := H.libLines ++ ["加载爬虫脚本失败: " ++ m ++ "\n"] },
      exit := 1 }
  | .ok spider =>
    { trace := { calls := (main E spider method methodArgs).trace.calls,
                 out := (main E spider method methodArgs).trace.out,
                 err := H.libLines ++ (main E spider method methodArgs).trace.err },
      exit := (main E spider method methodArgs).exit }

end QuickJS

namespace Node

/-- The three properties of the context object the runner reads after the extension ran:
`context.spider`, `context.module.exports` and `context.exports`. -/
structure Context where
  spider : Binding
  moduleExports : Binding
  exports : Binding

/-- The context as the runner builds it, `module: { exports: {} }` and `exports: {}`,
which is also the context after a script that assigns none of the three. -/
def freshContext : Context :=
  { spider := .undefined, moduleExports := .object emptySpider, exports := .object emptySpider }

/-- What surrounds `runner_node.js`: the lines `loadLib` wrote to standard error,
`fs.existsSync`, `fs.readFileSync` (the content, or the message of the error thrown), and
what `vm.runInNewContext` does with the code and the file name: the message of the error
the script throws, or the context afterwards. -/
structure Host where
  libLines : List String
  existsSync : String → Bool
  readFileSync : String → Except String String
  runInNewContext : String → String → Except String Context

/-- The block `// 加载爬虫脚本` of `runner_node.js`, up to the `catch`. -/
def load (H : Host) (spiderPath : String) : Except String JSSpider :=
  if H.existsSync spiderPath = false then .error ("爬虫脚本不存在: " ++ spiderPath)
  else
    match H.readFileSync spiderPath with
    | .error m => .error m
    | .ok spiderCode =>
      match H.runInNewContext spiderCode spiderPath with
      | .error m => .error m
      | .ok context =>
        match (context.spider.or context.moduleExports).or context.exports with
        | .object s => .ok s
        | _ => .error "爬虫脚本未导出 spider 对象"

/-- The script `runner_node.js` from the loading block to its end: a loading error is
reported with `console.error` and ends the process with `process.exit(1)`; else the
method is dispatched. -/
def runner (E : JSEngine) (H : Host) (spiderPath method : String)
    (methodArgs : List String) : JSRun :=
  match load H spiderPath with
  | .error m =>
    { trace := { calls := [], out := [],
                 err := H.libLines ++ ["加载爬虫脚本失败: " ++ m ++ "\n"] },
      exit := 1 }
  | .ok spider =>
    { trace := { calls := (main E spider method methodArgs).trace.calls,
                 out := (main E spider method methodArgs).trace.out,
                 err := H.libLines ++ (main E spider method methodArgs).trace.err },
      exit := (main E spider method methodArgs).exit }

end Node

namespace PHP

/-- What `require_once $spiderPath` leaves behind: the value of `$spider` when the
variable is set, and, when a class `Spider` exists, what `new Spider()` gives: the
message of the `Exception` its constructor throws, or the instance. -/
structure Loaded where
  spiderVar : Option Spider
  spiderClass : Option (Except String Spider)

/-- What `require_once` does: it runs the script, throws an `Exception`, or ends the
script with an error that is not an `Exception`. -/
inductive RequireOutcome where
  | loaded (d : Loaded)
  | exception (message : String)
  | fatal

/-- What surrounds `runner.php`: `file_exists` and `require_once`. -/
structure Host where
  file_exists : String → Bool
  require_once : String → RequireOutcome

/-- How the loading block ends: with the extension, with a caught `Exception`, or with an
uncaught error. -/
inductive LoadOutcome where
  | ready (spider : Spider)
  | failed (message : String)
  | fatal

/-- The block `// 加载爬虫脚本` of `runner.php`, up to the `catch`. -/
def load (H : Host) (spiderPath : String) : LoadOutcome :=
  if H.file_exists spiderPath = false then .failed ("爬虫脚本不存在: " ++ spiderPath)
  else
    match H.require_once spiderPath with
    | .exception m => .failed m
    | .fatal => .fatal
    | .loaded d =>
      match d.spiderVar, d.spiderClass with
      | none, none => .failed "爬虫脚本未定义 $spider 变量或 Spider 类"
      | some spider, _ => .ready spider
      | none, some (.ok spider) => .ready spider
      | none, some (.error m) => .failed m

/-- The script `runner.php` from the loading block to its end: a loading error is
written to standard error and ends the script with `exit(1)`; else the method is
dispatched. -/
def runner (H : Host) (spiderPath method : String) (args : List String) : Run :=
  match load H spiderPath with
  | .failed m => { calls := [], out := [], err := ["加载爬虫脚本失败: " ++ m ++ "\n"], exit := 1 }
  | .fatal => { calls := [], out := [], err := [], exit := 255 }
  | .ready spider => main spider method args

end PHP

/-- A file system with no file, for QuickJS. -/
def QuickJS.emptyHost : QuickJS.Host :=
  { libLines := [], loadFile := fun _ => none,
    evalScript := fun _ => .ok { spider := .undefined, altSpider := .undefined } }

/-- A file system with no file, for Node. -/
def Node.emptyHost : Node.Host :=
  { libLines := [], existsSync := fun _ => false, readFileSync := fun _ => .error "ENOENT",
    runInNewContext := fun _ _ => .ok Node.freshContext }

/-- A file system with no file, for PHP. -/
def PHP.emptyHost : PHP.Host :=
  { file_exists := fun _ => false, require_once := fun _ => .fatal }

/-- A QuickJS host whose every file holds an extension script that evaluates without
error and leaves the base extension in the global `spider` and in `__spider__`. -/
def QuickJS.readyHost : QuickJS.Host :=
  { libLines := [], loadFile := fun _ => some "var spider = createSpider(...)",
    evalScript := fun _ => .ok { spider := .object baseSpider, altSpider := .object baseSpider } }

/-- A Node host whose every file holds a script that evaluates without error and assigns
nothing to `spider`, `module.exports` or `exports`. -/
def Node.idleHost : Node.Host :=
  { libLines := [], existsSync := fun _ => true, readFileSync := fun _ => .ok "// nothing",
    runInNewContext := fun _ _ => .ok Node.freshContext }

/-! ## The bridge client and the primitives built on it -/

namespace JSValue

/-- Whether a value is truthy: `undefined`, `null`, `false`, `0` and `''` are not. -/
def truthy : JSValue → Bool
  | undefined => false
  | null => false
  | bool b => b
  | num n => decide (n ≠ 0)
  | str s => decide (s ≠ "")
  | arr _ => true
  | obj _ => true

/-- The value of `a || b`. -/
def or (a b : JSValue) : JSValue :=
  if a.truthy then a else b

/-- The test `typeof v === 'object'` for a truthy value: arrays and objects pass. -/
def isObject : JSValue → Bool
  | arr _ => true
  | obj _ => true
  | _ => false

/-- The value of property `name` in a list of properties, `undefined` when absent. -/
def field (kvs : List (String × JSValue)) (name : String) : JSValue :=
  match kvs.lookup name with
  | some v => v
  | none => undefined

/-- The text of one element in a join, given the string the element converts to:
`undefined` and `null` give the empty string. -/
def elemText (text : String) : JSValue → String
  | undefined => ""
  | null => ""
  | _ => text

mutual
/-- The string a value converts to: `ToString`. An array is its elements joined with
commas, an object is `[object Object]`. -/
def toJSString : JSValue → String
  | undefined => "undefined"
  | null => "null"
  | bool b => if b then "true" else "false"
  | num n => toString n
  | str s => s
  | arr xs => joinElems "," xs
  | obj _ => "[object Object]"
/-- The elements of an array joined with a separator, as `Array.prototype.join` does. -/
def joinElems (sep : String) : List JSValue → String
  | [] => ""
  | [x] => elemText (toJSString x) x
  | x :: y :: t => elemText (toJSString x) x ++ sep ++ joinElems sep (y :: t)
end

end JSValue

/-- What surrounds `bridge.js` and `http.js`: the integer in `BRIDGE_PORT`, what running a
command line with `std.popen` and reading its output gives (the message of the error
thrown, or the text read), the message of the `TypeError` raised by reading a property
of `null`, and `String.prototype.toUpperCase`. The host is taken to provide
`console.error`, which writes its arguments, separated by spaces, as one line on standard
error. -/
structure LibHost where
  port : Int
  popen : String → Except String String
  readOfNull : String → String
  toUpperCase : String → String

/-- What a call into the library did: the value returned or the message of the error
thrown, the command lines run, and the lines written with `console.error`. -/
structure LibRun where
  result : Except String JSValue
  spawned : List String
  err : List String

/-- The value of `BRIDGE_URL`. -/
def bridgeUrl (port : Int) : String :=
  "http://127.0.0.1:" ++ toString port

/-- The command line `bridgeCall` builds: the array `cmd` joined with spaces. The body is
`JSON.stringify(data || {})`. -/
def bridgeCommand (port : Int) (action : String) (data : JSValue) : String :=
  JSValue.joinElems " "
    [.str "curl", .str "-s", .str "-X", .str "POST", .str "-H",
      .str "Content-Type: application/json", .str "-d",
      (match JSON.stringify (data.or (.obj [])) with
        | some body => .str body
        | none => .undefined),
      .str (bridgeUrl port ++ "/" ++ action)]

/-- The function `bridgeCall` of `bridge.js`. The test of the port stands before the
`try` block, so its error leaves the function; every error inside the block is caught,
reported and returned as `{ error: message }`. -/
def bridgeCall (E : JSEngine) (H : LibHost) (action : String) (data : JSValue) : LibRun :=
  if H.port ≤ 0 then { result := .error "桥接服务未启动", spawned := [], err := [] }
  else
    match H.popen (bridgeCommand H.port action data) with
    | .error m =>
      { result := .ok (.obj [("error", .str m)]),
        spawned := [bridgeCommand H.port action data],
        err := ["桥接调用失败: " ++ action ++ " " ++ m ++ "\n"] }
    | .ok response =>
      match JSON.parse (if response = "" then "\x7b\x7d" else response) with
      | some v =>
        { result := .ok v, spawned := [bridgeCommand H.port action data], err := [] }
      | none =>
        { result := .ok (.obj [("error", .str (E.parseErrorMessage response))]),
          spawned := [bridgeCommand H.port action data],
          err := ["桥接调用失败: " ++ action ++ " " ++ E.parseErrorMessage response ++ "\n"] }

/-- The expression `result.<name>` for one of the names the library reads (`value`,
`result`, `port`, `url`, `data`): a `TypeError` on `null` and `undefined`, the property
of an object, and `undefined` on a string, number, boolean or array, which have no
property of these names. -/
def getProp (H : LibHost) (result : JSValue) (name : String) : Except String JSValue :=
  match result with
  | .undefined => .error (H.readOfNull name)
  | .null => .error (H.readOfNull name)
  | .obj kvs => .ok (JSValue.field kvs name)
  | _ => .ok .undefined

/-- The two statements `var result = bridgeCall(...); return result.<name> || fallback;`
that most primitives consist of, given what the call did. -/
def orFallback (H : LibHost) (call : LibRun) (name : String) (fallback : JSValue) : LibRun :=
  match call.result with
  | .error m => { result := .error m, spawned := call.spawned, err := call.err }
  | .ok result =>
    match getProp H result name with
    | .error m => { result := .error m, spawned := call.spawned, err := call.err }
    | .ok v => { result := .ok (v.or fallback), spawned := call.spawned, err := call.err }

/-- The method `local.get` of `bridge.js`. -/
def local_get (E : JSEngine) (H : LibHost) (key defaultValue : JSValue) : LibRun :=
  match (bridgeCall E H "local.get"
      (.obj [("key", key), ("default", defaultValue.or (.str ""))])).result with
  | .error m =>
    { result := .error m,
      spawned := (bridgeCall E H "local.get"
        (.obj [("key", key), ("default", defaultValue.or (.str ""))])).spawned,
      err := (bridgeCall E H "local.get"
        (.obj [("key", key), ("default", defaultValue.or (.str ""))])).err }
  | .ok result =>
    { result :=
        (match getProp H result "value" with
          | .error m => .error m
          | .ok value => .ok ((value.or defaultValue).or (.str ""))),
      spawned := (bridgeCall E H "local.get"
        (.obj [("key", key), ("default", defaultValue.or (.str ""))])).spawned,
      err := (bridgeCall E H "local.get"
        (.obj [("key", key), ("default", defaultValue.or (.str ""))])).err }

/-- The two statements `bridgeCall(...);` with nothing returned, of `local.set` and
`local.delete`, given what the call did. -/
def discardResult (call : LibRun) : LibRun :=
  match call.result with
  | .error m => { result := .error m, spawned := call.spawned, err := call.err }
  | .ok _ => { result := .ok .undefined, spawned := call.spawned, err := call.err }

/-- The method `local.set` of `bridge.js`. -/
def local_set (E : JSEngine) (H : LibHost) (key value : JSValue) : LibRun :=
  discardResult (bridgeCall E H "local.set" (.obj [("key", key), ("value", value)]))

/-- The method `local.delete` of `bridge.js`. -/
def local_delete (E : JSEngine) (H : LibHost) (key : JSValue) : LibRun :=
  discardResult (bridgeCall E H "local.delete" (.obj [("key", key)]))

/-- The function `md5X` of `bridge.js`. -/
def md5X (E : JSEngine) (H : LibHost) (data : JSValue) : LibRun :=
  orFallback H (bridgeCall E H "md5" (.obj [("data", data)])) "result" (.str "")

/-- The function `aesX` of `bridge.js`. -/
def aesX (E : JSEngine) (H : LibHost) (_mode encrypt data key iv : JSValue) : LibRun :=
  orFallback H
    (bridgeCall E H (if encrypt.truthy then "aes.encrypt" else "aes.decrypt")
      (.obj [("data", data), ("key", key), ("iv", iv.or (.str ""))]))
    "result" (.str "")

/-- The function `rsaX` of `bridge.js`. -/
def rsaX (E : JSEngine) (H : LibHost) (_mode encrypt data key : JSValue) : LibRun :=
  orFallback H
    (bridgeCall E H (if encrypt.truthy then "rsa.encrypt" else "rsa.decrypt")
      (.obj [("data", data), ("key", key)]))
    "result" (.str "")

/-- The function `s2t` of `bridge.js`. -/
def s2t (E : JSEngine) (H : LibHost) (text : JSValue) : LibRun :=
  orFallback H (bridgeCall E H "s2t" (.obj [("text", text)])) "result" text

/-- The function `t2s` of `bridge.js`. -/
def t2s (E : JSEngine) (H : LibHost) (text : JSValue) : LibRun :=
  orFallback H (bridgeCall E H "t2s" (.obj [("text", text)])) "result" text

/-- The function `getPort` of `bridge.js`. -/
def getPort (E : JSEngine) (H : LibHost) : LibRun :=
  orFallback H (bridgeCall E H "getPort" (.obj [])) "port" (.num 0)

/-- The function `getProxy` of `bridge.js`. -/
def getProxy (E : JSEngine) (H : LibHost) (_local : JSValue) : LibRun :=
  orFallback H (bridgeCall E H "getProxy" (.obj [])) "url" (.str "")

/-- The function `joinUrl` of `bridge.js`. -/
def joinUrl (E : JSEngine) (H : LibHost) (base path : JSValue) : LibRun :=
  orFallback H (bridgeCall E H "joinUrl" (.obj [("base", base), ("path", path)])) "url" base

/-! ## Outbound HTTP (`js/lib/http.js`) -/

/-- The properties `_http` reads of its `options` argument, `none` and `undefined` where
absent: `method` is a string, `headers` a plain object, `timeout` a number. -/
structure HttpOptions where
  method : Option String
  headers : Option (List (String × JSValue))
  data : JSValue
  body : JSValue
  timeout : Option Int

/-- The properties `bridgeHttp` adds to the request inside
`if (method === 'POST' && data)`: the body under `data`, and `json: true` for an object. -/
def bridgeBodyFields (method : String) (data : JSValue) : List (String × JSValue) :=
  if method = "POST" ∧ data.truthy = true then
    [("data",
      if data.isObject then
        (match JSON.stringify data with
          | some text => .str text
          | none => .undefined)
      else data)]
      ++ (if data.isObject then [("json", .bool true)] else [])
  else []

/-- The object `requestData` that `bridgeHttp` hands to `bridgeCall`. -/
def requestData (url method : String) (headers : List (String × JSValue)) (data : JSValue) :
    JSValue :=
  .obj ([("url", .str url), ("method", .str method), ("headers", .obj headers)]
    ++ bridgeBodyFields method data)

/-- The function `bridgeHttp` of `http.js`. -/
def bridgeHttp (E : JSEngine) (H : LibHost) (url method : String)
    (headers : List (String × JSValue)) (data : JSValue) : LibRun :=
  orFallback H (bridgeCall E H "http" (requestData url method headers data)) "data" (.str "")

/-- The arguments the loop `for (var key in headers)` pushes. -/
def curlHeaderArgs : List (String × JSValue) → List JSValue
  | [] => []
  | (key, value) :: t =>
    .str "-H" :: .str (key ++ ": " ++ value.toJSString) :: curlHeaderArgs t

/-- The arguments `curlRequest` pushes inside `if (method === 'POST' && data)`: for an
object the JSON content type and the JSON text after `-d`, else the data after `-d`. -/
def curlBodyArgs (method : String) (data : JSValue) : List JSValue :=
  if method = "POST" ∧ data.truthy = true then
    if data.isObject then
      [.str "-H", .str "Content-Type: application/json", .str "-d",
        (match JSON.stringify data with
          | some text => .str text
          | none => .undefined)]
    else [.str "-d", data]
  else []

/-- The array `cmd` that `curlRequest` builds. -/
def curlArgs (url method : String) (headers : List (String × JSValue)) (data : JSValue)
    (timeout : Int) : List JSValue :=
  [.str "curl", .str "-s", .str "-X", .str method]
    ++ [.str "--max-time", .num (Int.fdiv timeout 1000)]
    ++ curlHeaderArgs headers
    ++ curlBodyArgs method data
    ++ [.str url]

/-- The function `curlRequest` of `http.js`: the text the command wrote, or, after an
error, the empty string. -/
def curlRequest (H : LibHost) (url method : String) (headers : List (String × JSValue))
    (data : JSValue) (timeout : Int) : LibRun :=
  match H.popen (JSValue.joinElems " " (curlArgs url method headers data timeout)) with
  | .ok response =>
    { result := .ok (.str response),
      spawned := [JSValue.joinElems " " (curlArgs url method headers data timeout)],
      err := [] }
  | .error m =>
    { result := .ok (.str ""),
      spawned := [JSValue.joinElems " " (curlArgs url method headers data timeout)],
      err := ["HTTP 请求失败: " ++ m ++ "\n"] }

/-- The value of `options.timeout || 30000`. -/
def timeoutOf (options : Option HttpOptions) : Int :=
  match options with
  | some o =>
    match o.timeout with
    | some t => if t = 0 then 30000 else t
    | none => 30000
  | none => 30000

/-- The value of `(options.method || 'GET').toUpperCase()`. -/
def methodOf (H : LibHost) (options : Option HttpOptions) : String :=
  match options with
  | some o =>
    match o.method with
    | some m => H.toUpperCase (if m = "" then "GET" else m)
    | none => H.toUpperCase "GET"
  | none => H.toUpperCase "GET"

/-- The value of `options.headers || {}`. -/
def headersOf (options : Option HttpOptions) : List (String × JSValue) :=
  match options with
  | some o =>
    match o.headers with
    | some h => h
    | none => []
  | none => []

/-- The value of `options.data || options.body || ''`. -/
def dataOf (options : Option HttpOptions) : JSValue :=
  match options with
  | some o => (o.data.or o.body).or (.str "")
  | none => .str ""

/-- The function `_http` of `http.js`; `options` is `none` when the argument is absent. -/
def _http (E : JSEngine) (H : LibHost) (url : String) (options : Option HttpOptions) :
    LibRun :=
  if H.port > 0 then
    bridgeHttp E H url (methodOf H options) (headersOf options) (dataOf options)
  else
    curlRequest H url (methodOf H options) (headersOf options) (dataOf options)
      (timeoutOf options)

/-- The value that follows a flag in a list of command-line arguments made of pairs of
a flag and its value. -/
def argAfter (flag : String) : List JSValue → Option JSValue
  | [] => none
  | [_] => none
  | f :: v :: t =>
    match f with
    | .str name => if name = flag then some v else argAfter flag t
    | _ => argAfter flag t

/-- A host with no bridge: the port is 0. -/
def noBridge : LibHost :=
  { port := 0, popen := fun _ => .ok "", readOfNull := fun name =>
      "cannot read property " ++ name ++ " of null",
    toUpperCase := fun s => String.mk (s.data.map Char.toUpper) }

/-- A host whose bridge, on port 9978, answers every request with the given body. -/
def bridgeAnswering (body : String) : LibHost :=
  { port := 9978, popen := fun _ => .ok body, readOfNull := fun name =>
      "cannot read property " ++ name ++ " of null",
    toUpperCase := fun s => String.mk (s.data.map Char.toUpper) }

/-! ## The base class and `createSpider` of `js/lib/spider.js` -/

/-- What a property of an extension object holds: a function, or plain data. -/
inductive Property where
  | fn (f : JSMethod)
  | value (v : JSValue)

/-- The test `typeof p === 'function'`. -/
def Property.isCallable : Property → Bool
  | .fn _ => true
  | .value _ => false

/-- The object literal assigned to `Spider.prototype`, seen through its properties: the
eleven methods of `baseSpider`, and `undefined` for any other name. The names that only
`Object.prototype` defines are not looked up here. -/
def spiderPrototype (name : String) : Property :=
  match baseSpider name with
  | .fn f => .fn f
  | _ => .value .undefined

/-- Where the object made by `new Spider()` inherits from: `Spider.prototype`, until an
assignment to the name `__proto__` puts another object, a function or `null` there. -/
inductive PrototypeLink where
  | spider
  | replaced (p : Property)

/-- An instance of `Spider`: its own properties, in the order of creation, and its
prototype link. -/
structure SpiderObject where
  own : List (String × Property)
  link : PrototypeLink

/-- The statement `spider[key] = value` on the own properties: an existing property gets
the value, a new one is added at the end. -/
def assignOwn (key : String) (value : Property) :
    List (String × Property) → List (String × Property)
  | [] => [(key, value)]
  | (k, v) :: rest =>
    if k = key then (key, value) :: rest else (k, v) :: assignOwn key value rest

/-- Whether a value may become a prototype: an object (an array too), a function or
`null`. -/
def Property.isPrototype : Property → Bool
  | .fn _ => true
  | .value (.obj _) => true
  | .value (.arr _) => true
  | .value .null => true
  | .value _ => false

/-- The statement `spider[key] = value`. The name `__proto__` is the accessor that
`Object.prototype` defines: assigning to it creates no property, it replaces the prototype
link when the value may be a prototype and does nothing otherwise. -/
def SpiderObject.set (o : SpiderObject) (key : String) (value : Property) : SpiderObject :=
  if key = "__proto__" then
    if value.isPrototype then { o with link := .replaced value } else o
  else { o with own := assignOwn key value o.own }

/-- The expression `spider[name]` for a name other than `__proto__` and other than the
names only the built-in prototypes define: the own property, else what the prototype
link leads to. -/
def SpiderObject.get (o : SpiderObject) (name : String) : Property :=
  match o.own.lookup name with
  | some p => p
  | none =>
    match o.link with
    | .spider => spiderPrototype name
    | .replaced (.value (.obj kvs)) =>
      match kvs.lookup name with
      | some v => .value v
      | none => .value .undefined
    | .replaced _ => .value .undefined

/-- The expression `new Spider()`: the constructor sets `siteKey` and `siteType`. -/
def newSpider : SpiderObject :=
  { own := [("siteKey", .value (.str "")), ("siteType", .value (.num 0))], link := .spider }

/-- The expression `proto[key]` for a key that `for (var key in proto)` visits. -/
def protoValue (proto : List (String × Property)) (key : String) : Property :=
  match proto.lookup key with
  | some p => p
  | none => .value .undefined

/-- The function `createSpider`. The argument lists the enumerable properties of `proto`
in the order in which `for ... in` visits them. -/
def createSpider (proto : List (String × Property)) : SpiderObject :=
  (proto.map Prod.fst).foldl (fun spider key => spider.set key (protoValue proto key)) newSpider

/-- What the default method of a name returns: `null` for `proxy`, `undefined` for
`destroy`, the empty string for the other nine. -/
def defaultResult (name : String) : JSValue :=
  if name = "proxy" then .null else if name = "destroy" then .undefined else .str ""

/-- An extension prototype that defines `init` and `siteKey` and nothing else. -/
def sampleProto : List (String × Property) :=
  [("init", .fn (fun _ => .ok (.str "ready"))), ("siteKey", .value (.str "demo"))]

/-! ## Base64 in `js/lib/global.js` -/

/-- A string as `charCodeAt`, indexing and `String.fromCharCode` see it: the list of its
UTF-16 code units. -/
abbrev CodeUnits := List Nat

/-- The code units of a text whose characters all lie below U+10000. -/
def codeUnits (s : String) : CodeUnits :=
  s.data.map Char.toNat

/-- The constant `chars` of `base64Encode` and of `base64Decode`. -/
def base64Chars : CodeUnits :=
  codeUnits "ABCDEFGHIJKLMNOPQRSTUVWXYZabcdefghijklmnopqrstuvwxyz0123456789+/"

/-- The code unit of `=`. -/
def equalsSign : Nat := 61

/-- The int32 that an operand of `<<`, `>>`, `|` or `&` becomes, as the natural number
below `2 ^ 32` with the same 32 bits: `-1` is `4294967295`. -/
def toBits32 (x : Int) : Nat :=
  (x % 4294967296).toNat

/-- The expression `x << k`: the bits of `x` moved up `k` places, the ones past bit 31
lost. -/
def shl32 (x : Int) (k : Nat) : Nat :=
  toBits32 (x * 2 ^ k)

/-- The expression `(n >> k) & m` for a mask `m` below `2 ^ (32 - k)`: it reads bits of
`n` from bit `k` on, which the sign fill of `>>` does not reach. -/
def bitsAt (n k m : Nat) : Nat :=
  (n >>> k) &&& m

/-- One pass of the loop of `base64Encode` at index `i`: the number `n` built from
`bytes[i]`, `bytes[i + 1] || 0` and `bytes[i + 2] || 0`, and the four characters added to
`result`. The index into `chars` is below 64 at each use. -/
def base64EncodeStep (bytes : List Nat) (i : Nat) : CodeUnits :=
  let n := shl32 (bytes.getD i 0) 16 ||| shl32 (bytes.getD (i + 1) 0) 8
    ||| toBits32 (bytes.getD (i + 2) 0)
  [ base64Chars.getD (bitsAt n 18 63) 0,
    base64Chars.getD (bitsAt n 12 63) 0,
    if i + 1 < bytes.length then base64Chars.getD (bitsAt n 6 63) 0 else equalsSign,
    if i + 2 < bytes.length then base64Chars.getD (n &&& 63) 0 else equalsSign ]

/-- The loop `for (var i = 0; i < bytes.length; i += 3)` of `base64Encode`, from index `i`
with `result` built so far; `fuel` bounds the passes. -/
def base64EncodeLoop (bytes : List Nat) : Nat → Nat → CodeUnits → CodeUnits
  | 0, _, result => result
  | fuel + 1, i, result =>
    if i < bytes.length then
      base64EncodeLoop bytes fuel (i + 3) (result ++ base64EncodeStep bytes i)
    else result

/-- The function `base64Encode`: `bytes` holds `str.charCodeAt(i)` for every index, which
is the list of code units itself; the loop makes at most one pass per code unit. -/
def base64Encode (str : CodeUnits) : CodeUnits :=
  base64EncodeLoop str str.length 0 []

/-- The expression `chars.indexOf(str[i])`: the position of the character in `chars`, or
`-1` when it is not there. Past the end `str[i]` is `undefined`, which `indexOf` looks for
as the text `undefined` and does not find. -/
def base64Index (c : Option Nat) : Int :=
  match c with
  | none => -1
  | some u =>
    if base64Chars.indexOf u < base64Chars.length then (base64Chars.indexOf u : Nat) else -1

/-- The expression `x || 0` on a number: `0` is the only falsy index; `-1` is truthy. -/
def orZero (x : Int) : Int :=
  if x = 0 then 0 else x

/-- The statement `str = str.replace(/=+$/, '')`: the run of `=` at the end is dropped. -/
def stripPadding (str : CodeUnits) : CodeUnits :=
  (str.reverse.dropWhile (fun c => c == equalsSign)).reverse

/-- One pass of the loop of `base64Decode` at index `i`: the number `n` built from the
four positions, and the one to three characters added to `result`. -/
def base64DecodeStep (str : CodeUnits) (i : Nat) : CodeUnits :=
  let n := shl32 (base64Index str[i]?) 18 ||| shl32 (base64Index str[i + 1]?) 12
    ||| shl32 (orZero (base64Index str[i + 2]?)) 6
    ||| toBits32 (orZero (base64Index str[i + 3]?))
  [bitsAt n 16 255]
    ++ (if str[i + 2]? = some equalsSign then [] else [bitsAt n 8 255])
    ++ (if str[i + 3]? = some equalsSign then [] else [n &&& 255])

/-- The loop `for (var i = 0; i < str.length; i += 4)` of `base64Decode`, from index `i`
with `result` built so far; `fuel` bounds the passes. -/
def base64DecodeLoop (str : CodeUnits) : Nat → Nat → CodeUnits → CodeUnits
  | 0, _, result => result
  | fuel + 1, i, result =>
    if i < str.length then
      base64DecodeLoop str fuel (i + 4) (result ++ base64DecodeStep str i)
    else result

/-- The function `base64Decode`: the padding is dropped first, then the loop runs over
what is left, at most one pass per code unit. -/
def base64Decode (str : CodeUnits) : CodeUnits :=
  base64DecodeLoop (stripPadding str) (stripPadding str).length 0 []

/-- The alphabet of the standard encoding, in the words of RFC 4648, table 1: the
character of a 6-bit value is `A`..`Z` for 0..25, `a`..`z` for 26..51, `0`..`9` for
52..61, `+` for 62 and `/` for 63. -/
def Rfc4648.digit (v : Nat) : Nat :=
  if v < 26 then 65 + v
  else if v < 52 then 97 + (v - 26)
  else if v < 62 then 48 + (v - 52)
  else if v = 62 then 43
  else 47

/-- The standard encoding, in the words of RFC 4648, section 4: the bytes are taken three
at a time as a 24-bit group and written as four 6-bit values; a last group of one byte is
written as two characters and `==`, a last group of two bytes as three characters and
`=`. -/
def Rfc4648.encode : List Nat → CodeUnits
  | [] => []
  | [a] => [Rfc4648.digit (a / 4), Rfc4648.digit (a % 4 * 16), 61, 61]
  | [a, b] =>
    [Rfc4648.digit (a / 4), Rfc4648.digit (a % 4 * 16 + b / 16), Rfc4648.digit (b % 16 * 4), 61]
  | a :: b :: c :: rest =>
    [Rfc4648.digit (a / 4), Rfc4648.digit (a % 4 * 16 + b / 16),
      Rfc4648.digit (b % 16 * 4 + c / 64), Rfc4648.digit (c % 64)] ++ Rfc4648.encode rest

/-- The standard encoding without its padding: four characters for every three bytes, two
for a last single byte, three for a last pair. -/
def base64Body : List Nat → CodeUnits
  | [] => []
  | [a] => [Rfc4648.digit (a / 4), Rfc4648.digit (a % 4 * 16)]
  | [a, b] =>
    [Rfc4648.digit (a / 4), Rfc4648.digit (a % 4 * 16 + b / 16), Rfc4648.digit (b % 16 * 4)]
  | a :: b :: c :: rest =>
    [Rfc4648.digit (a / 4), Rfc4648.digit (a % 4 * 16 + b / 16),
      Rfc4648.digit (b % 16 * 4 + c / 64), Rfc4648.digit (c % 64)] ++ base64Body rest

/-- What `base64Decode` makes of the encoding of a byte list: the bytes of the whole groups
of three, and the three code units 255 in place of a last group of one or two bytes. -/
def base64Echo : List Nat → CodeUnits
  | [] => []
  | [_] => [255, 255, 255]
  | [_, _] => [255, 255, 255]
  | a :: b :: c :: rest => a :: b :: c :: base64Echo rest

/-! ## The text helpers of `js/lib/global.js`

A text is the list of its characters. The two patterns below have no `u` flag and work on
UTF-16 code units, but their classes `[^>]` and `[^;]` take both halves of a surrogate
pair, so they treat a character above U+FFFF as they treat any other. -/

/-- The pattern `/<[^>]*>/` tried at the start of `cs`: what follows the match. The class
takes the longest run of characters other than `>`; the match succeeds when a `>` ends
that run, and no shorter run can succeed. -/
def tagMatch : List Char → Option (List Char)
  | [] => none
  | c :: rest =>
    if c = '<' then
      match rest.dropWhile (fun x => x != '>') with
      | [] => none
      | _ :: after => some after
    else none

/-- The call `str.replace(/<[^>]*>/g, '')` from the text `cs` on: at a match nothing is
written and the scan goes on after it, elsewhere the character is copied; `fuel` bounds
the steps. -/
def stripTagsLoop : Nat → List Char → List Char
  | 0, _ => []
  | _ + 1, [] => []
  | fuel + 1, c :: rest =>
    match tagMatch (c :: rest) with
    | some after => stripTagsLoop fuel after
    | none => c :: stripTagsLoop fuel rest

/-- The function `stripTags`: the scan makes at most one step per character. -/
def stripTags (str : List Char) : List Char :=
  stripTagsLoop str.length str

/-- The object `entities` of `htmlDecode`: the six keys and their values. -/
def entities : List (List Char × Char) :=
  [("&amp;".data, '&'), ("&lt;".data, '<'), ("&gt;".data, '>'), ("&quot;".data, Char.ofNat 34),
    ("&#39;".data, Char.ofNat 39), ("&nbsp;".data, ' ')]

/-- The pattern `/&[^;]+;/` tried at the start of `cs`: the matched text and what follows
it. The class takes the longest run of characters other than `;`, which may hold further
`&`; the match succeeds when the run is not empty and a `;` ends it. -/
def entityMatch : List Char → Option (List Char × List Char)
  | [] => none
  | c :: rest =>
    if c = '&' then
      match rest.takeWhile (fun x => x != ';'), rest.dropWhile (fun x => x != ';') with
      | [], _ => none
      | _, [] => none
      | run, _ :: after => some (c :: (run ++ [';']), after)
    else none

/-- The replacement function of `htmlDecode`, `entities[entity] || entity`: the value of
the key, or the matched text itself when it is not a key. -/
def entityText (entity : List Char) : List Char :=
  match entities.lookup entity with
  | some c => [c]
  | none => entity

/-- The call `str.replace(/&[^;]+;/g, ...)` from the text `cs` on: at a match the
replacement is written and the scan goes on after the match, elsewhere the character is
copied; `fuel` bounds the steps. -/
def htmlDecodeLoop : Nat → List Char → List Char
  | 0, _ => []
  | _ + 1, [] => []
  | fuel + 1, c :: rest =>
    match entityMatch (c :: rest) with
    | some (entity, after) => entityText entity ++ htmlDecodeLoop fuel after
    | none => c :: htmlDecodeLoop fuel rest

/-- The function `htmlDecode`: the scan makes at most one step per character. -/
def htmlDecode (str : List Char) : List Char :=
  htmlDecodeLoop str.length str

/-- The first of the six entities that the text `cs` starts with: the character it
denotes and the text after it. -/
def entityPrefix (cs : List Char) : List (List Char × Char) → Option (Char × List Char)
  | [] => none
  | (name, c) :: others =>
    if name.isPrefixOf cs then some (c, cs.drop name.length) else entityPrefix cs others

/-- The specified decoding: the text with every occurrence of one of the six entities,
taken from left to right, replaced by the character it denotes and every other character
kept; `fuel` bounds the steps. -/
def replaceEntitiesLoop : Nat → List Char → List Char
  | 0, _ => []
  | _ + 1, [] => []
  | fuel + 1, c :: rest =>
    match entityPrefix (c :: rest) entities with
    | some (d, after) => d :: replaceEntitiesLoop fuel after
    | none => c :: replaceEntitiesLoop fuel rest

/-- The text with each of the six entities replaced by its character. -/
def replaceEntities (str : List Char) : List Char :=
  replaceEntitiesLoop str.length str

/-- Whether every `&` of the text starts one of the six entities. -/
def ampersandsStartEntities : List Char → Bool
  | [] => true
  | c :: rest =>
    (c != '&' || entities.any (fun e => e.1.isPrefixOf (c :: rest)))
      && ampersandsStartEntities rest

/-- The expression `new RegExp(regex, 'g')`, seen through the one thing `exec` asks of the
pattern: for a text and an index, the leftmost match that starts at or after the index,
as the index where it starts and the index where it ends, or nothing. The pattern itself
is compiled by the engine. -/
structure RegExp where
  search : List Char → Nat → Option (Nat × Nat)

/-- The array that `exec` returns, seen through its element `0` (the matched text) and
its property `index`. -/
structure RegExpMatch where
  index : Nat
  text : List Char
  deriving DecidableEq

/-- The call `re.exec(str)` on an expression with the flag `g` whose `lastIndex` is
`lastIndex`: the match or `null`, and the new `lastIndex`. A `lastIndex` past the end, or
no match, gives `null` and sets `lastIndex` to 0; a match sets `lastIndex` to its end,
also when the match is empty. -/
def RegExp.exec (re : RegExp) (str : List Char) (lastIndex : Nat) :
    Option RegExpMatch × Nat :=
  if str.length < lastIndex then (none, 0)
  else
    match re.search str lastIndex with
    | none => (none, 0)
    | some (s, e) => (some { index := s, text := (str.drop s).take (e - s) }, e)

/-- The loop `while ((match = re.exec(str)) !== null) result.push(match)` with the
`lastIndex` of `re` and the `result` so far: `none` when `fuel` passes have not brought
the loop to its end. -/
def matchAllLoop (re : RegExp) (str : List Char) : Nat → Nat → List RegExpMatch →
    Option (List RegExpMatch)
  | 0, _, _ => none
  | fuel + 1, lastIndex, result =>
    match re.exec str lastIndex with
    | (none, _) => some result
    | (some m, next) => matchAllLoop re str fuel next (result ++ [m])

/-- The function `matchAll`, run for at most `fuel` passes of its loop: a fresh expression
starts with `lastIndex` 0. -/
def matchAll (str : List Char) (re : RegExp) (fuel : Nat) : Option (List RegExpMatch) :=
  matchAllLoop re str fuel 0 []

/-- The expression `new RegExp('', 'g')`: the empty pattern matches the empty text at
every index up to the end. -/
def emptyRegExp : RegExp :=
  { search := fun str i => if i ≤ str.length then some (i, i) else none }

/-- The expression `new RegExp(c + '*', 'g')` for a letter `c`: at every index up to the
end the pattern matches the run of `c` that starts there, which may be empty. -/
def starRegExp (c : Char) : RegExp :=
  { search := fun str i =>
      if i ≤ str.length then some (i, i + ((str.drop i).takeWhile (fun x => x == c)).length)
      else none }

/-- The expression `new RegExp(c, 'g')` for a letter `c`: the pattern matches the first
`c` at or after the index. -/
def charRegExp (c : Char) : RegExp :=
  { search := fun str i =>
      if (str.drop i).indexOf c < (str.drop i).length then
        some (i + (str.drop i).indexOf c, i + (str.drop i).indexOf c + 1)
      else none }

/-! ## Reading back what `JSON.stringify` wrote -/

namespace JSON

theorem hex4_unicodeEscape : ∀ n : Nat, n < 32 →
    hex4 (hexDigit (n / 4096 % 16)) (hexDigit (n / 256 % 16)) (hexDigit (n / 16 % 16))
      (hexDigit (n % 16)) = some n := by
  decide

/-- One step of the string parser over the escaped form of one character. -/
theorem parseStringAux_quoteChar (c : Char) (n : Nat) (rest : List Char) :
    parseStringAux (n + 1) (quoteChar c ++ rest) = consChar c (parseStringAux n rest) := by
  have hbq : bslash ≠ dquote := by decide
  unfold quoteChar
  split_ifs with h8 h9 h10 h12 h13 hq hb hlt
  · subst h8; rfl
  · subst h9; rfl
  · subst h10; rfl
  · subst h12; rfl
  · subst h13; rfl
  · subst hq; rfl
  · subst hb; rfl
  · have hs1 : ¬ (0xD800 ≤ c.toNat ∧ c.toNat < 0xDC00) := by omega
    have hs2 : ¬ (0xDC00 ≤ c.toNat ∧ c.toNat < 0xE000) := by omega
    show parseStringAux (n + 1) (bslash :: 'u' :: hexDigit (c.toNat / 4096 % 16) ::
      hexDigit (c.toNat / 256 % 16) :: hexDigit (c.toNat / 16 % 16) ::
      hexDigit (c.toNat % 16) :: rest) = _
    simp only [parseStringAux, hbq, if_false, if_true, parseEscape, parseUnicode,
      hex4_unicodeEscape c.toNat hlt, hs1, hs2, Char.ofNat_toNat]
  · show parseStringAux (n + 1) (c :: rest) = _
    simp only [parseStringAux, hq, hb, hlt, if_false]

theorem parseStringAux_quoteBody (s : List Char) :
    ∀ (n : Nat) (rest : List Char), s.length < n →
      parseStringAux n (quoteBody s ++ dquote :: rest) = some (s, rest) := by
  induction s with
  | nil =>
    intro n rest h
    obtain ⟨m, rfl⟩ : ∃ m, n = m + 1 := ⟨n - 1, by simp at h; omega⟩
    simp [quoteBody, parseStringAux]
  | cons c cs ih =>
    intro n rest h
    obtain ⟨m, rfl⟩ : ∃ m, n = m + 1 := ⟨n - 1, by simp at h; omega⟩
    rw [quoteBody, List.append_assoc, parseStringAux_quoteChar, ih m rest (by simpa using h)]
    rfl

theorem length_quoteChar_pos (c : Char) : 1 ≤ (quoteChar c).length := by
  unfold quoteChar
  split_ifs <;> simp [unicodeEscape]

theorem length_quoteBody (s : List Char) : s.length ≤ (quoteBody s).length := by
  induction s with
  | nil => simp [quoteBody]
  | cons c cs ih =>
    have := length_quoteChar_pos c
    simp only [quoteBody, List.length_append, List.length_cons]
    omega

/-- The string parser reads back a quoted string. -/
theorem parseString_quoteBody (s rest : List Char) :
    parseString (quoteBody s ++ dquote :: rest) = some (s, rest) := by
  unfold parseString
  apply parseStringAux_quoteBody
  have := length_quoteBody s
  simp only [List.length_append, List.length_cons]
  omega

end JSON

namespace JSON

theorem skipWs_dquote (r : List Char) : skipWs (dquote :: r) = dquote :: r := rfl

/-- The value parser reads back a quoted string. -/
theorem parseValue_quote (s : String) (f : Nat) (rest : List Char) :
    parseValue (f + 1) (quote s ++ rest) = some (.str s, rest) := by
  have h : quote s ++ rest = dquote :: (quoteBody s.data ++ dquote :: rest) := by
    simp [quote]
  rw [h, parseValue, skipWs_dquote]
  simp only [if_true, parseString_quoteBody]

theorem stringifyElems_strings_cons (s : String) (ss : List String) :
    stringifyElems ((s :: ss).map JSValue.str) =
      quote s ++ (match ss with
        | [] => []
        | t :: ts => ',' :: stringifyElems ((t :: ts).map JSValue.str)) := by
  cases ss with
  | nil => simp [stringifyElems, stringifyChars]
  | cons t ts => simp [stringifyElems, stringifyChars]

/-- The element parser reads back a non-empty array of strings. -/
theorem parseElems_strings (ids : List String) :
    ∀ (s : String) (f : Nat) (rest : List Char), ids.length + 1 < f →
      parseElems f (stringifyElems ((s :: ids).map JSValue.str) ++ ']' :: rest) =
        some ((s :: ids).map JSValue.str, rest) := by
  induction ids with
  | nil =>
    intro s f rest hf
    obtain ⟨g, rfl⟩ : ∃ g, f = g + 2 := ⟨f - 2, by simp at hf; omega⟩
    rw [stringifyElems_strings_cons]
    simp only [List.append_nil]
    rw [parseElems, parseValue_quote]
    simp [skipWs, isWs]
  | cons t ts ih =>
    intro s f rest hf
    obtain ⟨g, rfl⟩ : ∃ g, f = g + 2 := ⟨f - 2, by simp at hf; omega⟩
    rw [stringifyElems_strings_cons]
    simp only [List.append_assoc, List.cons_append]
    rw [parseElems, parseValue_quote]
    have := ih t (g + 1) rest (by simp at hf ⊢; omega)
    simp only [List.map_cons] at this
    simp [skipWs, isWs, this]

theorem length_stringifyElems_strings (ids : List String) :
    ids.length ≤ (stringifyElems (ids.map JSValue.str)).length := by
  induction ids with
  | nil => simp [stringifyElems]
  | cons s ss ih =>
    rw [stringifyElems_strings_cons]
    cases ss with
    | nil => simp [quote]
    | cons t ts =>
      simp only [List.length_append, List.length_cons, quote] at ih ⊢
      omega

/-- An opening bracket followed by a quote starts a non-empty array. -/
theorem parseValue_array_start (f : Nat) (tl : List Char) :
    parseValue (f + 1) ('[' :: dquote :: tl) =
      match parseElems f (dquote :: tl) with
      | some (xs, r1) => some (.arr xs, r1)
      | none => none := by
  rw [parseValue]
  have h1 : skipWs ('[' :: dquote :: tl) = '[' :: dquote :: tl := rfl
  have h2 : ('[' : Char) ≠ dquote := by decide
  rw [h1]
  simp only [h2, if_false, if_true, skipWs_dquote]
  split
  · next r1 heq => exact absurd (List.cons.inj heq).1 (by decide)
  · rfl

/-- The text `JSON.stringify(ids)` of an array of strings reads back as its own syntax
tree. -/
theorem parseText_stringify_strings (ids : List String) :
    parseText (String.mk (stringifyChars (JSValue.ofStrings ids))) =
      some (JSValue.ofStrings ids) := by
  cases ids with
  | nil => rfl
  | cons s ss =>
    have hlen := length_stringifyElems_strings (s :: ss)
    obtain ⟨tl, htl⟩ : ∃ tl, stringifyElems ((s :: ss).map JSValue.str) ++ [']'] = dquote :: tl := by
      rw [stringifyElems_strings_cons]
      exact ⟨_, rfl⟩
    have hfuel : 2 * (String.mk (stringifyChars (JSValue.ofStrings (s :: ss)))).length + 2 =
        (2 * (stringifyElems ((s :: ss).map JSValue.str)).length + 5) + 1 := by
      simp only [JSValue.ofStrings, stringifyChars, String.length_mk, List.length_cons,
        List.length_append, List.length_nil]
      omega
    unfold parseText
    rw [hfuel]
    simp only [JSValue.ofStrings, stringifyChars]
    rw [htl, parseValue_array_start, ← htl,
      parseElems_strings ss s _ [] (by simp only [List.length_cons] at hlen; omega)]
    rfl

theorem buildElems_strings (ids : List String) :
    buildElems (ids.map JSValue.str) = ids.map JSValue.str := by
  induction ids with
  | nil => rfl
  | cons s ss ih => simp only [List.map_cons, buildElems, build, ih]

/-- `JSON.parse(JSON.stringify(ids))` is `ids`, for every array of strings. -/
theorem parse_stringify_strings (ids : List String) :
    parse (String.mk (stringifyChars (JSValue.ofStrings ids))) = some (JSValue.ofStrings ids) := by
  unfold parse
  rw [parseText_stringify_strings]
  simp only [JSValue.ofStrings, build, buildElems_strings]

theorem nestingElems_strings (ids : List String) :
    nestingElems (ids.map JSValue.str) = 0 := by
  induction ids with
  | nil => rfl
  | cons s ss ih => simp only [List.map_cons, nestingElems, nesting, ih, max_self]

/-- The text `JSON.stringify(ids)` is never empty. -/
theorem stringify_strings_ne_empty (ids : List String) :
    String.mk (stringifyChars (JSValue.ofStrings ids)) ≠ "" := by
  intro h
  have := congrArg String.length h
  simp [JSValue.ofStrings, stringifyChars] at this

end JSON

namespace PHP

theorem ofJSONElems_strings (ids : List String) :
    ofJSONElems (ids.map JSValue.str) = ids.map PHPValue.str := by
  induction ids with
  | nil => rfl
  | cons s ss ih => simp only [List.map_cons, ofJSONElems, ofJSON, ih]

/-- `json_decode` of the text `JSON.stringify(ids)` is the list `ids`. -/
theorem json_decode_stringify_strings (ids : List String) :
    json_decode (String.mk (JSON.stringifyChars (JSValue.ofStrings ids))) =
      PHPValue.ofStrings ids := by
  unfold json_decode
  rw [JSON.parseText_stringify_strings]
  have hn : JSON.nesting (JSValue.ofStrings ids) ≤ depthLimit := by
    simp [JSValue.ofStrings, JSON.nesting, JSON.nestingElems_strings, depthLimit]
  simp only [hn, if_true]
  simp only [JSValue.ofStrings, ofJSON, ofJSONElems_strings, PHPValue.ofStrings]

end PHP

/-! ## Reading back an error envelope -/

namespace JSON

theorem hexVal_hexDigit : ∀ d : Nat, d < 16 → hexVal (hexDigit d) = some d := by
  decide

/-- Four hexadecimal digits read back as the 16-bit number they were written from. -/
theorem hex4_digits (n : Nat) (h : n < 65536) :
    hex4 (hexDigit (n / 4096 % 16)) (hexDigit (n / 256 % 16)) (hexDigit (n / 16 % 16))
      (hexDigit (n % 16)) = some n := by
  have h1 := hexVal_hexDigit (n / 4096 % 16) (by omega)
  have h2 := hexVal_hexDigit (n / 256 % 16) (by omega)
  have h3 := hexVal_hexDigit (n / 16 % 16) (by omega)
  have h4 := hexVal_hexDigit (n % 16) (by omega)
  simp only [hex4, h1, h2, h3, h4, Option.some.injEq]
  omega

/-- A character is not a surrogate. -/
theorem char_not_surrogate (c : Char) :
    c.toNat < 55296 ∨ (57343 < c.toNat ∧ c.toNat < 1114112) := by
  have h := c.valid
  simp only [UInt32.isValidChar, Nat.isValidChar] at h
  exact h

theorem bslash_ne_dquote : bslash ≠ dquote := by decide

/-- One step of the string parser over a `\uXXXX` escape of a unit that is not a
surrogate. -/
theorem parseStringAux_unicodeEscape (v n : Nat) (rest : List Char) (h : v < 65536)
    (hs : ¬ (55296 ≤ v ∧ v < 57344)) :
    parseStringAux (n + 1) (unicodeEscape v ++ rest) =
      consChar (Char.ofNat v) (parseStringAux n rest) := by
  have hs1 : ¬ (0xD800 ≤ v ∧ v < 0xDC00) := by omega
  have hs2 : ¬ (0xDC00 ≤ v ∧ v < 0xE000) := by omega
  show parseStringAux (n + 1) (bslash :: 'u' :: hexDigit (v / 4096 % 16) ::
    hexDigit (v / 256 % 16) :: hexDigit (v / 16 % 16) :: hexDigit (v % 16) :: rest) = _
  simp only [parseStringAux, bslash_ne_dquote, if_false, if_true, parseEscape, parseUnicode,
    hex4_digits v h, hs1, hs2]

/-- The low half of a surrogate pair reads back. -/
theorem parseLowSurrogate_unicodeEscape (hi lo : Nat) (rest : List Char) (hlo : lo < 65536)
    (hs : 56320 ≤ lo ∧ lo < 57344) :
    parseLowSurrogate hi (unicodeEscape lo ++ rest) =
      some (Char.ofNat (65536 + (hi - 55296) * 1024 + (lo - 56320)), rest) := by
  show parseLowSurrogate hi (bslash :: 'u' :: hexDigit (lo / 4096 % 16) ::
    hexDigit (lo / 256 % 16) :: hexDigit (lo / 16 % 16) :: hexDigit (lo % 16) :: rest) = _
  simp only [parseLowSurrogate, hex4_digits lo hlo, hs, and_self, if_true]

/-- The escapes of a surrogate pair read back as one character. -/
theorem parseEscape_surrogatePair (hi lo : Nat) (rest : List Char) (hhi : hi < 65536)
    (hlo : lo < 65536) (hs1 : 55296 ≤ hi ∧ hi < 56320) (hs2 : 56320 ≤ lo ∧ lo < 57344) :
    parseEscape ('u' :: hexDigit (hi / 4096 % 16) :: hexDigit (hi / 256 % 16) ::
        hexDigit (hi / 16 % 16) :: hexDigit (hi % 16) :: (unicodeEscape lo ++ rest)) =
      some (Char.ofNat (65536 + (hi - 55296) * 1024 + (lo - 56320)), rest) := by
  simp only [parseEscape, if_true, parseUnicode, hex4_digits hi hhi, hs1, and_self,
    parseLowSurrogate_unicodeEscape hi lo rest hlo hs2]

/-- One step of the string parser over the escapes of a surrogate pair. -/
theorem parseStringAux_surrogatePair (c : Char) (n : Nat) (rest : List Char)
    (h : 65536 ≤ c.toNat) :
    parseStringAux (n + 1)
      (unicodeEscape (55296 + (c.toNat - 65536) / 1024) ++
        (unicodeEscape (56320 + (c.toNat - 65536) % 1024) ++ rest)) =
      consChar c (parseStringAux n rest) := by
  have hv := char_not_surrogate c
  have hval : 65536 + (55296 + (c.toNat - 65536) / 1024 - 55296) * 1024 +
      (56320 + (c.toNat - 65536) % 1024 - 56320) = c.toNat := by omega
  have hesc := parseEscape_surrogatePair (55296 + (c.toNat - 65536) / 1024)
    (56320 + (c.toNat - 65536) % 1024) rest (by omega) (by omega) (by omega) (by omega)
  rw [hval, Char.ofNat_toNat] at hesc
  show parseStringAux (n + 1) (bslash :: 'u' ::
    hexDigit ((55296 + (c.toNat - 65536) / 1024) / 4096 % 16) ::
    hexDigit ((55296 + (c.toNat - 65536) / 1024) / 256 % 16) ::
    hexDigit ((55296 + (c.toNat - 65536) / 1024) / 16 % 16) ::
    hexDigit ((55296 + (c.toNat - 65536) / 1024) % 16) ::
    (unicodeEscape (56320 + (c.toNat - 65536) % 1024) ++ rest)) = _
  rw [parseStringAux]
  simp only [bslash_ne_dquote, if_false, if_true, hesc]

end JSON

namespace PHP

/-- What `json_encode` writes for a character that has no two-character escape. -/
theorem quoteChar_plain (u : Bool) (c : Char) (hq : c ≠ JSON.dquote) (hb : c ≠ JSON.bslash)
    (hsl : c ≠ '/') (h8 : c ≠ Char.ofNat 8) (h12 : c ≠ Char.ofNat 12)
    (h10 : c ≠ Char.ofNat 10) (h13 : c ≠ Char.ofNat 13) (h9 : c ≠ Char.ofNat 9) :
    quoteChar u c =
      if c.toNat < 32 then JSON.unicodeEscape c.toNat
      else if c.toNat < 128 then [c]
      else if u ∧ c.toNat ≠ 8232 ∧ c.toNat ≠ 8233 then [c]
      else utf16Escape c := by
  rw [quoteChar, if_neg hq, if_neg hb, if_neg hsl, if_neg h8, if_neg h12, if_neg h10,
    if_neg h13, if_neg h9]

/-- One step of the string parser over a character written as itself. -/
theorem parseStringAux_literal (c : Char) (n : Nat) (rest : List Char)
    (hq : c ≠ JSON.dquote) (hb : c ≠ JSON.bslash) (hlt : ¬ c.toNat < 32) :
    JSON.parseStringAux (n + 1) ([c] ++ rest) =
      JSON.consChar c (JSON.parseStringAux n rest) := by
  show JSON.parseStringAux (n + 1) (c :: rest) = _
  simp only [JSON.parseStringAux, hq, hb, hlt, if_false]

/-- One step of the string parser over what `json_encode` writes for one character, with
or without `JSON_UNESCAPED_UNICODE`. -/
theorem parseStringAux_phpQuoteChar (u : Bool) (c : Char) (n : Nat) (rest : List Char) :
    JSON.parseStringAux (n + 1) (quoteChar u c ++ rest) =
      JSON.consChar c (JSON.parseStringAux n rest) := by
  by_cases hq : c = JSON.dquote
  · subst hq; rfl
  by_cases hb : c = JSON.bslash
  · subst hb; rfl
  by_cases hsl : c = '/'
  · subst hsl; rfl
  by_cases h8 : c = Char.ofNat 8
  · subst h8; rfl
  by_cases h12 : c = Char.ofNat 12
  · subst h12; rfl
  by_cases h10 : c = Char.ofNat 10
  · subst h10; rfl
  by_cases h13 : c = Char.ofNat 13
  · subst h13; rfl
  by_cases h9 : c = Char.ofNat 9
  · subst h9; rfl
  rw [quoteChar_plain u c hq hb hsl h8 h12 h10 h13 h9]
  have hv := JSON.char_not_surrogate c
  by_cases hlt : c.toNat < 32
  · rw [if_pos hlt]
    have := JSON.parseStringAux_unicodeEscape c.toNat n rest (by omega) (by omega)
    rwa [Char.ofNat_toNat] at this
  rw [if_neg hlt]
  by_cases hascii : c.toNat < 128
  · rw [if_pos hascii]
    exact parseStringAux_literal c n rest hq hb hlt
  rw [if_neg hascii]
  by_cases huni : (u = true ∧ c.toNat ≠ 8232 ∧ c.toNat ≠ 8233)
  · rw [if_pos huni]
    exact parseStringAux_literal c n rest hq hb hlt
  rw [if_neg huni]
  unfold utf16Escape
  by_cases hbmp : c.toNat < 65536
  · rw [if_pos hbmp]
    have := JSON.parseStringAux_unicodeEscape c.toNat n rest hbmp (by omega)
    rwa [Char.ofNat_toNat] at this
  · rw [if_neg hbmp, List.append_assoc]
    exact JSON.parseStringAux_surrogatePair c n rest (by omega)

theorem parseStringAux_phpQuoteBody (u : Bool) (s : List Char) :
    ∀ (n : Nat) (rest : List Char), s.length < n →
      JSON.parseStringAux n (quoteBody u s ++ JSON.dquote :: rest) = some (s, rest) := by
  induction s with
  | nil =>
    intro n rest h
    obtain ⟨m, rfl⟩ : ∃ m, n = m + 1 := ⟨n - 1, by simp at h; omega⟩
    simp [quoteBody, JSON.parseStringAux]
  | cons c cs ih =>
    intro n rest h
    obtain ⟨m, rfl⟩ : ∃ m, n = m + 1 := ⟨n - 1, by simp at h; omega⟩
    rw [quoteBody, List.append_assoc, parseStringAux_phpQuoteChar,
      ih m rest (by simpa using h)]
    rfl

theorem length_phpQuoteChar_pos (u : Bool) (c : Char) : 1 ≤ (quoteChar u c).length := by
  by_contra hc
  have h0 : quoteChar u c = [] := List.length_eq_zero.mp (by omega)
  have := parseStringAux_phpQuoteChar u c 0 [JSON.dquote]
  rw [h0] at this
  simp [JSON.parseStringAux, JSON.consChar] at this

theorem length_phpQuoteBody (u : Bool) (s : List Char) :
    s.length ≤ (quoteBody u s).length := by
  induction s with
  | nil => simp [quoteBody]
  | cons c cs ih =>
    have := length_phpQuoteChar_pos u c
    simp only [quoteBody, List.length_append, List.length_cons]
    omega

/-- The string parser reads back a string as `json_encode` quotes it. -/
theorem parseString_phpQuoteBody (u : Bool) (s rest : List Char) :
    JSON.parseString (quoteBody u s ++ JSON.dquote :: rest) = some (s, rest) := by
  unfold JSON.parseString
  apply parseStringAux_phpQuoteBody
  have := length_phpQuoteBody u s
  simp only [List.length_append, List.length_cons]
  omega

end PHP

namespace JSON

/-- An object with one member whose value is a string reads back as its syntax tree,
whatever the quoting of the two strings, as long as the string parser undoes it. -/
theorem parseText_single_member (kb vb : List Char) (k v : String)
    (hk : ∀ rest, parseString (kb ++ dquote :: rest) = some (k.data, rest))
    (hv : ∀ rest, parseString (vb ++ dquote :: rest) = some (v.data, rest)) :
    parseText (String.mk (Char.ofNat 123 :: dquote ::
      (kb ++ dquote :: ':' :: dquote :: (vb ++ [dquote, Char.ofNat 125])))) =
      some (.obj [(k, .str v)]) := by
  have hlen : 3 ≤ 2 * (String.mk (Char.ofNat 123 :: dquote ::
      (kb ++ dquote :: ':' :: dquote :: (vb ++ [dquote, Char.ofNat 125])))).length + 2 := by
    simp only [String.length_mk, List.length_cons]
    omega
  obtain ⟨g, hg⟩ := Nat.exists_eq_add_of_le hlen
  rw [Nat.add_comm 3 g] at hg
  have hv1 : parseString (vb ++ [dquote, Char.ofNat 125]) = some (v.data, [Char.ofNat 125]) :=
    hv [Char.ofNat 125]
  have h1 : parseValue (g + 1) (dquote :: (vb ++ [dquote, Char.ofNat 125])) =
      some (.str v, [Char.ofNat 125]) := by
    rw [parseValue, skipWs_dquote]
    simp only [if_true, hv1]
  have h2 : parseMembers (g + 2)
      (dquote :: (kb ++ dquote :: ':' :: dquote :: (vb ++ [dquote, Char.ofNat 125]))) =
      some ([(k, .str v)], []) := by
    rw [parseMembers, skipWs_dquote]
    simp only [if_true, hk]
    have hs1 : ∀ r, skipWs (':' :: r) = ':' :: r := fun _ => rfl
    have hs2 : skipWs [Char.ofNat 125] = [Char.ofNat 125] := rfl
    have hne : (Char.ofNat 125 : Char) ≠ ',' := by decide
    simp only [hs1, if_true, h1, hs2, hne, if_false]
  unfold parseText
  rw [hg, parseValue]
  have hs3 : ∀ r, skipWs (Char.ofNat 123 :: r) = Char.ofNat 123 :: r := fun _ => rfl
  have hne1 : (Char.ofNat 123 : Char) ≠ dquote := by decide
  have hne2 : (Char.ofNat 123 : Char) ≠ '[' := by decide
  have hne3 : dquote ≠ Char.ofNat 125 := by decide
  simp only [String.data, hs3, hne1, hne2, if_false, if_true, skipWs_dquote, hne3, h2]
  rfl

/-- The text `JSON.stringify({ error: m })` denotes the object `{ error: m }`. -/
theorem parse_errorEnvelope (m : String) :
    parse (String.mk (stringifyChars (.obj [("error", .str m)]))) =
      some (.obj [("error", .str m)]) := by
  have h : stringifyChars (.obj [("error", .str m)]) =
      Char.ofNat 123 :: dquote :: (quoteBody "error".data ++ dquote :: ':' :: dquote ::
        (quoteBody m.data ++ [dquote, Char.ofNat 125])) := by
    simp [stringifyChars, stringifyProps, quote]
  unfold parse
  rw [h, parseText_single_member _ _ "error" m (parseString_quoteBody _) (parseString_quoteBody _)]
  rfl

end JSON

namespace PHP

/-- The text `json_encode(['error' => $m])`, with or without `JSON_UNESCAPED_UNICODE`,
denotes the object `{ error: m }`. -/
theorem parse_phpErrorEnvelope (u : Bool) (m : String) :
    JSON.parse (String.mk (encodeChars u (.arr [(.str "error", .str m)]))) =
      some (.obj [("error", .str m)]) := by
  have h : encodeChars u (.arr [(.str "error", .str m)]) =
      Char.ofNat 123 :: JSON.dquote :: (quoteBody u "error".data ++ JSON.dquote :: ':' ::
        JSON.dquote :: (quoteBody u m.data ++ [JSON.dquote, Char.ofNat 125])) := by
    simp [encodeChars, encodeMembers, isListFrom, keyText, quote]
  unfold JSON.parse
  rw [h, JSON.parseText_single_member _ _ "error" m (parseString_phpQuoteBody u _)
    (parseString_phpQuoteBody u _)]
  rfl

end PHP

/-! ## The dispatchers: general facts -/

/-- The `switch` statements of `runner_node.js` and of `runner.js` do the same on every
input. -/
theorem node_switchBody_eq (E : JSEngine) (spider : JSSpider) (method : String)
    (methodArgs : List String) :
    Node.switchBody E spider method methodArgs = switchBody E spider method methodArgs := by
  rfl

theorem quickjs_calls_callMethod (E : JSEngine) (spider : JSSpider) (method : String)
    (methodArgs : List String) :
    (QuickJS.callMethod E spider method methodArgs).calls =
      (switchBody E spider method methodArgs).1 := by
  unfold QuickJS.callMethod
  split <;> simp_all

theorem node_calls_callMethod (E : JSEngine) (spider : JSSpider) (method : String)
    (methodArgs : List String) :
    (Node.callMethod E spider method methodArgs).calls =
      (switchBody E spider method methodArgs).1 := by
  unfold Node.callMethod
  rw [node_switchBody_eq]
  split
  · split <;> simp_all
  · simp_all

theorem php_calls_main (spider : PHP.Spider) (method : String) (args : List String) :
    (PHP.main spider method args).calls = (PHP.switchBody spider method args).1 := by
  rcases h : PHP.switchBody spider method args with ⟨calls, o⟩
  cases o <;> simp only [PHP.main, PHP.callMethod, h]

theorem invoke_fn (E : JSEngine) (spider : JSSpider) (name : String) (f : JSMethod)
    (as : List JSValue) (h : spider name = .fn f) :
    invoke E spider name (.ok as) = ([(name, as)], f as) := by
  simp only [invoke, h]

theorem php_invoke_some (spider : PHP.Spider) (name : String) (f : PHP.Method)
    (as : List PHPValue) (h : spider name = some f) :
    PHP.invoke spider name as = ([(name, as)], f as) := by
  simp only [PHP.invoke, h]

/-- A value that is present has a JSON text. -/
theorem stringify_of_isPresent (v : JSValue) (h : v.isPresent = true) :
    JSON.stringify v = some (String.mk (JSON.stringifyChars v)) := by
  cases v <;> first | rfl | simp [JSValue.isPresent] at h

/-- An unknown method name falls to the `default` branch of the JavaScript switch. -/
theorem switchBody_unknown (E : JSEngine) (spider : JSSpider) (method : String)
    (methodArgs : List String) (h : method ∉ closedSet) :
    switchBody E spider method methodArgs = ([], .error ("未知方法: " ++ method)) := by
  simp only [closedSet, List.mem_cons, List.mem_singleton, not_or, List.not_mem_nil,
    not_false_eq_true, and_true] at h
  obtain ⟨h1, h2, h3, h4, h5, h6, h7, h8, h9, h10, h11⟩ := h
  unfold switchBody
  split <;> first | contradiction | rfl

/-- An unknown method name falls to the `default` branch of the PHP switch. -/
theorem php_switchBody_unknown (spider : PHP.Spider) (method : String) (args : List String)
    (h : method ∉ closedSet) :
    PHP.switchBody spider method args = ([], .exception ("未知方法: " ++ method)) := by
  simp only [closedSet, List.mem_cons, List.mem_singleton, not_or, List.not_mem_nil,
    not_false_eq_true, and_true] at h
  obtain ⟨h1, h2, h3, h4, h5, h6, h7, h8, h9, h10, h11⟩ := h
  unfold PHP.switchBody
  split <;> first | contradiction | rfl

/-! ## C1, C2: the boolean arguments -/

theorem argIsTrue_eq (methodArgs : List String) (i : Nat) :
    argIsTrue methodArgs i = decide (methodArgs[i]? = some "true") := by
  unfold argIsTrue
  cases methodArgs[i]? with
  | none => simp
  | some s => simp

/-- C1: in the QuickJS and Node dispatchers the boolean handed to the extension as
`filter` of `homeContent`, `filter` of `categoryContent` and `quick` of `searchContent`
is true exactly when the raw argument at that position is present and is the string
`"true"`; any other string and an absent argument give false. -/
theorem js_boolean_argument_true_iff_literal (E : JSEngine) (spider : JSSpider)
    (f g h : JSMethod) (methodArgs : List String) (extend : JSValue)
    (hf : spider "homeContent" = .fn f) (hg : spider "categoryContent" = .fn g)
    (hh : spider "searchContent" = .fn h)
    (he : argJson E methodArgs 3 (.obj []) = .ok extend) :
    ((QuickJS.callMethod E spider "homeContent" methodArgs).calls =
        [("homeContent", [.bool (decide (methodArgs[0]? = some "true"))])] ∧
      (QuickJS.callMethod E spider "categoryContent" methodArgs).calls =
        [("categoryContent", [argAt methodArgs 0, argAt methodArgs 1,
          .bool (decide (methodArgs[2]? = some "true")), extend])] ∧
      (QuickJS.callMethod E spider "searchContent" methodArgs).calls =
        [("searchContent", [argAt methodArgs 0,
          .bool (decide (methodArgs[1]? = some "true")), argOr methodArgs 2 "1"])]) ∧
    ((Node.callMethod E spider "homeContent" methodArgs).calls =
        [("homeContent", [.bool (decide (methodArgs[0]? = some "true"))])] ∧
      (Node.callMethod E spider "categoryContent" methodArgs).calls =
        [("categoryContent", [argAt methodArgs 0, argAt methodArgs 1,
          .bool (decide (methodArgs[2]? = some "true")), extend])] ∧
      (Node.callMethod E spider "searchContent" methodArgs).calls =
        [("searchContent", [argAt methodArgs 0,
          .bool (decide (methodArgs[1]? = some "true")), argOr methodArgs 2 "1"])]) := by
  simp only [quickjs_calls_callMethod, node_calls_callMethod, switchBody, he,
    invoke_fn E spider _ _ _ hf, invoke_fn E spider _ _ _ hg, invoke_fn E spider _ _ _ hh,
    argIsTrue_eq, and_self]

/-- C1, at a concrete input: the arguments `"TRUE"`, `"1"` and `""` all decode to false. -/
theorem js_boolean_argument_true_iff_literal_witness :
    (baseSpider "homeContent" = .fn (fun _ => .ok (.str "")) ∧
      baseSpider "categoryContent" = .fn (fun _ => .ok (.str "")) ∧
      baseSpider "searchContent" = .fn (fun _ => .ok (.str "")) ∧
      argJson sampleEngine ["TRUE", "1", ""] 3 (.obj []) = .ok (.obj [])) ∧
    ((QuickJS.callMethod sampleEngine baseSpider "homeContent" ["TRUE", "1", ""]).calls =
        [("homeContent", [.bool false])] ∧
      (QuickJS.callMethod sampleEngine baseSpider "categoryContent" ["TRUE", "1", ""]).calls =
        [("categoryContent", [.str "TRUE", .str "1", .bool false, .obj []])] ∧
      (QuickJS.callMethod sampleEngine baseSpider "searchContent" ["TRUE", "1", ""]).calls =
        [("searchContent", [.str "TRUE", .bool false, .str "1"])]) ∧
    ((Node.callMethod sampleEngine baseSpider "homeContent" ["TRUE", "1", ""]).calls =
        [("homeContent", [.bool false])] ∧
      (Node.callMethod sampleEngine baseSpider "categoryContent" ["TRUE", "1", ""]).calls =
        [("categoryContent", [.str "TRUE", .str "1", .bool false, .obj []])] ∧
      (Node.callMethod sampleEngine baseSpider "searchContent" ["TRUE", "1", ""]).calls =
        [("searchContent", [.str "TRUE", .bool false, .str "1"])]) :=
  ⟨⟨rfl, rfl, rfl, rfl⟩,
    js_boolean_argument_true_iff_literal sampleEngine baseSpider _ _ _ ["TRUE", "1", ""]
      (.obj []) rfl rfl rfl rfl⟩

theorem php_argIsTrue_eq (args : List String) (i : Nat) :
    PHP.argIsTrue args i = decide ((args[i]?).map PHP.strtolower = some "true") := by
  unfold PHP.argIsTrue
  cases args[i]? with
  | none => simp
  | some s => simp

/-- C2, as amended: in the PHP dispatcher the boolean handed to the extension as `filter`
of `homeContent`, `filter` of `categoryContent` and `quick` of `searchContent` is true
exactly when the raw argument at that position is present and `strtolower` of it is
`"true"`, that is, when it is `true` in any mix of upper and lower case. -/
theorem php_boolean_argument_true_iff_lowercase_true (spider : PHP.Spider)
    (f g h : PHP.Method) (args : List String)
    (hf : spider "homeContent" = some f) (hg : spider "categoryContent" = some g)
    (hh : spider "searchContent" = some h) :
    (PHP.main spider "homeContent" args).calls =
      [("homeContent", [.bool (decide ((args[0]?).map PHP.strtolower = some "true"))])] ∧
    (PHP.main spider "categoryContent" args).calls =
      [("categoryContent", [PHP.argOr args 0 "", PHP.argOr args 1 "1",
        .bool (decide ((args[2]?).map PHP.strtolower = some "true")), PHP.argJson args 3])] ∧
    (PHP.main spider "searchContent" args).calls =
      [("searchContent", [PHP.argOr args 0 "",
        .bool (decide ((args[1]?).map PHP.strtolower = some "true")), PHP.argOr args 2 "1"])] := by
  simp only [php_calls_main, PHP.switchBody, php_invoke_some spider _ _ _ hf,
    php_invoke_some spider _ _ _ hg, php_invoke_some spider _ _ _ hh, php_argIsTrue_eq,
    and_self]

/-- C2 as amended, at a concrete input: `"True"` decodes to true, `"1"` and `""` to false. -/
theorem php_boolean_argument_true_iff_lowercase_true_witness :
    (PHP.baseSpider "homeContent" = some (fun _ => .ret (.str "")) ∧
      PHP.baseSpider "categoryContent" = some (fun _ => .ret (.str "")) ∧
      PHP.baseSpider "searchContent" = some (fun _ => .ret (.str ""))) ∧
    (PHP.main PHP.baseSpider "homeContent" ["True", "1", ""]).calls =
      [("homeContent", [.bool true])] ∧
    (PHP.main PHP.baseSpider "categoryContent" ["True", "1", ""]).calls =
      [("categoryContent", [.str "True", .str "1", .bool false, .arr []])] ∧
    (PHP.main PHP.baseSpider "searchContent" ["True", "1", ""]).calls =
      [("searchContent", [.str "True", .bool false, .str ""])] :=
  ⟨⟨rfl, rfl, rfl⟩,
    php_boolean_argument_true_iff_lowercase_true PHP.baseSpider _ _ _ ["True", "1", ""]
      rfl rfl rfl⟩

/-- C2, refuted as stated: the raw argument `"TRUE"` is not the string `"true"`, yet the
PHP dispatcher hands `filter = true` to `homeContent`. -/
theorem php_upper_case_TRUE_decodes_to_true :
    ("TRUE" : String) ≠ "true" ∧
      (PHP.main PHP.baseSpider "homeContent" ["TRUE"]).calls =
        [("homeContent", [.bool true])] :=
  ⟨by decide, rfl⟩

/-! ## C3, C4, C5: absent arguments -/

/-- In the QuickJS and Node dispatchers `categoryContent` with only `tid` supplied
receives `undefined` as `pg`. -/
theorem js_categoryContent_tid_only (E : JSEngine) (spider : JSSpider) (g : JSMethod)
    (tid : String) (hg : spider "categoryContent" = .fn g) :
    (QuickJS.callMethod E spider "categoryContent" [tid]).calls =
      [("categoryContent", [.str tid, .undefined, .bool false, .obj []])] ∧
    (Node.callMethod E spider "categoryContent" [tid]).calls =
      [("categoryContent", [.str tid, .undefined, .bool false, .obj []])] := by
  have he : argJson E [tid] 3 (.obj []) = .ok (.obj []) := rfl
  simp only [quickjs_calls_callMethod, node_calls_callMethod, switchBody, he,
    invoke_fn E spider _ _ _ hg, and_self]
  rfl

/-- C3, the code at the failing input: dispatching `categoryContent` with the argument
vector `["7"]` calls the extension with `pg` equal to `undefined`, not `"1"`, in the
QuickJS and in the Node dispatcher; `filter` is false and `extend` is the empty object. -/
theorem js_categoryContent_pg_is_undefined :
    (QuickJS.callMethod sampleEngine baseSpider "categoryContent" ["7"]).calls =
      [("categoryContent", [.str "7", .undefined, .bool false, .obj []])] ∧
    (Node.callMethod sampleEngine baseSpider "categoryContent" ["7"]).calls =
      [("categoryContent", [.str "7", .undefined, .bool false, .obj []])] ∧
    JSValue.undefined ≠ JSValue.str "1" :=
  ⟨rfl, rfl, by intro h; cases h⟩

/-- C4: in the PHP dispatcher `categoryContent` with the argument vector `[tid]` calls the
extension with `tid`, `pg` equal to `"1"`, `filter` equal to false and `extend` equal to
the empty array. -/
theorem php_categoryContent_tid_only (spider : PHP.Spider) (g : PHP.Method) (tid : String)
    (hg : spider "categoryContent" = some g) :
    (PHP.main spider "categoryContent" [tid]).calls =
      [("categoryContent", [.str tid, .str "1", .bool false, .arr []])] := by
  simp only [php_calls_main, PHP.switchBody, php_invoke_some spider _ _ _ hg]
  rfl

/-- C4, at a concrete input: the base extension and the argument vector `["7"]`. -/
theorem php_categoryContent_tid_only_witness :
    PHP.baseSpider "categoryContent" = some (fun _ => .ret (.str "")) ∧
    (PHP.main PHP.baseSpider "categoryContent" ["7"]).calls =
      [("categoryContent", [.str "7", .str "1", .bool false, .arr []])] :=
  ⟨rfl, php_categoryContent_tid_only PHP.baseSpider _ "7" rfl⟩

/-- C5, as the code has it: in the QuickJS and Node dispatchers, with the empty argument
vector, decoding raises nothing for any of the eleven methods, so each method of the
extension is called, and the absent positions resolve as follows: `init` receives `""`,
`homeContent` receives `false`, `detailContent` receives `[]`, `searchContent` receives
`quick` false and `pg` `"1"`, `playerContent` receives `vipFlags` `[]`, `liveContent`
receives `""`, `proxy` receives the empty object and `action` receives `""`. The positions
with no default in the code (`tid` and `pg` of `categoryContent`, `key` of
`searchContent`, `flag` and `id` of `playerContent`) are handed on as `undefined`; of
these `pg` of `categoryContent` has the documented default `"1"`. -/
theorem js_empty_vector_defaults (E : JSEngine) (spider : JSSpider)
    (hs : ∀ name ∈ closedSet, ∃ f, spider name = .fn f) :
    ((QuickJS.callMethod E spider "init" []).calls = [("init", [.str ""])] ∧
      (QuickJS.callMethod E spider "homeContent" []).calls =
        [("homeContent", [.bool false])] ∧
      (QuickJS.callMethod E spider "homeVideoContent" []).calls =
        [("homeVideoContent", [])] ∧
      (QuickJS.callMethod E spider "categoryContent" []).calls =
        [("categoryContent", [.undefined, .undefined, .bool false, .obj []])] ∧
      (QuickJS.callMethod E spider "detailContent" []).calls =
        [("detailContent", [.arr []])] ∧
      (QuickJS.callMethod E spider "searchContent" []).calls =
        [("searchContent", [.undefined, .bool false, .str "1"])] ∧
      (QuickJS.callMethod E spider "playerContent" []).calls =
        [("playerContent", [.undefined, .undefined, .arr []])] ∧
      (QuickJS.callMethod E spider "liveContent" []).calls = [("liveContent", [.str ""])] ∧
      (QuickJS.callMethod E spider "proxy" []).calls = [("proxy", [.obj []])] ∧
      (QuickJS.callMethod E spider "action" []).calls = [("action", [.str ""])] ∧
      (QuickJS.callMethod E spider "destroy" []).calls = [("destroy", [])]) ∧
    ((Node.callMethod E spider "init" []).calls = [("init", [.str ""])] ∧
      (Node.callMethod E spider "homeContent" []).calls = [("homeContent", [.bool false])] ∧
      (Node.callMethod E spider "homeVideoContent" []).calls = [("homeVideoContent", [])] ∧
      (Node.callMethod E spider "categoryContent" []).calls =
        [("categoryContent", [.undefined, .undefined, .bool false, .obj []])] ∧
      (Node.callMethod E spider "detailContent" []).calls = [("detailContent", [.arr []])] ∧
      (Node.callMethod E spider "searchContent" []).calls =
        [("searchContent", [.undefined, .bool false, .str "1"])] ∧
      (Node.callMethod E spider "playerContent" []).calls =
        [("playerContent", [.undefined, .undefined, .arr []])] ∧
      (Node.callMethod E spider "liveContent" []).calls = [("liveContent", [.str ""])] ∧
      (Node.callMethod E spider "proxy" []).calls = [("proxy", [.obj []])] ∧
      (Node.callMethod E spider "action" []).calls = [("action", [.str ""])] ∧
      (Node.callMethod E spider "destroy" []).calls = [("destroy", [])]) := by
  obtain ⟨f1, h1⟩ := hs "init" (by decide)
  obtain ⟨f2, h2⟩ := hs "homeContent" (by decide)
  obtain ⟨f3, h3⟩ := hs "homeVideoContent" (by decide)
  obtain ⟨f4, h4⟩ := hs "categoryContent" (by decide)
  obtain ⟨f5, h5⟩ := hs "detailContent" (by decide)
  obtain ⟨f6, h6⟩ := hs "searchContent" (by decide)
  obtain ⟨f7, h7⟩ := hs "playerContent" (by decide)
  obtain ⟨f8, h8⟩ := hs "liveContent" (by decide)
  obtain ⟨f9, h9⟩ := hs "proxy" (by decide)
  obtain ⟨f10, h10⟩ := hs "action" (by decide)
  obtain ⟨f11, h11⟩ := hs "destroy" (by decide)
  have e1 : ∀ d, argJson E [] 3 d = .ok d := fun _ => rfl
  have e2 : ∀ d, argJson E [] 0 d = .ok d := fun _ => rfl
  have e3 : ∀ d, argJson E [] 2 d = .ok d := fun _ => rfl
  have hd : (switchBody E spider "destroy" []).1 = [("destroy", [])] := by
    simp only [switchBody, h11]
    cases f11 [] <;> rfl
  simp only [quickjs_calls_callMethod, node_calls_callMethod, hd, and_true]
  simp only [switchBody, e1, e2, e3, invoke_fn E spider _ _ _ h1, invoke_fn E spider _ _ _ h2,
    invoke_fn E spider _ _ _ h3, invoke_fn E spider _ _ _ h4, invoke_fn E spider _ _ _ h5,
    invoke_fn E spider _ _ _ h6, invoke_fn E spider _ _ _ h7, invoke_fn E spider _ _ _ h8,
    invoke_fn E spider _ _ _ h9, invoke_fn E spider _ _ _ h10, and_self]
  repeat' constructor

/-- The base extension defines each of the eleven methods. -/
theorem baseSpider_has_all : ∀ name ∈ closedSet, ∃ f, baseSpider name = .fn f := by
  intro name h
  simp only [closedSet, List.mem_cons, List.mem_singleton, List.not_mem_nil, or_false] at h
  rcases h with h | h | h | h | h | h | h | h | h | h | h <;> subst h <;> exact ⟨_, rfl⟩

/-- C5, at a concrete input: the base extension defines all eleven methods. -/
theorem js_empty_vector_defaults_witness :
    (∀ name ∈ closedSet, ∃ f, baseSpider name = .fn f) ∧
    (QuickJS.callMethod sampleEngine baseSpider "searchContent" []).calls =
      [("searchContent", [.undefined, .bool false, .str "1"])] ∧
    (Node.callMethod sampleEngine baseSpider "proxy" []).calls = [("proxy", [.obj []])] :=
  ⟨baseSpider_has_all,
    (js_empty_vector_defaults sampleEngine baseSpider baseSpider_has_all).1.2.2.2.2.2.1,
    (js_empty_vector_defaults sampleEngine baseSpider baseSpider_has_all).2.2.2.2.2.2.2.2.2.1⟩

/-- C5 fails as stated: with the empty argument vector `categoryContent` receives `pg` as
`undefined`, not as its documented default `"1"`, in both JavaScript runners, while
`searchContent` on the next lines of the same `switch` receives `pg` as `"1"`. -/
theorem js_empty_vector_categoryContent_pg_undefined :
    (QuickJS.callMethod sampleEngine baseSpider "categoryContent" []).calls =
      [("categoryContent", [.undefined, .undefined, .bool false, .obj []])] ∧
    (Node.callMethod sampleEngine baseSpider "categoryContent" []).calls =
      [("categoryContent", [.undefined, .undefined, .bool false, .obj []])] ∧
    (QuickJS.callMethod sampleEngine baseSpider "searchContent" []).calls =
      [("searchContent", [.undefined, .bool false, .str "1"])] :=
  ⟨rfl, rfl, rfl⟩

/-! ## C6: a structured argument survives the command line -/

/-- C6: for every list of strings `ids`, dispatching `detailContent` with the single raw
argument `JSON.stringify(ids)` hands the extension a value equal to `ids`, and the third
argument of `playerContent` decodes back to the encoded `vipFlags`; in the QuickJS and
Node dispatchers the value is the array of the strings, in the PHP dispatcher the list of
the strings. The empty list is included. -/
theorem structured_argument_round_trip (E : JSEngine) (spider : JSSpider)
    (phpSpider : PHP.Spider) (d p : JSMethod) (pd pp : PHP.Method)
    (ids vipFlags : List String) (flag id idsText flagsText : String)
    (hd : spider "detailContent" = .fn d) (hp : spider "playerContent" = .fn p)
    (hpd : phpSpider "detailContent" = some pd) (hpp : phpSpider "playerContent" = some pp)
    (hi : JSON.stringify (JSValue.ofStrings ids) = some idsText)
    (hv : JSON.stringify (JSValue.ofStrings vipFlags) = some flagsText) :
    ((QuickJS.callMethod E spider "detailContent" [idsText]).calls =
        [("detailContent", [JSValue.ofStrings ids])] ∧
      (QuickJS.callMethod E spider "playerContent" [flag, id, flagsText]).calls =
        [("playerContent", [.str flag, .str id, JSValue.ofStrings vipFlags])]) ∧
    ((Node.callMethod E spider "detailContent" [idsText]).calls =
        [("detailContent", [JSValue.ofStrings ids])] ∧
      (Node.callMethod E spider "playerContent" [flag, id, flagsText]).calls =
        [("playerContent", [.str flag, .str id, JSValue.ofStrings vipFlags])]) ∧
    ((PHP.main phpSpider "detailContent" [idsText]).calls =
        [("detailContent", [PHPValue.ofStrings ids])] ∧
      (PHP.main phpSpider "playerContent" [flag, id, flagsText]).calls =
        [("playerContent", [.str flag, .str id, PHPValue.ofStrings vipFlags])]) := by
  have hi1 : idsText = String.mk (JSON.stringifyChars (JSValue.ofStrings ids)) := by
    simpa [JSON.stringify, JSValue.ofStrings, eq_comm] using hi
  have hv1 : flagsText = String.mk (JSON.stringifyChars (JSValue.ofStrings vipFlags)) := by
    simpa [JSON.stringify, JSValue.ofStrings, eq_comm] using hv
  have hine : idsText ≠ "" := hi1 ▸ JSON.stringify_strings_ne_empty ids
  have hvne : flagsText ≠ "" := hv1 ▸ JSON.stringify_strings_ne_empty vipFlags
  have hip : JSON.parse idsText = some (JSValue.ofStrings ids) :=
    hi1 ▸ JSON.parse_stringify_strings ids
  have hvp : JSON.parse flagsText = some (JSValue.ofStrings vipFlags) :=
    hv1 ▸ JSON.parse_stringify_strings vipFlags
  have hid : PHP.json_decode idsText = PHPValue.ofStrings ids :=
    hi1 ▸ PHP.json_decode_stringify_strings ids
  have hvd : PHP.json_decode flagsText = PHPValue.ofStrings vipFlags :=
    hv1 ▸ PHP.json_decode_stringify_strings vipFlags
  have e1 : argJson E [idsText] 0 (.arr []) = .ok (JSValue.ofStrings ids) := by
    simp [argJson, hine, hip]
  have e2 : argJson E [flag, id, flagsText] 2 (.arr []) = .ok (JSValue.ofStrings vipFlags) := by
    simp [argJson, hvne, hvp]
  have e3 : PHP.argJson [idsText] 0 = PHPValue.ofStrings ids := by
    simp [PHP.argJson, hid, PHPValue.ofStrings]
  have e4 : PHP.argJson [flag, id, flagsText] 2 = PHPValue.ofStrings vipFlags := by
    simp [PHP.argJson, hvd, PHPValue.ofStrings]
  simp only [quickjs_calls_callMethod, node_calls_callMethod, php_calls_main, switchBody,
    PHP.switchBody, e1, e2, e3, e4, invoke_fn E spider _ _ _ hd, invoke_fn E spider _ _ _ hp,
    php_invoke_some phpSpider _ _ _ hpd, php_invoke_some phpSpider _ _ _ hpp, and_self]
  repeat' constructor

/-- C6, at a concrete input: the list `["1", "2"]` and the empty list. -/
theorem structured_argument_round_trip_witness :
    (baseSpider "detailContent" = .fn (fun _ => .ok (.str "")) ∧
      baseSpider "playerContent" = .fn (fun _ => .ok (.str "")) ∧
      PHP.baseSpider "detailContent" = some (fun _ => .ret (.str "")) ∧
      PHP.baseSpider "playerContent" = some (fun _ => .ret (.str "")) ∧
      JSON.stringify (JSValue.ofStrings ["1", "2"]) = some "[\"1\",\"2\"]" ∧
      JSON.stringify (JSValue.ofStrings []) = some "[]") ∧
    ((QuickJS.callMethod sampleEngine baseSpider "detailContent" ["[\"1\",\"2\"]"]).calls =
        [("detailContent", [JSValue.ofStrings ["1", "2"]])] ∧
      (QuickJS.callMethod sampleEngine baseSpider "playerContent" ["f", "9", "[]"]).calls =
        [("playerContent", [.str "f", .str "9", JSValue.ofStrings []])]) ∧
    ((Node.callMethod sampleEngine baseSpider "detailContent" ["[\"1\",\"2\"]"]).calls =
        [("detailContent", [JSValue.ofStrings ["1", "2"]])] ∧
      (Node.callMethod sampleEngine baseSpider "playerContent" ["f", "9", "[]"]).calls =
        [("playerContent", [.str "f", .str "9", JSValue.ofStrings []])]) ∧
    ((PHP.main PHP.baseSpider "detailContent" ["[\"1\",\"2\"]"]).calls =
        [("detailContent", [PHPValue.ofStrings ["1", "2"]])] ∧
      (PHP.main PHP.baseSpider "playerContent" ["f", "9", "[]"]).calls =
        [("playerContent", [.str "f", .str "9", PHPValue.ofStrings []])]) :=
  ⟨⟨rfl, rfl, rfl, rfl, by decide, by decide⟩,
    structured_argument_round_trip sampleEngine baseSpider PHP.baseSpider _ _ _ _
      ["1", "2"] [] "f" "9" "[\"1\",\"2\"]" "[]" rfl rfl rfl rfl (by decide) (by decide)⟩

/-! ## C7: a method name outside the closed set -/

theorem php_json_encode_error (m : String) :
    PHP.json_encode false (.arr [(.str "error", .str m)]) =
      some (String.mk (PHP.encodeChars false (.arr [(.str "error", .str m)]))) := by
  have hn : PHP.nesting (.arr [(.str "error", .str m)]) ≤ PHP.depthLimit := by
    simp [PHP.nesting, PHP.nestingItems, PHP.depthLimit]
  simp only [PHP.json_encode, hn, if_true]

/-- C7: for every method name outside the eleven names of the switch, every argument
vector and every extension, each of the three dispatchers calls no extension method,
writes to standard output exactly one text, the JSON encoding of the object
`{"error": "未知方法: " + methodName}` (`JSON.stringify` in the JavaScript runners,
`json_encode` in the PHP runner), a text that parses back to that object, and the exit
status is 0. -/
theorem unknown_method_error_envelope (E : JSEngine) (spider : JSSpider)
    (phpSpider : PHP.Spider) (method : String) (args : List String)
    (h : method ∉ closedSet) :
    (∃ t, JSON.stringify (.obj [("error", .str ("未知方法: " ++ method))]) = some t ∧
      JSON.parse t = some (.obj [("error", .str ("未知方法: " ++ method))]) ∧
      QuickJS.main E spider method args =
        { trace := { calls := [], out := [t],
                     err := [failureLine method ("未知方法: " ++ method)] },
          exit := 0 } ∧
      Node.main E spider method args =
        { trace := { calls := [], out := [t],
                     err := [failureLine method ("未知方法: " ++ method)] },
          exit := 0 }) ∧
    (∃ t, PHP.json_encode false (.arr [(.str "error", .str ("未知方法: " ++ method))]) = some t ∧
      JSON.parse t = some (.obj [("error", .str ("未知方法: " ++ method))]) ∧
      PHP.main phpSpider method args =
        { calls := [], out := [t], err := [PHP.failureLine method ("未知方法: " ++ method)],
          exit := 0 }) := by
  refine ⟨⟨_, rfl, JSON.parse_errorEnvelope _, ?_, ?_⟩,
    ⟨_, php_json_encode_error _, PHP.parse_phpErrorEnvelope false _, ?_⟩⟩
  · simp only [QuickJS.main, QuickJS.callMethod, switchBody_unknown E spider method args h]
    rfl
  · simp only [Node.main, Node.callMethod, node_switchBody_eq, switchBody_unknown E spider method args h]
    rfl
  · simp only [PHP.main, PHP.callMethod, php_switchBody_unknown phpSpider method args h,
      PHP.errorEnvelope, php_json_encode_error, PHP.emit]

/-- C7, at a concrete input: the method name `bogus`. -/
theorem unknown_method_error_envelope_witness :
    "bogus" ∉ closedSet ∧
    (∃ t, JSON.stringify (.obj [("error", .str ("未知方法: " ++ "bogus"))]) = some t ∧
      JSON.parse t = some (.obj [("error", .str ("未知方法: " ++ "bogus"))]) ∧
      QuickJS.main sampleEngine baseSpider "bogus" ["x"] =
        { trace := { calls := [], out := [t],
                     err := [failureLine "bogus" ("未知方法: " ++ "bogus")] },
          exit := 0 } ∧
      Node.main sampleEngine baseSpider "bogus" ["x"] =
        { trace := { calls := [], out := [t],
                     err := [failureLine "bogus" ("未知方法: " ++ "bogus")] },
          exit := 0 }) ∧
    (∃ t, PHP.json_encode false (.arr [(.str "error", .str ("未知方法: " ++ "bogus"))]) = some t ∧
      JSON.parse t = some (.obj [("error", .str ("未知方法: " ++ "bogus"))]) ∧
      PHP.main PHP.baseSpider "bogus" ["x"] =
        { calls := [], out := [t], err := [PHP.failureLine "bogus" ("未知方法: " ++ "bogus")],
          exit := 0 }) :=
  ⟨by decide, unknown_method_error_envelope sampleEngine baseSpider PHP.baseSpider "bogus" ["x"]
    (by decide)⟩

/-- The two texts for the method name `bogus`. -/
theorem bogus_envelope_texts :
    JSON.stringify (.obj [("error", .str ("未知方法: " ++ "bogus"))]) =
      some "\x7b\"error\":\"未知方法: bogus\"\x7d" ∧
    PHP.json_encode false (.arr [(.str "error", .str ("未知方法: " ++ "bogus"))]) =
      some "\x7b\"error\":\"\\u672a\\u77e5\\u65b9\\u6cd5: bogus\"\x7d" := by
  constructor <;> decide

/-! ## C8, C9, C10: the output step -/

/-- For each of the ten methods other than `destroy` that the extension defines, the
switch either fails while decoding, before any call, or calls the method once and takes
what it does as its own outcome. -/
theorem switchBody_of_fn (E : JSEngine) (spider : JSSpider) (method : String)
    (methodArgs : List String) (f : JSMethod) (hm : method ∈ closedSet)
    (hd : method ≠ "destroy") (hf : spider method = .fn f) :
    (∃ m, switchBody E spider method methodArgs = ([], .error m)) ∨
    (∃ as, switchBody E spider method methodArgs = ([(method, as)], f as)) := by
  simp only [closedSet, List.mem_cons, List.mem_singleton, List.not_mem_nil, or_false] at hm
  rcases hm with h | h | h | h | h | h | h | h | h | h | h <;> subst h
  · exact Or.inr ⟨_, by simp only [switchBody, invoke_fn E spider _ _ _ hf]; rfl⟩
  · exact Or.inr ⟨_, by simp only [switchBody, invoke_fn E spider _ _ _ hf]; rfl⟩
  · exact Or.inr ⟨_, by simp only [switchBody, invoke_fn E spider _ _ _ hf]; rfl⟩
  · cases he : argJson E methodArgs 3 (.obj []) with
    | error m => exact Or.inl ⟨m, by simp only [switchBody, he, invoke]⟩
    | ok v => exact Or.inr ⟨_, by simp only [switchBody, he, invoke_fn E spider _ _ _ hf]; rfl⟩
  · cases he : argJson E methodArgs 0 (.arr []) with
    | error m => exact Or.inl ⟨m, by simp only [switchBody, he, invoke]⟩
    | ok v => exact Or.inr ⟨_, by simp only [switchBody, he, invoke_fn E spider _ _ _ hf]; rfl⟩
  · exact Or.inr ⟨_, by simp only [switchBody, invoke_fn E spider _ _ _ hf]; rfl⟩
  · cases he : argJson E methodArgs 2 (.arr []) with
    | error m => exact Or.inl ⟨m, by simp only [switchBody, he, invoke]⟩
    | ok v => exact Or.inr ⟨_, by simp only [switchBody, he, invoke_fn E spider _ _ _ hf]; rfl⟩
  · exact Or.inr ⟨_, by simp only [switchBody, invoke_fn E spider _ _ _ hf]; rfl⟩
  · cases he : argJson E methodArgs 0 (.obj []) with
    | error m => exact Or.inl ⟨m, by simp only [switchBody, he, invoke]⟩
    | ok v => exact Or.inr ⟨_, by simp only [switchBody, he, invoke_fn E spider _ _ _ hf]; rfl⟩
  · exact Or.inr ⟨_, by simp only [switchBody, invoke_fn E spider _ _ _ hf]; rfl⟩
  · exact absurd rfl hd

/-- What the two JavaScript runners write when the switch ends with `result = r`. -/
theorem js_out_of_result (E : JSEngine) (spider : JSSpider) (method : String)
    (methodArgs : List String) (calls : List JSCall) (r : JSValue)
    (h : switchBody E spider method methodArgs = (calls, .ok r)) :
    (QuickJS.callMethod E spider method methodArgs).out = QuickJS.emit r ∧
    (Node.callMethod E spider method methodArgs).out = QuickJS.emit r := by
  constructor
  · simp only [QuickJS.callMethod, h]
  · simp only [Node.callMethod, node_switchBody_eq, h]
    cases r <;> rfl

/-- C8, as amended: for each of the ten methods other than `destroy`, when the dispatcher
calls the extension's method and the method returns `r`, a string `r` is written to
standard output exactly as it is, and an `r` that is neither a string nor `null` nor
`undefined` is written as its JSON encoding. For `destroy` the text written is the empty
string, whatever the extension's `destroy` returns. -/
theorem method_result_text (E : JSEngine) (spider : JSSpider) (method : String)
    (methodArgs : List String) (f : JSMethod) (as : List JSValue) (r : JSValue)
    (hm : method ∈ closedSet) (hd : method ≠ "destroy") (hf : spider method = .fn f)
    (hc : (switchBody E spider method methodArgs).1 = [(method, as)])
    (hr : f as = .ok r) :
    (∀ s, r = .str s →
      (QuickJS.callMethod E spider method methodArgs).out = [s] ∧
      (Node.callMethod E spider method methodArgs).out = [s]) ∧
    (r.isString = false → r.isPresent = true →
      ∃ t, JSON.stringify r = some t ∧
        (QuickJS.callMethod E spider method methodArgs).out = [t] ∧
        (Node.callMethod E spider method methodArgs).out = [t]) ∧
    (∀ g v, spider "destroy" = .fn g → g [] = .ok v →
      (QuickJS.callMethod E spider "destroy" methodArgs).out = [""] ∧
      (Node.callMethod E spider "destroy" methodArgs).out = [""]) := by
  have hres : switchBody E spider method methodArgs = ([(method, as)], .ok r) := by
    rcases switchBody_of_fn E spider method methodArgs f hm hd hf with ⟨m, h⟩ | ⟨as1, h⟩
    · rw [h] at hc
      cases hc
    · rw [h] at hc
      simp only [List.cons.injEq, Prod.mk.injEq, true_and, and_true] at hc
      rw [h, hc, hr]
  have hout := js_out_of_result E spider method methodArgs _ r hres
  refine ⟨?_, ?_, ?_⟩
  · intro s hs
    subst hs
    exact hout
  · intro h1 h2
    refine ⟨_, stringify_of_isPresent r h2, ?_⟩
    rw [hout.1, hout.2]
    cases r with
    | undefined => exact absurd h2 (by decide)
    | null => exact absurd h2 (by decide)
    | str s => exact absurd h1 (by simp [JSValue.isString])
    | bool b => exact ⟨rfl, rfl⟩
    | num n => exact ⟨rfl, rfl⟩
    | arr xs => exact ⟨rfl, rfl⟩
    | obj kvs => exact ⟨rfl, rfl⟩
  · intro g v hg hv
    have hdes : switchBody E spider "destroy" methodArgs = ([("destroy", [])], .ok (.str "")) := by
      simp only [switchBody, hg, hv]
    exact js_out_of_result E spider "destroy" methodArgs _ _ hdes

/-- C8 as amended, at two concrete inputs: `init` returning the string `"ready"` and `homeContent` returning the object `{ list: [] }`. -/
theorem method_result_text_witness :
    (("init" ∈ closedSet ∧ "init" ≠ "destroy" ∧
        catalogSpider "init" = .fn (fun _ => .ok (.str "ready")) ∧
        (switchBody sampleEngine catalogSpider "init" []).1 = [("init", [.str ""])] ∧
        (fun _ => .ok (.str "ready") : JSMethod) [.str ""] = .ok (.str "ready")) ∧
      (QuickJS.callMethod sampleEngine catalogSpider "init" []).out = ["ready"] ∧
      (Node.callMethod sampleEngine catalogSpider "init" []).out = ["ready"]) ∧
    (("homeContent" ∈ closedSet ∧ "homeContent" ≠ "destroy" ∧
        catalogSpider "homeContent" = .fn (fun _ => .ok (.obj [("list", .arr [])])) ∧
        (switchBody sampleEngine catalogSpider "homeContent" []).1 =
          [("homeContent", [.bool false])] ∧
        (fun _ => .ok (.obj [("list", .arr [])]) : JSMethod) [.bool false] =
          .ok (.obj [("list", .arr [])]) ∧
        (JSValue.obj [("list", .arr [])]).isString = false ∧
        (JSValue.obj [("list", .arr [])]).isPresent = true) ∧
      ∃ t, JSON.stringify (.obj [("list", .arr [])]) = some t ∧
        (QuickJS.callMethod sampleEngine catalogSpider "homeContent" []).out = [t] ∧
        (Node.callMethod sampleEngine catalogSpider "homeContent" []).out = [t]) :=
  ⟨⟨⟨by decide, by decide, rfl, rfl, rfl⟩,
      (method_result_text sampleEngine catalogSpider "init" [] _ [.str ""] (.str "ready")
        (by decide) (by decide) rfl rfl rfl).1 "ready" rfl⟩,
    ⟨⟨by decide, by decide, rfl, rfl, rfl, rfl, rfl⟩,
      (method_result_text sampleEngine catalogSpider "homeContent" [] _ [.bool false]
        (.obj [("list", .arr [])]) (by decide) (by decide) rfl rfl rfl).2.1 rfl rfl⟩⟩

/-- C8, refuted as stated: `destroy` is a method of the closed set and the extension's
`destroy` returns the string `"bye"`, yet both JavaScript runners write the empty string,
not `"bye"`. -/
theorem destroy_result_is_discarded :
    "destroy" ∈ closedSet ∧
    farewellSpider "destroy" = .fn (fun _ => .ok (.str "bye")) ∧
    (QuickJS.callMethod sampleEngine farewellSpider "destroy" []).calls = [("destroy", [])] ∧
    (QuickJS.callMethod sampleEngine farewellSpider "destroy" []).out = [""] ∧
    (Node.callMethod sampleEngine farewellSpider "destroy" []).calls = [("destroy", [])] ∧
    (Node.callMethod sampleEngine farewellSpider "destroy" []).out = [""] ∧
    ("" : String) ≠ "bye" :=
  ⟨by decide, rfl, rfl, rfl, rfl, rfl, by decide⟩

/-- C9, as amended: for every method name, argument vector and extension, one dispatch
writes to standard output at most once. The JavaScript runners write exactly once unless
the switch ends with `result` equal to `undefined` or `null`, in which case they write
nothing; an error thrown in the switch gives the one error envelope. The PHP runner
writes exactly once unless the result is `null` or an error that is not an `Exception`
ends the script, in which case it writes nothing. -/
theorem writes_per_dispatch (E : JSEngine) (spider : JSSpider) (phpSpider : PHP.Spider)
    (method : String) (args : List String) :
    ((QuickJS.callMethod E spider method args).out.length =
        (match (switchBody E spider method args).2 with
          | .ok .undefined => 0
          | .ok .null => 0
          | _ => 1) ∧
      (QuickJS.callMethod E spider method args).out.length ≤ 1) ∧
    ((Node.callMethod E spider method args).out.length =
        (match (switchBody E spider method args).2 with
          | .ok .undefined => 0
          | .ok .null => 0
          | _ => 1) ∧
      (Node.callMethod E spider method args).out.length ≤ 1) ∧
    ((PHP.main phpSpider method args).out.length =
        (match (PHP.switchBody phpSpider method args).2 with
          | .ret .null => 0
          | .fatal => 0
          | _ => 1) ∧
      (PHP.main phpSpider method args).out.length ≤ 1) := by
  refine ⟨?_, ?_, ?_⟩
  · rcases h : switchBody E spider method args with ⟨calls, o⟩
    cases o with
    | error m => simp [QuickJS.callMethod, h]
    | ok r => cases r <;> simp [QuickJS.callMethod, h, QuickJS.emit, JSON.stringify]
  · rcases h : switchBody E spider method args with ⟨calls, o⟩
    cases o with
    | error m => simp [Node.callMethod, node_switchBody_eq, h]
    | ok r => cases r <;> simp [Node.callMethod, node_switchBody_eq, h, Node.emit, JSON.stringify]
  · rcases h : PHP.switchBody phpSpider method args with ⟨calls, o⟩
    cases o with
    | exception m =>
      simp [PHP.main, PHP.callMethod, h, PHP.errorEnvelope, php_json_encode_error, PHP.emit]
    | fatal => simp [PHP.main, PHP.callMethod, h]
    | ret r =>
      cases r with
      | null => simp [PHP.main, PHP.callMethod, h, PHP.emit]
      | str s => simp [PHP.main, PHP.callMethod, h, PHP.emit]
      | bool b =>
        simp only [PHP.main, PHP.callMethod, h, PHP.emit]
        split <;> simp
      | int n =>
        simp only [PHP.main, PHP.callMethod, h, PHP.emit]
        split <;> simp
      | arr items =>
        simp only [PHP.main, PHP.callMethod, h, PHP.emit]
        split <;> simp

/-- C9, refuted as stated: the default `proxy` of the base extension returns `null`, and
the dispatch of `proxy` writes nothing to standard output, in each of the three runners. -/
theorem proxy_null_writes_nothing :
    (QuickJS.callMethod sampleEngine baseSpider "proxy" []).out.length = 0 ∧
    (Node.callMethod sampleEngine baseSpider "proxy" []).out.length = 0 ∧
    (PHP.main PHP.baseSpider "proxy" []).out.length = 0 :=
  ⟨rfl, rfl, rfl⟩

/-- When the requested method is one of the ten other than `destroy` and the extension
has no such member, the switch throws: the error of the decoding if that fails, else
the `TypeError` of calling what is not a function. -/
theorem switchBody_absent_member (E : JSEngine) (spider : JSSpider) (method : String)
    (methodArgs : List String) (hm : method ∈ closedSet) (hd : method ≠ "destroy")
    (ha : spider method = .absent) :
    ∃ m, switchBody E spider method methodArgs = ([], .error m) := by
  simp only [closedSet, List.mem_cons, List.mem_singleton, List.not_mem_nil, or_false] at hm
  rcases hm with h | h | h | h | h | h | h | h | h | h | h <;> subst h
  · exact ⟨_, by simp only [switchBody, invoke, ha]; rfl⟩
  · exact ⟨_, by simp only [switchBody, invoke, ha]; rfl⟩
  · exact ⟨_, by simp only [switchBody, invoke, ha]; rfl⟩
  · cases he : argJson E methodArgs 3 (.obj []) with
    | error m => exact ⟨m, by simp only [switchBody, he, invoke]⟩
    | ok v => exact ⟨_, by simp only [switchBody, he, invoke, ha]; rfl⟩
  · cases he : argJson E methodArgs 0 (.arr []) with
    | error m => exact ⟨m, by simp only [switchBody, he, invoke]⟩
    | ok v => exact ⟨_, by simp only [switchBody, he, invoke, ha]; rfl⟩
  · exact ⟨_, by simp only [switchBody, invoke, ha]; rfl⟩
  · cases he : argJson E methodArgs 2 (.arr []) with
    | error m => exact ⟨m, by simp only [switchBody, he, invoke]⟩
    | ok v => exact ⟨_, by simp only [switchBody, he, invoke, ha]; rfl⟩
  · exact ⟨_, by simp only [switchBody, invoke, ha]; rfl⟩
  · cases he : argJson E methodArgs 0 (.obj []) with
    | error m => exact ⟨m, by simp only [switchBody, he, invoke]⟩
    | ok v => exact ⟨_, by simp only [switchBody, he, invoke, ha]; rfl⟩
  · exact ⟨_, by simp only [switchBody, invoke, ha]; rfl⟩
  · exact absurd rfl hd

/-- C10: in the QuickJS and Node dispatchers, for every method and argument vector, if
the switch raises an error with message `m` (from decoding an argument, from calling a
member that is not a function, or from the extension's method), nothing leaves
`callMethod`: standard output receives exactly the text of `JSON.stringify({ error: m })`,
which parses back to the object `{ error: m }`, standard error receives the one line `执行方法失败: <method> - <m>`, and the exit status
is 0. -/
theorem error_becomes_envelope (E : JSEngine) (spider : JSSpider) (method : String)
    (methodArgs : List String) (m : String)
    (h : (switchBody E spider method methodArgs).2 = .error m) :
    ∃ t, JSON.stringify (.obj [("error", .str m)]) = some t ∧
      JSON.parse t = some (.obj [("error", .str m)]) ∧
      QuickJS.main E spider method methodArgs =
        { trace := { calls := (switchBody E spider method methodArgs).1, out := [t],
                     err := ["执行方法失败: " ++ method ++ " - " ++ m ++ "\n"] },
          exit := 0 } ∧
      Node.main E spider method methodArgs =
        { trace := { calls := (switchBody E spider method methodArgs).1, out := [t],
                     err := ["执行方法失败: " ++ method ++ " - " ++ m ++ "\n"] },
          exit := 0 } := by
  refine ⟨_, rfl, JSON.parse_errorEnvelope m, ?_, ?_⟩
  · rcases hs : switchBody E spider method methodArgs with ⟨calls, o⟩
    rw [hs] at h
    simp only at h
    subst h
    simp only [QuickJS.main, QuickJS.callMethod, hs]
    rfl
  · rcases hs : switchBody E spider method methodArgs with ⟨calls, o⟩
    rw [hs] at h
    simp only at h
    subst h
    simp only [Node.main, Node.callMethod, node_switchBody_eq, hs]
    rfl

/-- C10, at a concrete input: `init` requested from an extension that has no method. -/
theorem error_becomes_envelope_witness :
    (switchBody sampleEngine emptySpider "init" []).2 = .error "init is not a function" ∧
    ∃ t, JSON.stringify (.obj [("error", .str "init is not a function")]) = some t ∧
      JSON.parse t = some (.obj [("error", .str "init is not a function")]) ∧
      QuickJS.main sampleEngine emptySpider "init" [] =
        { trace := { calls := (switchBody sampleEngine emptySpider "init" []).1, out := [t],
                     err := ["执行方法失败: " ++ "init" ++ " - " ++ "init is not a function"
                       ++ "\n"] },
          exit := 0 } ∧
      Node.main sampleEngine emptySpider "init" [] =
        { trace := { calls := (switchBody sampleEngine emptySpider "init" []).1, out := [t],
                     err := ["执行方法失败: " ++ "init" ++ " - " ++ "init is not a function"
                       ++ "\n"] },
          exit := 0 } :=
  ⟨rfl, error_becomes_envelope sampleEngine emptySpider "init" [] "init is not a function" rfl⟩

/-! ## C11: a structured argument that does not decode, in PHP -/

/-- In the PHP dispatcher an argument that `json_decode` turns into `null` gives the same
parameter as an absent one: the empty array. -/
theorem php_argJson_of_null (args : List String) (i : Nat) (s : String)
    (hi : args[i]? = some s) (hs : PHP.json_decode s = .null) :
    PHP.argJson args i = .arr [] := by
  simp only [PHP.argJson, hi, hs]

/-- C11, as amended: in the PHP dispatcher, when the raw text of a structured argument
(`extend` of `categoryContent`, `ids` of `detailContent`, `vipFlags` of `playerContent`,
`params` of `proxy`) is one that `json_decode` turns into `null`, as it does every text
that is not valid JSON, the dispatcher puts the empty array in its place and calls the
extension's method, and the whole run is the run with that argument left out: no error
envelope is written on its account. -/
theorem php_undecodable_argument_is_empty_array (spider : PHP.Spider)
    (c d p x : PHP.Method) (tid pg filter flag id s : String)
    (hc : spider "categoryContent" = some c) (hd : spider "detailContent" = some d)
    (hp : spider "playerContent" = some p) (hx : spider "proxy" = some x)
    (hs : PHP.json_decode s = .null) :
    ((PHP.main spider "categoryContent" [tid, pg, filter, s]).calls =
        [("categoryContent",
          [.str tid, .str pg, .bool (PHP.argIsTrue [tid, pg, filter] 2), .arr []])] ∧
      PHP.main spider "categoryContent" [tid, pg, filter, s] =
        PHP.main spider "categoryContent" [tid, pg, filter]) ∧
    ((PHP.main spider "detailContent" [s]).calls = [("detailContent", [.arr []])] ∧
      PHP.main spider "detailContent" [s] = PHP.main spider "detailContent" []) ∧
    ((PHP.main spider "playerContent" [flag, id, s]).calls =
        [("playerContent", [.str flag, .str id, .arr []])] ∧
      PHP.main spider "playerContent" [flag, id, s] =
        PHP.main spider "playerContent" [flag, id]) ∧
    ((PHP.main spider "proxy" [s]).calls = [("proxy", [.arr []])] ∧
      PHP.main spider "proxy" [s] = PHP.main spider "proxy" []) := by
  have e1 : PHP.argJson [tid, pg, filter, s] 3 = .arr [] := php_argJson_of_null _ _ s rfl hs
  have e2 : PHP.argJson [s] 0 = .arr [] := php_argJson_of_null _ _ s rfl hs
  have e3 : PHP.argJson [flag, id, s] 2 = .arr [] := php_argJson_of_null _ _ s rfl hs
  have s1 : PHP.switchBody spider "categoryContent" [tid, pg, filter, s] =
      PHP.switchBody spider "categoryContent" [tid, pg, filter] := by
    simp only [PHP.switchBody, e1]
    rfl
  have s2 : PHP.switchBody spider "detailContent" [s] =
      PHP.switchBody spider "detailContent" [] := by
    simp only [PHP.switchBody, e2]
    rfl
  have s3 : PHP.switchBody spider "playerContent" [flag, id, s] =
      PHP.switchBody spider "playerContent" [flag, id] := by
    simp only [PHP.switchBody, e3]
    rfl
  have s4 : PHP.switchBody spider "proxy" [s] = PHP.switchBody spider "proxy" [] := by
    simp only [PHP.switchBody, e2]
    rfl
  refine ⟨⟨?_, ?_⟩, ⟨?_, ?_⟩, ⟨?_, ?_⟩, ⟨?_, ?_⟩⟩
  · simp only [php_calls_main, PHP.switchBody, e1, php_invoke_some spider _ _ _ hc]
    rfl
  · simp only [PHP.main, PHP.callMethod, s1]
  · simp only [php_calls_main, PHP.switchBody, e2, php_invoke_some spider _ _ _ hd]
  · simp only [PHP.main, PHP.callMethod, s2]
  · simp only [php_calls_main, PHP.switchBody, e3, php_invoke_some spider _ _ _ hp]
    rfl
  · simp only [PHP.main, PHP.callMethod, s3]
  · simp only [php_calls_main, PHP.switchBody, e2, php_invoke_some spider _ _ _ hx]
  · simp only [PHP.main, PHP.callMethod, s4]

/-- C11 as amended, at a concrete input: the text `not json` and the base extension. -/
theorem php_undecodable_argument_is_empty_array_witness :
    (PHP.baseSpider "categoryContent" = some (fun _ => .ret (.str "")) ∧
      PHP.baseSpider "detailContent" = some (fun _ => .ret (.str "")) ∧
      PHP.baseSpider "playerContent" = some (fun _ => .ret (.str "")) ∧
      PHP.baseSpider "proxy" = some (fun _ => .ret .null) ∧
      PHP.json_decode "not json" = .null) ∧
    (PHP.main PHP.baseSpider "detailContent" ["not json"]).calls =
      [("detailContent", [.arr []])] ∧
    PHP.main PHP.baseSpider "detailContent" ["not json"] =
      PHP.main PHP.baseSpider "detailContent" [] :=
  ⟨⟨rfl, rfl, rfl, rfl, rfl⟩,
    (php_undecodable_argument_is_empty_array PHP.baseSpider _ _ _ _ "1" "2" "true" "f" "9"
      "not json" rfl rfl rfl rfl rfl).2.1⟩

/-- C11, refuted as stated: the text `not json` is not valid JSON, yet the PHP dispatcher
calls `detailContent` with the empty array, echoes what the method returns and writes
neither an error envelope nor a line on standard error. -/
theorem php_invalid_json_calls_the_method :
    JSON.parseText "not json" = none ∧
    PHP.main PHP.baseSpider "detailContent" ["not json"] =
      { calls := [("detailContent", [.arr []])], out := [""], err := [], exit := 0 } :=
  ⟨rfl, rfl⟩

/-! ## C12, C13, C14: the bridge client and its primitives -/

/-- Without a bridge `bridgeCall` throws before it enters its `try` block. -/
theorem bridgeCall_without_bridge (E : JSEngine) (H : LibHost) (action : String)
    (data : JSValue) (hp : H.port ≤ 0) :
    bridgeCall E H action data =
      { result := .error "桥接服务未启动", spawned := [], err := [] } := by
  simp only [bridgeCall, hp, if_true]

/-- Without a bridge every primitive of the pattern `result.<name> || fallback` throws. -/
theorem orFallback_without_bridge (E : JSEngine) (H : LibHost) (action name : String)
    (data fallback : JSValue) (hp : H.port ≤ 0) :
    (orFallback H (bridgeCall E H action data) name fallback).result =
      .error "桥接服务未启动" := by
  simp only [bridgeCall_without_bridge E H action data hp, orFallback]

/-- C12, the code at the failing input: with the bridge port equal to 0 the calls
`local.get("k", "d")`, `s2t("測試")`, `t2s("測試")` and `joinUrl("http://a", "b")` each throw
the error `桥接服务未启动` instead of returning `"d"`, `"測試"` and `"http://a"`. -/
theorem facade_throws_without_bridge :
    noBridge.port = 0 ∧
    (local_get sampleEngine noBridge (.str "k") (.str "d")).result =
      .error "桥接服务未启动" ∧
    (s2t sampleEngine noBridge (.str "測試")).result = .error "桥接服务未启动" ∧
    (t2s sampleEngine noBridge (.str "測試")).result = .error "桥接服务未启动" ∧
    (joinUrl sampleEngine noBridge (.str "http://a") (.str "b")).result =
      .error "桥接服务未启动" :=
  ⟨rfl, rfl, rfl, rfl, rfl⟩

/-- C13: with a bridge port greater than 0, for every action, data value and outcome of
the transport, `bridgeCall` returns and does not throw: `{}` for an empty response body,
the decoded value for a body that is valid JSON, and `{ error: message }` when running
the command fails or the body is not valid JSON. It runs one command. -/
theorem bridgeCall_never_throws (E : JSEngine) (H : LibHost) (action : String)
    (data : JSValue) (hp : 0 < H.port) :
    ∃ v, (bridgeCall E H action data).result = .ok v ∧
      (bridgeCall E H action data).spawned = [bridgeCommand H.port action data] ∧
      (∀ m, H.popen (bridgeCommand H.port action data) = .error m →
        v = .obj [("error", .str m)]) ∧
      (H.popen (bridgeCommand H.port action data) = .ok "" → v = .obj []) ∧
      (∀ body w, H.popen (bridgeCommand H.port action data) = .ok body → body ≠ "" →
        JSON.parse body = some w → v = w) ∧
      (∀ body, H.popen (bridgeCommand H.port action data) = .ok body → body ≠ "" →
        JSON.parse body = none → v = .obj [("error", .str (E.parseErrorMessage body))]) := by
  have hnp : ¬ H.port ≤ 0 := by omega
  have hempty : JSON.parse "\x7b\x7d" = some (.obj []) := rfl
  cases hpo : H.popen (bridgeCommand H.port action data) with
  | error m =>
    refine ⟨.obj [("error", .str m)], ?_, ?_, ?_, ?_, ?_, ?_⟩
    · simp only [bridgeCall, hnp, if_false, hpo]
    · simp only [bridgeCall, hnp, if_false, hpo]
    · intro m1 h; cases h; rfl
    · intro h; cases h
    · intro body w h; cases h
    · intro body h; cases h
  | ok response =>
    by_cases hr : response = ""
    · subst hr
      refine ⟨.obj [], ?_, ?_, ?_, ?_, ?_, ?_⟩
      · simp only [bridgeCall, hnp, if_false, hpo, if_true, hempty]
      · simp only [bridgeCall, hnp, if_false, hpo, if_true, hempty]
      · intro m h; cases h
      · intro _; rfl
      · intro body w h hne; cases h; exact absurd rfl hne
      · intro body h hne; cases h; exact absurd rfl hne
    · cases hj : JSON.parse response with
      | some w =>
        refine ⟨w, ?_, ?_, ?_, ?_, ?_, ?_⟩
        · simp only [bridgeCall, hnp, if_false, hpo, hr, hj]
        · simp only [bridgeCall, hnp, if_false, hpo, hr, hj]
        · intro m h; cases h
        · intro h; cases h; exact absurd rfl hr
        · intro body w1 h _ hw; cases h; rw [hj] at hw; cases hw; rfl
        · intro body h _ hn; cases h; rw [hj] at hn; cases hn
      | none =>
        refine ⟨.obj [("error", .str (E.parseErrorMessage response))], ?_, ?_, ?_, ?_, ?_, ?_⟩
        · simp only [bridgeCall, hnp, if_false, hpo, hr, hj]
        · simp only [bridgeCall, hnp, if_false, hpo, hr, hj]
        · intro m h; cases h
        · intro h; cases h; exact absurd rfl hr
        · intro body w h _ hw; cases h; rw [hj] at hw; cases hw
        · intro body h _ _; cases h; rfl

/-- C13, at a concrete input: a bridge on port 9978 that answers with `not json`. -/
theorem bridgeCall_never_throws_witness :
    0 < (bridgeAnswering "not json").port ∧
    ∃ v, (bridgeCall sampleEngine (bridgeAnswering "not json") "md5"
        (.obj [("data", .str "a")])).result = .ok v ∧
      v = .obj [("error", .str "unexpected token")] := by
  refine ⟨by decide, ?_⟩
  obtain ⟨v, h1, _, _, _, _, h6⟩ :=
    bridgeCall_never_throws sampleEngine (bridgeAnswering "not json") "md5"
      (.obj [("data", .str "a")]) (by decide)
  exact ⟨v, h1, h6 "not json" rfl (by decide) rfl⟩

namespace JSON

/-- The parser never produces `undefined`. -/
theorem parseValue_ne_undefined (f : Nat) (cs : List Char) (v : JSValue) (r : List Char)
    (h : parseValue f cs = some (v, r)) : v ≠ .undefined := by
  cases f with
  | zero => simp [parseValue] at h
  | succ n =>
    rw [parseValue] at h
    intro hv
    subst hv
    repeat' split at h
    all_goals simp at h

theorem build_ne_undefined (v : JSValue) (h : v ≠ .undefined) : build v ≠ .undefined := by
  cases v with
  | undefined => exact absurd rfl h
  | null => simp [build]
  | bool b => simp [build]
  | num n => simp [build]
  | str s => simp [build]
  | arr xs => simp [build]
  | obj ms => simp [build, objectOf]

/-- `JSON.parse` never returns `undefined`. -/
theorem parse_ne_undefined (s : String) (w : JSValue) (h : parse s = some w) :
    w ≠ .undefined := by
  unfold parse at h
  cases hp : parseText s with
  | none => simp [hp] at h
  | some v =>
    simp only [hp, Option.some.injEq] at h
    subst h
    apply build_ne_undefined
    unfold parseText at hp
    split at hp
    · next v1 r1 heq =>
      split at hp
      · simp only [Option.some.injEq] at hp
        subst hp
        exact parseValue_ne_undefined _ _ _ _ heq
      · simp at hp
    · simp at hp

end JSON

/-- With a bridge that never answers with the JSON text `null`, `bridgeCall` returns a
value that is neither `null` nor `undefined`. -/
theorem bridgeCall_value (E : JSEngine) (H : LibHost) (action : String) (data : JSValue)
    (hp : 0 < H.port)
    (hn : ∀ cmd body, H.popen cmd = .ok body → JSON.parse body ≠ some .null) :
    ∃ v, (bridgeCall E H action data).result = .ok v ∧ v ≠ .null ∧ v ≠ .undefined := by
  have hnp : ¬ H.port ≤ 0 := by omega
  have hempty : JSON.parse "\x7b\x7d" = some (.obj []) := rfl
  cases hpo : H.popen (bridgeCommand H.port action data) with
  | error m =>
    exact ⟨.obj [("error", .str m)], by simp only [bridgeCall, hnp, if_false, hpo],
      by simp, by simp⟩
  | ok response =>
    by_cases hr : response = ""
    · subst hr
      exact ⟨.obj [], by simp only [bridgeCall, hnp, if_false, hpo, if_true, hempty],
        by simp, by simp⟩
    · cases hj : JSON.parse response with
      | some w =>
        refine ⟨w, by simp only [bridgeCall, hnp, if_false, hpo, hr, hj], ?_, ?_⟩
        · intro hw
          exact hn _ _ hpo (hw ▸ hj)
        · exact JSON.parse_ne_undefined response w hj
      | none =>
        exact ⟨.obj [("error", .str (E.parseErrorMessage response))],
          by simp only [bridgeCall, hnp, if_false, hpo, hr, hj], by simp, by simp⟩

/-- Reading a property of a value that is neither `null` nor `undefined` does not throw. -/
theorem getProp_ok (H : LibHost) (v : JSValue) (name : String) (h1 : v ≠ .null)
    (h2 : v ≠ .undefined) : ∃ f, getProp H v name = .ok f := by
  cases v with
  | undefined => exact absurd rfl h2
  | null => exact absurd rfl h1
  | bool b => exact ⟨_, rfl⟩
  | num n => exact ⟨_, rfl⟩
  | str s => exact ⟨_, rfl⟩
  | arr xs => exact ⟨_, rfl⟩
  | obj kvs => exact ⟨_, rfl⟩

/-- A primitive of the pattern `result.<name> || fallback` returns the property when
that is truthy and the fallback otherwise, once the call returned a value that is
neither `null` nor `undefined`. -/
theorem orFallback_ok (H : LibHost) (call : LibRun) (name : String) (fallback v : JSValue)
    (hv : call.result = .ok v) (h1 : v ≠ .null) (h2 : v ≠ .undefined) :
    ∃ f, getProp H v name = .ok f ∧
      (orFallback H call name fallback).result = .ok (f.or fallback) ∧
      (f.truthy = false → (orFallback H call name fallback).result = .ok fallback) := by
  obtain ⟨f, hf⟩ := getProp_ok H v name h1 h2
  refine ⟨f, hf, by simp only [orFallback, hv, hf], ?_⟩
  intro ht
  simp only [orFallback, hv, hf, JSValue.or, ht]
  rfl

/-- The operator `||` may be read from either side. -/
theorem or_or_assoc (a b c : JSValue) : (a.or b).or c = a.or (b.or c) := by
  unfold JSValue.or
  by_cases ha : a.truthy = true
  · simp [ha]
  · simp [ha]

/-- A primitive of the pattern `result.<name> || fallback` on the answer to one bridge
request, with a bridge that never answers `null`: it does not throw; it returns the
property of the value `bridgeCall` returned when that is truthy and the fallback
otherwise; and it returns the fallback after a transport error, an empty body, a body
that is not JSON, and a JSON object without the property. -/
theorem orFallback_bridge (E : JSEngine) (H : LibHost) (action : String)
    (payload : JSValue) (name : String) (fallback : JSValue) (hp : 0 < H.port)
    (hn : ∀ cmd body, H.popen cmd = .ok body → JSON.parse body ≠ some .null)
    (hne : name ≠ "error") :
    (∃ v f : JSValue, (bridgeCall E H action payload).result = .ok v ∧
      getProp H v name = .ok f ∧
      (orFallback H (bridgeCall E H action payload) name fallback).result =
        .ok (f.or fallback) ∧
      (f.truthy = false →
        (orFallback H (bridgeCall E H action payload) name fallback).result =
          .ok fallback)) ∧
    (∀ m, H.popen (bridgeCommand H.port action payload) = .error m →
      (orFallback H (bridgeCall E H action payload) name fallback).result = .ok fallback) ∧
    (∀ body, H.popen (bridgeCommand H.port action payload) = .ok body →
      body = "" ∨ JSON.parse body = none →
      (orFallback H (bridgeCall E H action payload) name fallback).result = .ok fallback) ∧
    (∀ body kvs, H.popen (bridgeCommand H.port action payload) = .ok body → body ≠ "" →
      JSON.parse body = some (.obj kvs) → kvs.lookup name = none →
      (orFallback H (bridgeCall E H action payload) name fallback).result = .ok fallback) := by
  have hnp : ¬ H.port ≤ 0 := by omega
  have hempty : JSON.parse "\x7b\x7d" = some (.obj []) := rfl
  have hb : (name == "error") = false := by simpa using hne
  have herr : ∀ m : String, getProp H (.obj [("error", .str m)]) name = .ok .undefined := by
    intro m
    simp [getProp, JSValue.field, List.lookup, hb]
  refine ⟨?_, ?_, ?_, ?_⟩
  · obtain ⟨v, hv, h1, h2⟩ := bridgeCall_value E H action payload hp hn
    obtain ⟨f, h0, h3, h4⟩ := orFallback_ok H _ name fallback v hv h1 h2
    exact ⟨v, f, hv, h0, h3, h4⟩
  · intro m hm
    have hr : (bridgeCall E H action payload).result = .ok (.obj [("error", .str m)]) := by
      simp only [bridgeCall, hnp, if_false, hm]
    simp only [orFallback, hr, herr]
    rfl
  · intro body hbody hcase
    by_cases he : body = ""
    · have hr : (bridgeCall E H action payload).result = .ok (.obj []) := by
        simp only [bridgeCall, hnp, if_false, hbody, he, if_true, hempty]
      simp only [orFallback, hr]
      rfl
    · have hpn : JSON.parse body = none := hcase.resolve_left he
      have hr : (bridgeCall E H action payload).result =
          .ok (.obj [("error", .str (E.parseErrorMessage body))]) := by
        simp only [bridgeCall, hnp, if_false, hbody, he, hpn]
      simp only [orFallback, hr, herr]
      rfl
  · intro body kvs hbody he hpk hl
    have hr : (bridgeCall E H action payload).result = .ok (.obj kvs) := by
      simp only [bridgeCall, hnp, if_false, hbody, he, hpk]
    simp only [orFallback, hr, getProp, JSValue.field, hl]
    rfl

/-- The method `local.get` is a primitive of the same pattern, with the fallback
`defaultValue || ''`. -/
theorem local_get_result (E : JSEngine) (H : LibHost) (key defaultValue : JSValue) :
    (local_get E H key defaultValue).result =
      (orFallback H
        (bridgeCall E H "local.get"
          (.obj [("key", key), ("default", defaultValue.or (.str ""))]))
        "value" (defaultValue.or (.str ""))).result := by
  unfold local_get orFallback
  cases (bridgeCall E H "local.get"
      (.obj [("key", key), ("default", defaultValue.or (.str ""))])).result with
  | error m => rfl
  | ok v =>
    simp only
    cases getProp H v "value" with
    | error m => rfl
    | ok f => simp only [or_or_assoc]

/-- C14, as the code has it: with a bridge port greater than 0 and a bridge that never
answers with the JSON text `null`, for each of the seven primitives (listed with the
action and the request it sends, the property it reads and its fallback: the empty string
for `md5X`, `aesX` and `rsaX`, the input text for `s2t` and `t2s`, `base` for `joinUrl`,
and for `local.get` the caller's default, or the empty string when that default is
falsy): the primitive does not throw; it returns the property of the very value that
`bridgeCall` returned for its request when that property is truthy, and its fallback when
the property is falsy; and it returns its fallback after a transport error, after an empty
body, after a body that is not JSON, and after a JSON object that lacks the property. -/
theorem facade_falls_back (E : JSEngine) (H : LibHost)
    (mode encrypt data key iv text base path defaultValue : JSValue)
    (hp : 0 < H.port)
    (hn : ∀ cmd body, H.popen cmd = .ok body → JSON.parse body ≠ some .null)
    (action : String) (payload : JSValue) (name : String) (fallback : JSValue)
    (outcome : Except String JSValue)
    (hq : (action, payload, name, fallback, outcome) ∈
      [("md5", JSValue.obj [("data", data)], "result", JSValue.str "",
          (md5X E H data).result),
        (if encrypt.truthy then "aes.encrypt" else "aes.decrypt",
          .obj [("data", data), ("key", key), ("iv", iv.or (.str ""))], "result", .str "",
          (aesX E H mode encrypt data key iv).result),
        (if encrypt.truthy then "rsa.encrypt" else "rsa.decrypt",
          .obj [("data", data), ("key", key)], "result", .str "",
          (rsaX E H mode encrypt data key).result),
        ("s2t", .obj [("text", text)], "result", text, (s2t E H text).result),
        ("t2s", .obj [("text", text)], "result", text, (t2s E H text).result),
        ("joinUrl", .obj [("base", base), ("path", path)], "url", base,
          (joinUrl E H base path).result),
        ("local.get", .obj [("key", key), ("default", defaultValue.or (.str ""))], "value",
          defaultValue.or (.str ""), (local_get E H key defaultValue).result)]) :
    (∃ v f : JSValue, (bridgeCall E H action payload).result = .ok v ∧
      getProp H v name = .ok f ∧ outcome = .ok (f.or fallback) ∧
      (f.truthy = false → outcome = .ok fallback)) ∧
    (∀ m, H.popen (bridgeCommand H.port action payload) = .error m →
      outcome = .ok fallback) ∧
    (∀ body, H.popen (bridgeCommand H.port action payload) = .ok body →
      body = "" ∨ JSON.parse body = none → outcome = .ok fallback) ∧
    (∀ body kvs, H.popen (bridgeCommand H.port action payload) = .ok body → body ≠ "" →
      JSON.parse body = some (.obj kvs) → kvs.lookup name = none →
      outcome = .ok fallback) := by
  simp only [List.mem_cons, Prod.mk.injEq, List.mem_singleton, List.not_mem_nil,
    or_false] at hq
  rcases hq with ⟨rfl, rfl, rfl, rfl, rfl⟩ | ⟨rfl, rfl, rfl, rfl, rfl⟩ |
    ⟨rfl, rfl, rfl, rfl, rfl⟩ | ⟨rfl, rfl, rfl, rfl, rfl⟩ | ⟨rfl, rfl, rfl, rfl, rfl⟩ |
    ⟨rfl, rfl, rfl, rfl, rfl⟩ | ⟨rfl, rfl, rfl, rfl, rfl⟩
  · exact orFallback_bridge E H _ _ _ _ hp hn (by decide)
  · exact orFallback_bridge E H _ _ _ _ hp hn (by decide)
  · exact orFallback_bridge E H _ _ _ _ hp hn (by decide)
  · exact orFallback_bridge E H _ _ _ _ hp hn (by decide)
  · exact orFallback_bridge E H _ _ _ _ hp hn (by decide)
  · exact orFallback_bridge E H _ _ _ _ hp hn (by decide)
  · rw [local_get_result]
    exact orFallback_bridge E H _ _ _ _ hp hn (by decide)

/-- C14 at a concrete input: a bridge on port 9978 that answers every request with an
empty body, and `s2t("測試")`. `bridgeCall` returns the empty object, its property
`result` is `undefined`, and `s2t` returns its input. -/
theorem facade_falls_back_witness :
    (0 < (bridgeAnswering "").port ∧
      ∀ cmd body, (bridgeAnswering "").popen cmd = .ok body →
        JSON.parse body ≠ some .null) ∧
    (bridgeCall sampleEngine (bridgeAnswering "") "s2t"
      (.obj [("text", .str "測試")])).result = .ok (.obj []) ∧
    getProp (bridgeAnswering "") (.obj []) "result" = .ok .undefined ∧
    (s2t sampleEngine (bridgeAnswering "") (.str "測試")).result = .ok (.str "測試") := by
  have hn : ∀ cmd body, (bridgeAnswering "").popen cmd = .ok body →
      JSON.parse body ≠ some .null := by
    intro cmd body h
    cases h
    intro h2
    cases h2
  exact ⟨⟨by decide, hn⟩, rfl, rfl,
    (facade_falls_back sampleEngine (bridgeAnswering "") .undefined .undefined .undefined
      .undefined .undefined (.str "測試") .undefined .undefined .undefined (by decide) hn
      "s2t" (.obj [("text", .str "測試")]) "result" (.str "測試") _
      (.tail _ (.tail _ (.tail _ (.head _))))).2.2.1 "" rfl (Or.inl rfl)⟩

/-- C14 fails as stated: `null` is a JSON value the bridge may answer with, and then
`md5X`, `s2t`, `joinUrl` and `local.get` throw a `TypeError` instead of returning their
fallback; and with an empty answer `local.get("k", 0)` returns the empty string, not the
caller's default `0`. -/
theorem facade_throws_on_null_answer :
    0 < (bridgeAnswering "null").port ∧
    JSON.parse "null" = some .null ∧
    (md5X sampleEngine (bridgeAnswering "null") (.str "a")).result =
      .error "cannot read property result of null" ∧
    (s2t sampleEngine (bridgeAnswering "null") (.str "測試")).result =
      .error "cannot read property result of null" ∧
    (joinUrl sampleEngine (bridgeAnswering "null") (.str "http://a") (.str "b")).result =
      .error "cannot read property url of null" ∧
    (local_get sampleEngine (bridgeAnswering "null") (.str "k") (.str "d")).result =
      .error "cannot read property value of null" ∧
    (local_get sampleEngine (bridgeAnswering "") (.str "k") (.num 0)).result =
      .ok (.str "") ∧
    JSValue.str "" ≠ JSValue.num 0 :=
  ⟨by decide, rfl, rfl, rfl, rfl, rfl, rfl, by intro h; cases h⟩

/-! ## C15, C16, C17: loading the extension -/

/-- C15: in each of the three runners, for every method name and argument vector, when
the extension path names a file that does not exist (`std.loadFile` returns `null`,
`fs.existsSync` and `file_exists` return false), the process exits with status 1,
standard error receives a line that contains the path, no extension method is called and
nothing is written to standard output. -/
theorem missing_file_exits_one (E : JSEngine) (QH : QuickJS.Host) (NH : Node.Host)
    (PH : PHP.Host) (spiderPath method : String) (args : List String)
    (hq : QH.loadFile spiderPath = none) (hn : NH.existsSync spiderPath = false)
    (hp : PH.file_exists spiderPath = false) :
    QuickJS.runner E QH spiderPath method args =
      { trace := { calls := [], out := [],
                   err := QH.libLines ++
                     ["加载爬虫脚本失败: " ++ ("无法读取爬虫脚本: " ++ spiderPath) ++ "\n"] },
        exit := 1 } ∧
    Node.runner E NH spiderPath method args =
      { trace := { calls := [], out := [],
                   err := NH.libLines ++
                     ["加载爬虫脚本失败: " ++ ("爬虫脚本不存在: " ++ spiderPath) ++ "\n"] },
        exit := 1 } ∧
    PHP.runner PH spiderPath method args =
      { calls := [], out := [],
        err := ["加载爬虫脚本失败: " ++ ("爬虫脚本不存在: " ++ spiderPath) ++ "\n"],
        exit := 1 } := by
  refine ⟨?_, ?_, ?_⟩
  · simp only [QuickJS.runner, QuickJS.load, hq]
  · simp only [Node.runner, Node.load, hn, if_true]
  · simp only [PHP.runner, PHP.load, hp, if_true]

/-- C15, at a concrete input: file systems with no file and the path `/ext/site.js`. -/
theorem missing_file_exits_one_witness :
    (QuickJS.emptyHost.loadFile "/ext/site.js" = none ∧
      Node.emptyHost.existsSync "/ext/site.js" = false ∧
      PHP.emptyHost.file_exists "/ext/site.js" = false) ∧
    QuickJS.runner sampleEngine QuickJS.emptyHost "/ext/site.js" "init" [] =
      { trace := { calls := [], out := [],
                   err := QuickJS.emptyHost.libLines ++
                     ["加载爬虫脚本失败: " ++ ("无法读取爬虫脚本: " ++ "/ext/site.js") ++ "\n"] },
        exit := 1 } ∧
    Node.runner sampleEngine Node.emptyHost "/ext/site.js" "init" [] =
      { trace := { calls := [], out := [],
                   err := Node.emptyHost.libLines ++
                     ["加载爬虫脚本失败: " ++ ("爬虫脚本不存在: " ++ "/ext/site.js") ++ "\n"] },
        exit := 1 } ∧
    PHP.runner PHP.emptyHost "/ext/site.js" "init" [] =
      { calls := [], out := [],
        err := ["加载爬虫脚本失败: " ++ ("爬虫脚本不存在: " ++ "/ext/site.js") ++ "\n"],
        exit := 1 } :=
  ⟨⟨rfl, rfl, rfl⟩,
    missing_file_exits_one sampleEngine QuickJS.emptyHost Node.emptyHost PHP.emptyHost
      "/ext/site.js" "init" [] rfl rfl rfl⟩

/-- The loading block of `runner.js` fails on every host and every path: the binding
`spider` it tests is the module's own, which holds `null`. -/
theorem quickjs_load_never_succeeds (H : QuickJS.Host) (spiderPath : String) :
    ∃ m, QuickJS.load H spiderPath = .error m := by
  unfold QuickJS.load
  cases H.loadFile spiderPath with
  | none => exact ⟨_, rfl⟩
  | some code =>
    by_cases hc : code = ""
    · exact ⟨"无法读取爬虫脚本: " ++ spiderPath, by simp only [hc, if_true]⟩
    · cases he : H.evalScript code with
      | error m => exact ⟨m, by simp only [hc, if_false, he]⟩
      | ok g =>
        exact ⟨"爬虫脚本未导出 spider 对象",
          by simp only [hc, if_false, he, Binding.isDefined, if_true]⟩

/-- C16, the code at the failing input: the extension file is readable, evaluates
without error and leaves the base extension in the global `spider` (and in `__spider__`),
yet the QuickJS runner reports that the script exports no `spider` object and exits with
status 1, calling no method. -/
theorem quickjs_global_spider_is_not_seen :
    QuickJS.readyHost.loadFile "/ext/site.js" = some "var spider = createSpider(...)" ∧
    QuickJS.readyHost.evalScript "var spider = createSpider(...)" =
      .ok { spider := .object baseSpider, altSpider := .object baseSpider } ∧
    QuickJS.runner sampleEngine QuickJS.readyHost "/ext/site.js" "init" [] =
      { trace := { calls := [], out := [],
                   err := ["加载爬虫脚本失败: 爬虫脚本未导出 spider 对象\n"] },
        exit := 1 } :=
  ⟨rfl, rfl, rfl⟩

/-- In the Node runner, a script that evaluates without error always loads: when it
leaves `module.exports` as the runner made it, the empty object is taken for the
extension. -/
theorem node_load_of_fresh_context (H : Node.Host) (spiderPath code : String)
    (he : H.existsSync spiderPath = true) (hr : H.readFileSync spiderPath = .ok code)
    (hc : H.runInNewContext code spiderPath = .ok Node.freshContext) :
    Node.load H spiderPath = .ok emptySpider := by
  simp only [Node.load, he, hr, hc]
  rfl

/-- C17, the code at the failing input: the extension file evaluates without error and
assigns nothing to `spider`, `module.exports` or `exports`, yet the Node runner does not
fail to load: it takes the empty `module.exports` for the extension, attempts `init`,
writes the error envelope for the resulting `TypeError` and exits with status 0. -/
theorem node_empty_exports_load :
    Node.idleHost.runInNewContext "// nothing" "/ext/site.js" = .ok Node.freshContext ∧
    Node.load Node.idleHost "/ext/site.js" = .ok emptySpider ∧
    Node.runner sampleEngine Node.idleHost "/ext/site.js" "init" [] =
      { trace := { calls := [], out := ["\x7b\"error\":\"init is not a function\"\x7d"],
                   err := ["执行方法失败: init - init is not a function\n"] },
        exit := 0 } :=
  ⟨rfl, rfl, rfl⟩

/-! ## C18, C19: outbound HTTP -/

/-- The fields that `bridgeHttp` adds for the body, case by case. -/
theorem bridgeBodyFields_cases (method : String) (data : JSValue) :
    (¬ (method = "POST" ∧ data.truthy = true) → bridgeBodyFields method data = []) ∧
    (method = "POST" → data.truthy = true → data.isObject = false →
      bridgeBodyFields method data = [("data", data)]) ∧
    (method = "POST" → data.isObject = true →
      ∃ text, JSON.stringify data = some text ∧
        bridgeBodyFields method data = [("data", .str text), ("json", .bool true)]) := by
  refine ⟨?_, ?_, ?_⟩
  · intro h
    simp only [bridgeBodyFields, h, if_false]
  · intro hm ht ho
    simp [bridgeBodyFields, hm, ht, ho]
  · intro hm ho
    cases data with
    | arr xs => exact ⟨_, rfl, by simp [bridgeBodyFields, hm, JSValue.truthy, JSValue.isObject, JSON.stringify]⟩
    | obj kvs => exact ⟨_, rfl, by simp [bridgeBodyFields, hm, JSValue.truthy, JSValue.isObject, JSON.stringify]⟩
    | undefined => simp [JSValue.isObject] at ho
    | null => simp [JSValue.isObject] at ho
    | bool b => simp [JSValue.isObject] at ho
    | num n => simp [JSValue.isObject] at ho
    | str s => simp [JSValue.isObject] at ho

/-- The arguments that `curlRequest` adds for the body, case by case. -/
theorem curlBodyArgs_cases (method : String) (data : JSValue) :
    (¬ (method = "POST" ∧ data.truthy = true) → curlBodyArgs method data = []) ∧
    (method = "POST" → data.truthy = true → data.isObject = false →
      curlBodyArgs method data = [.str "-d", data]) ∧
    (method = "POST" → data.isObject = true →
      ∃ text, JSON.stringify data = some text ∧
        curlBodyArgs method data =
          [.str "-H", .str "Content-Type: application/json", .str "-d", .str text]) := by
  refine ⟨?_, ?_, ?_⟩
  · intro h
    simp only [curlBodyArgs, h, if_false]
  · intro hm ht ho
    simp [curlBodyArgs, hm, ht, ho]
  · intro hm ho
    cases data with
    | arr xs => exact ⟨_, rfl, by simp [curlBodyArgs, hm, JSValue.truthy, JSValue.isObject, JSON.stringify]⟩
    | obj kvs => exact ⟨_, rfl, by simp [curlBodyArgs, hm, JSValue.truthy, JSValue.isObject, JSON.stringify]⟩
    | undefined => simp [JSValue.isObject] at ho
    | null => simp [JSValue.isObject] at ho
    | bool b => simp [JSValue.isObject] at ho
    | num n => simp [JSValue.isObject] at ho
    | str s => simp [JSValue.isObject] at ho

/-- An object or array is truthy. -/
theorem truthy_of_isObject (data : JSValue) (h : data.isObject = true) :
    data.truthy = true := by
  cases data <;> first | rfl | simp [JSValue.isObject] at h

/-- C18, as amended: when a bridge is configured (port greater than 0), for every url and
options, `_http` runs exactly one command, the bridge call with action `http` for the
request object `bridgeHttp` builds; the request carries `json = true` if and only if the
upper-cased method is `POST` and the body is an object (or array), and then the `data` it
carries is `JSON.stringify(body)`. -/
theorem http_bridge_request (E : JSEngine) (H : LibHost) (url : String)
    (options : Option HttpOptions) (hp : 0 < H.port) :
    (_http E H url options).spawned =
      [bridgeCommand H.port "http"
        (requestData url (methodOf H options) (headersOf options) (dataOf options))] ∧
    ∃ kvs, requestData url (methodOf H options) (headersOf options) (dataOf options) =
        .obj kvs ∧
      (kvs.lookup "json" = some (.bool true) ↔
        (methodOf H options = "POST" ∧ (dataOf options).isObject = true)) ∧
      (methodOf H options = "POST" → (dataOf options).isObject = true →
        ∃ text, JSON.stringify (dataOf options) = some text ∧
          kvs.lookup "data" = some (.str text)) := by
  have hnp : ¬ H.port ≤ 0 := by omega
  refine ⟨?_, _, rfl, ?_, ?_⟩
  · have hs : ∀ action payload, (bridgeCall E H action payload).spawned =
        [bridgeCommand H.port action payload] := by
      intro action payload
      unfold bridgeCall
      simp only [hnp, if_false]
      split
      · rfl
      · split <;> rfl
    have ho : ∀ call name fb, (orFallback H call name fb).spawned = call.spawned := by
      intro call name fb
      unfold orFallback
      split
      · rfl
      · split <;> rfl
    simp only [_http, hp, if_true, bridgeHttp, ho, hs]
  · obtain ⟨c1, c2, c3⟩ := bridgeBodyFields_cases (methodOf H options) (dataOf options)
    have hl : ∀ fields : List (String × JSValue),
        ([("url", JSValue.str url), ("method", JSValue.str (methodOf H options)),
          ("headers", JSValue.obj (headersOf options))] ++ fields).lookup "json" =
          fields.lookup "json" := by
      intro fields
      simp [List.lookup]
    rw [hl]
    constructor
    · intro hj
      by_cases hc : methodOf H options = "POST" ∧ (dataOf options).truthy = true
      · by_cases ho : (dataOf options).isObject = true
        · exact ⟨hc.1, ho⟩
        · rw [c2 hc.1 hc.2 (by simpa using ho)] at hj
          simp [List.lookup] at hj
      · rw [c1 hc] at hj
        simp [List.lookup] at hj
    · rintro ⟨hm, ho⟩
      obtain ⟨text, _, hf⟩ := c3 hm ho
      rw [hf]
      simp [List.lookup]
  · intro hm ho
    obtain ⟨text, ht, hf⟩ := (bridgeBodyFields_cases (methodOf H options) (dataOf options)).2.2 hm ho
    refine ⟨text, ht, ?_⟩
    rw [hf]
    simp [List.lookup]

/-- C18 as amended, at a concrete input: a `POST` of the object `{ a: 1 }`. -/
theorem http_bridge_request_witness :
    0 < (bridgeAnswering "").port ∧
    (_http sampleEngine (bridgeAnswering "") "http://a"
        (some { method := some "post", headers := none,
                data := .obj [("a", .num 1)], body := .undefined, timeout := none })).spawned =
      [bridgeCommand (bridgeAnswering "").port "http"
        (requestData "http://a" "POST" [] (.obj [("a", .num 1)]))] ∧
    requestData "http://a" "POST" [] (.obj [("a", .num 1)]) =
      .obj [("url", .str "http://a"), ("method", .str "POST"), ("headers", .obj []),
        ("data", .str "\x7b\"a\":1\x7d"), ("json", .bool true)] :=
  ⟨by decide,
    (http_bridge_request sampleEngine (bridgeAnswering "") "http://a"
      (some { method := some "post", headers := none,
              data := .obj [("a", .num 1)], body := .undefined, timeout := none })
      (by decide)).1,
    rfl⟩

/-- C18, refuted as stated: with a bridge configured, a `GET` whose body is the object
`{ a: 1 }` gives a request with no `json` property (and no `data`), although the body is
an object. -/
theorem http_get_object_body_has_no_json :
    0 < (bridgeAnswering "").port ∧
    (JSValue.obj [("a", .num 1)]).isObject = true ∧
    (_http sampleEngine (bridgeAnswering "") "http://a"
        (some { method := some "GET", headers := none,
                data := .obj [("a", .num 1)], body := .undefined, timeout := none })).spawned =
      [bridgeCommand 9978 "http"
        (.obj [("url", .str "http://a"), ("method", .str "GET"), ("headers", .obj [])])] :=
  ⟨by decide, rfl, rfl⟩

/-- With a bridge configured, `bridgeCall` runs exactly the one command it builds. -/
theorem bridgeCall_spawned (E : JSEngine) (H : LibHost) (action : String) (data : JSValue)
    (hp : 0 < H.port) :
    (bridgeCall E H action data).spawned = [bridgeCommand H.port action data] := by
  have hnp : ¬ H.port ≤ 0 := by omega
  unfold bridgeCall
  simp only [hnp, if_false]
  split
  · rfl
  · split <;> rfl

/-- Reading the property and falling back runs no further command. -/
theorem orFallback_spawned (H : LibHost) (call : LibRun) (name : String)
    (fallback : JSValue) : (orFallback H call name fallback).spawned = call.spawned := by
  unfold orFallback
  split
  · rfl
  · split <;> rfl

/-- C19: `bridgeHttp` and `curlRequest` describe the same request. For every url, method,
headers and data there are a list of body properties and a list of body arguments such
that: `bridgeHttp` is the bridge call `http` for the object of url, method, headers and
those properties, whose command line it runs when a bridge is configured; `curlRequest`
runs the command line made of `curl -s -X`, the method, the time limit, the headers, those
arguments and the url; and the two lists agree. Either the method is not `POST` or the
data is falsy, and both are empty; or the data is not an object, the property is
`data` and the arguments are `-d data`; or the data is an object with JSON text `text`,
the properties are `data: text` and `json: true`, and the arguments are the header
`Content-Type: application/json` and `-d text`. -/
theorem http_paths_same_request (E : JSEngine) (H : LibHost) (url method : String)
    (headers : List (String × JSValue)) (data : JSValue) (timeout : Int) :
    ∃ (fields : List (String × JSValue)) (args : List JSValue),
      bridgeHttp E H url method headers data =
        orFallback H
          (bridgeCall E H "http"
            (.obj ([("url", .str url), ("method", .str method), ("headers", .obj headers)]
              ++ fields)))
          "data" (.str "") ∧
      (0 < H.port →
        (bridgeHttp E H url method headers data).spawned =
          [bridgeCommand H.port "http"
            (.obj ([("url", .str url), ("method", .str method), ("headers", .obj headers)]
              ++ fields))]) ∧
      (curlRequest H url method headers data timeout).spawned =
        [JSValue.joinElems " "
          ([.str "curl", .str "-s", .str "-X", .str method, .str "--max-time",
              .num (Int.fdiv timeout 1000)]
            ++ curlHeaderArgs headers ++ args ++ [.str url])] ∧
      ((¬ (method = "POST" ∧ data.truthy = true) ∧ fields = [] ∧ args = []) ∨
        (method = "POST" ∧ data.truthy = true ∧ data.isObject = false ∧
          fields = [("data", data)] ∧ args = [.str "-d", data]) ∨
        (method = "POST" ∧ data.isObject = true ∧
          ∃ text, JSON.stringify data = some text ∧
            fields = [("data", .str text), ("json", .bool true)] ∧
            args = [.str "-H", .str "Content-Type: application/json", .str "-d",
              .str text])) := by
  obtain ⟨b1, b2, b3⟩ := bridgeBodyFields_cases method data
  obtain ⟨c1, c2, c3⟩ := curlBodyArgs_cases method data
  refine ⟨bridgeBodyFields method data, curlBodyArgs method data, rfl, ?_, ?_, ?_⟩
  · intro hp
    show (orFallback H (bridgeCall E H "http" (requestData url method headers data)) "data"
      (.str "")).spawned = _
    rw [orFallback_spawned, bridgeCall_spawned E H _ _ hp]
    rfl
  · unfold curlRequest
    split <;> rfl
  · by_cases hc : method = "POST" ∧ data.truthy = true
    · by_cases ho : data.isObject = true
      · obtain ⟨text, ht, hb⟩ := b3 hc.1 ho
        obtain ⟨text1, ht1, hcu⟩ := c3 hc.1 ho
        rw [ht] at ht1
        cases ht1
        exact Or.inr (Or.inr ⟨hc.1, ho, text, ht, hb, hcu⟩)
      · have ho1 : data.isObject = false := by simpa using ho
        exact Or.inr (Or.inl ⟨hc.1, hc.2, ho1, b2 hc.1 hc.2 ho1, c2 hc.1 hc.2 ho1⟩)
    · exact Or.inl ⟨hc, b1 hc, c1 hc⟩

/-- C19 at a `POST` of the object `{ a: 1 }` to `http://a`: the bridge request carries the
JSON text under `data` and `json: true`, and the `curl` command line carries the JSON
content type and the same text after `-d`. -/
theorem http_paths_same_request_at_json_post :
    (bridgeHttp sampleEngine (bridgeAnswering "") "http://a" "POST" []
        (.obj [("a", .num 1)])).spawned =
      [bridgeCommand 9978 "http"
        (.obj [("url", .str "http://a"), ("method", .str "POST"), ("headers", .obj []),
          ("data", .str "\x7b\"a\":1\x7d"), ("json", .bool true)])] ∧
    (curlRequest noBridge "http://a" "POST" [] (.obj [("a", .num 1)]) 30000).spawned =
      ["curl -s -X POST --max-time 30 -H Content-Type: application/json -d "
        ++ "\x7b\"a\":1\x7d http://a"] := by
  constructor
  · rfl
  · decide

/-! ## C20: `destroy` -/

/-- C20: for every extension that has no `destroy` member and every argument vector,
dispatching `destroy` raises nothing, calls no extension method and writes the empty
string, with exit status 0; when `destroy` is a method that returns, it is called exactly
once with no arguments, what it returns is discarded, and the text written is still the
empty string. This holds in the QuickJS, the Node and the PHP runner. -/
theorem destroy_is_optional (E : JSEngine) (bare spider : JSSpider)
    (phpBare phpSpider : PHP.Spider) (f : JSMethod) (v : JSValue) (g : PHP.Method)
    (w : PHPValue) (args : List String)
    (ha : bare "destroy" = .absent) (hpa : phpBare "destroy" = none)
    (hf : spider "destroy" = .fn f) (hv : f [] = .ok v)
    (hg : phpSpider "destroy" = some g) (hw : g [] = .ret w) :
    (QuickJS.main E bare "destroy" args =
        { trace := { calls := [], out := [""], err := [] }, exit := 0 } ∧
      Node.main E bare "destroy" args =
        { trace := { calls := [], out := [""], err := [] }, exit := 0 } ∧
      PHP.main phpBare "destroy" args =
        { calls := [], out := [""], err := [], exit := 0 }) ∧
    (QuickJS.main E spider "destroy" args =
        { trace := { calls := [("destroy", [])], out := [""], err := [] }, exit := 0 } ∧
      Node.main E spider "destroy" args =
        { trace := { calls := [("destroy", [])], out := [""], err := [] }, exit := 0 } ∧
      PHP.main phpSpider "destroy" args =
        { calls := [("destroy", [])], out := [""], err := [], exit := 0 }) := by
  have s1 : switchBody E bare "destroy" args = ([], .ok (.str "")) := by
    simp only [switchBody, ha]
  have s2 : PHP.switchBody phpBare "destroy" args = ([], .ret (.str "")) := by
    simp only [PHP.switchBody, hpa]
  have s3 : switchBody E spider "destroy" args = ([("destroy", [])], .ok (.str "")) := by
    simp only [switchBody, hf, hv]
  have s4 : PHP.switchBody phpSpider "destroy" args =
      ([("destroy", [])], .ret (.str "")) := by
    simp only [PHP.switchBody, hg, hw]
  refine ⟨⟨?_, ?_, ?_⟩, ⟨?_, ?_, ?_⟩⟩
  · simp only [QuickJS.main, QuickJS.callMethod, s1]
    rfl
  · simp only [Node.main, Node.callMethod, node_switchBody_eq, s1]
    rfl
  · simp only [PHP.main, PHP.callMethod, s2]
    rfl
  · simp only [QuickJS.main, QuickJS.callMethod, s3]
    rfl
  · simp only [Node.main, Node.callMethod, node_switchBody_eq, s3]
    rfl
  · simp only [PHP.main, PHP.callMethod, s4]
    rfl

/-- C20, at concrete inputs: an extension with no method at all, and one whose `destroy`
returns the string `"bye"`; in PHP, an object with no method and the base class. -/
theorem destroy_is_optional_witness :
    (emptySpider "destroy" = .absent ∧ (fun _ => none : PHP.Spider) "destroy" = none ∧
      farewellSpider "destroy" = .fn (fun _ => .ok (.str "bye")) ∧
      (fun _ => .ok (.str "bye") : JSMethod) [] = .ok (.str "bye") ∧
      PHP.baseSpider "destroy" = some (fun _ => .ret .null) ∧
      (fun _ => .ret .null : PHP.Method) [] = .ret .null) ∧
    (QuickJS.main sampleEngine emptySpider "destroy" ["x"] =
        { trace := { calls := [], out := [""], err := [] }, exit := 0 } ∧
      Node.main sampleEngine emptySpider "destroy" ["x"] =
        { trace := { calls := [], out := [""], err := [] }, exit := 0 } ∧
      PHP.main (fun _ => none) "destroy" ["x"] =
        { calls := [], out := [""], err := [], exit := 0 }) ∧
    (QuickJS.main sampleEngine farewellSpider "destroy" ["x"] =
        { trace := { calls := [("destroy", [])], out := [""], err := [] }, exit := 0 } ∧
      Node.main sampleEngine farewellSpider "destroy" ["x"] =
        { trace := { calls := [("destroy", [])], out := [""], err := [] }, exit := 0 } ∧
      PHP.main PHP.baseSpider "destroy" ["x"] =
        { calls := [("destroy", [])], out := [""], err := [], exit := 0 }) :=
  ⟨⟨rfl, rfl, rfl, rfl, rfl, rfl⟩,
    destroy_is_optional sampleEngine emptySpider farewellSpider (fun _ => none)
      PHP.baseSpider _ (.str "bye") _ .null ["x"] rfl rfl rfl rfl rfl rfl⟩

theorem lookup_assignOwn (key : String) (value : Property) (own : List (String × Property))
    (name : String) :
    (assignOwn key value own).lookup name =
      if name = key then some value else own.lookup name := by
  induction own with
  | nil =>
    by_cases h : name = key
    · simp [assignOwn, List.lookup, h]
    · have : (name == key) = false := by simpa using h
      simp [assignOwn, List.lookup, h, this]
  | cons p rest ih =>
    obtain ⟨k, v⟩ := p
    by_cases hk : k = key
    · subst hk
      by_cases h : name = k
      · simp [assignOwn, List.lookup, h]
      · have : (name == k) = false := by simpa using h
        simp [assignOwn, List.lookup, h, this]
    · by_cases h : name = key
      · subst h
        have : (name == k) = false := by simpa using fun e => hk e.symm
        simp [assignOwn, List.lookup, hk, this, ih]
      · by_cases h2 : name = k
        · subst h2
          simp [assignOwn, List.lookup, hk, h]
        · have : (name == k) = false := by simpa using h2
          simp [assignOwn, List.lookup, hk, this, ih, h]

/-- The loop of `createSpider` over keys that are not `__proto__`: the link stays, each
key visited holds the value of `proto`, the other own properties are untouched. -/
theorem createSpider_loop (proto : List (String × Property)) :
    ∀ (keys : List String) (o : SpiderObject), "__proto__" ∉ keys →
    (keys.foldl (fun spider key => spider.set key (protoValue proto key)) o).link = o.link ∧
    ∀ name, (keys.foldl (fun spider key => spider.set key (protoValue proto key)) o).own.lookup
      name = if name ∈ keys then some (protoValue proto name) else o.own.lookup name := by
  intro keys
  induction keys with
  | nil => intro o _; simp
  | cons k ks ih =>
    intro o h
    have hk : k ≠ "__proto__" := fun e => h (by simp [e])
    have hks : "__proto__" ∉ ks := fun e => h (by simp [e])
    have hset : o.set k (protoValue proto k) =
        { o with own := assignOwn k (protoValue proto k) o.own } := by
      simp [SpiderObject.set, hk]
    obtain ⟨h1, h2⟩ := ih (o.set k (protoValue proto k)) hks
    refine ⟨by rw [List.foldl_cons, h1, hset], fun name => ?_⟩
    rw [List.foldl_cons, h2 name, hset]
    simp only [lookup_assignOwn, List.mem_cons]
    by_cases a : name ∈ ks
    · simp [a]
    · by_cases b : name = k
      · simp [b]
      · simp [a, b]

theorem lookup_isSome_iff_mem (proto : List (String × Property)) (name : String) :
    name ∈ proto.map Prod.fst ↔ ∃ p, proto.lookup name = some p := by
  induction proto with
  | nil => simp
  | cons q rest ih =>
    obtain ⟨k, v⟩ := q
    by_cases h : name = k
    · subst h
      simp [List.lookup]
    · have : (name == k) = false := by simpa using h
      simp [List.lookup, this, h, ih]

/-- What `createSpider(proto)[name]` is when `proto` has no key `__proto__`. -/
theorem createSpider_get (proto : List (String × Property))
    (h : "__proto__" ∉ proto.map Prod.fst) (name : String) :
    (createSpider proto).get name =
      match proto.lookup name with
      | some p => p
      | none => newSpider.get name := by
  obtain ⟨h1, h2⟩ := createSpider_loop proto (proto.map Prod.fst) newSpider h
  unfold SpiderObject.get createSpider
  rw [h1, h2 name]
  cases hl : proto.lookup name with
  | some p =>
    have : name ∈ proto.map Prod.fst := (lookup_isSome_iff_mem proto name).mpr ⟨p, hl⟩
    simp [this, protoValue, hl]
  | none =>
    have : name ∉ proto.map Prod.fst := fun e => by
      obtain ⟨p, hp⟩ := (lookup_isSome_iff_mem proto name).mp e
      rw [hl] at hp
      cases hp
    simp [this]

theorem spiderPrototype_default : ∀ name ∈ closedSet,
    ∃ f, spiderPrototype name = .fn f ∧ ∀ args, f args = .ok (defaultResult name) := by
  intro name h
  simp only [closedSet, List.mem_cons, List.mem_singleton, List.not_mem_nil, or_false] at h
  rcases h with h | h | h | h | h | h | h | h | h | h | h <;> subst h <;>
    exact ⟨_, rfl, fun _ => rfl⟩

theorem newSpider_get_method : ∀ name ∈ closedSet, newSpider.get name = spiderPrototype name := by
  intro name h
  simp only [closedSet, List.mem_cons, List.mem_singleton, List.not_mem_nil, or_false] at h
  rcases h with h | h | h | h | h | h | h | h | h | h | h <;> subst h <;> rfl

/-! ## C21: `createSpider` -/

/-- C21, as amended: for every prototype object `proto` with no enumerable property named
`__proto__`, on the object that `createSpider(proto)` returns every key of `proto` holds
the value `proto` gives it; each of the eleven capability names that `proto` does not
define is a function that ignores its arguments and returns the empty string (`null` for
`proxy`, `undefined` for `destroy`); and `siteKey` is `''` and `siteType` is `0` unless
`proto` sets them. -/
theorem createSpider_defaults_and_overrides (proto : List (String × Property))
    (h : "__proto__" ∉ proto.map Prod.fst) :
    (∀ key p, proto.lookup key = some p → (createSpider proto).get key = p) ∧
    (∀ name ∈ closedSet, proto.lookup name = none →
      ∃ f, (createSpider proto).get name = .fn f ∧
        ∀ args, f args = .ok (defaultResult name)) ∧
    (proto.lookup "siteKey" = none → (createSpider proto).get "siteKey" = .value (.str "")) ∧
    (proto.lookup "siteType" = none → (createSpider proto).get "siteType" = .value (.num 0)) := by
  refine ⟨fun key p hp => ?_, fun name hn hp => ?_, fun hp => ?_, fun hp => ?_⟩
  · rw [createSpider_get proto h, hp]
  · rw [createSpider_get proto h, hp]
    simp only
    rw [newSpider_get_method name hn]
    exact spiderPrototype_default name hn
  · rw [createSpider_get proto h, hp]
    rfl
  · rw [createSpider_get proto h, hp]
    rfl

/-- C21 at a prototype that defines `init` and `siteKey` only: `init` and `siteKey` are
the ones of the prototype, `proxy` is the default that returns `null`, `siteType` is 0. -/
theorem createSpider_defaults_and_overrides_witness :
    "__proto__" ∉ sampleProto.map Prod.fst ∧
    (createSpider sampleProto).get "siteKey" = .value (.str "demo") ∧
    (∃ f, (createSpider sampleProto).get "proxy" = .fn f ∧
      ∀ args, f args = .ok (defaultResult "proxy")) ∧
    (createSpider sampleProto).get "siteType" = .value (.num 0) :=
  ⟨by decide,
    (createSpider_defaults_and_overrides sampleProto (by decide)).1 "siteKey" _ rfl,
    (createSpider_defaults_and_overrides sampleProto (by decide)).2.1 "proxy" (by decide) rfl,
    (createSpider_defaults_and_overrides sampleProto (by decide)).2.2.2 rfl⟩

/-- C21, refuted as stated: a prototype whose one enumerable property is named `__proto__`
and holds `null` (as `JSON.parse` makes it). The assignment `spider[key] = proto[key]`
goes to the accessor of `Object.prototype` and replaces the prototype of the new object,
so `init`, which the prototype does not define, is `undefined` and not callable. -/
theorem createSpider_proto_key_replaces_prototype :
    [("__proto__", Property.value .null)].lookup "init" = none ∧
    "init" ∈ closedSet ∧
    (createSpider [("__proto__", .value .null)]).get "init" = .value .undefined ∧
    ((createSpider [("__proto__", .value .null)]).get "init").isCallable = false :=
  ⟨rfl, by decide, rfl, rfl⟩

/-! ## Base64: the bit fields, the two loops and the standard encoding -/

theorem toBits32_natCast (b : Nat) : toBits32 (b : Int) = b % 4294967296 := by
  unfold toBits32
  omega

theorem shl32_natCast (b k : Nat) : shl32 (b : Int) k = (b * 2 ^ k) % 4294967296 := by
  unfold shl32 toBits32
  have : ((b : Int) * 2 ^ k) = ((b * 2 ^ k : Nat) : Int) := by push_cast; rfl
  rw [this]
  omega

theorem toBits32_neg_one : toBits32 (-1) = 4294967295 := by decide

theorem toBits32_lt (x : Int) : toBits32 x < 2 ^ 32 := by
  unfold toBits32
  omega

theorem or_allOnes (y : Nat) (h : y < 2 ^ 32) : y ||| 4294967295 = 4294967295 := by
  apply Nat.eq_of_testBit_eq
  intro i
  rw [Nat.testBit_or]
  by_cases hi : i < 32
  · have : Nat.testBit 4294967295 i = true := by
      have := Nat.testBit_two_pow_sub_one 32 i
      simpa [hi] using this
    simp [this]
  · have h1 : Nat.testBit 4294967295 i = false := by
      have := Nat.testBit_two_pow_sub_one 32 i
      simpa [hi] using this
    have h2 : y.testBit i = false := by
      apply Nat.testBit_lt_two_pow
      calc y < 2 ^ 32 := h
        _ ≤ 2 ^ i := Nat.pow_le_pow_right (by decide) (by omega)
    simp [h1, h2]

/-- The number `n` of an encoding pass over three bytes, and its four 6-bit fields. -/
theorem encode_fields (a b c : Nat) (ha : a ≤ 255) (hb : b ≤ 255) (hc : c ≤ 255) :
    let n := shl32 (a : Int) 16 ||| shl32 (b : Int) 8 ||| toBits32 (c : Int)
    bitsAt n 18 63 = a / 4 ∧ bitsAt n 12 63 = a % 4 * 16 + b / 16 ∧
    bitsAt n 6 63 = b % 16 * 4 + c / 64 ∧ n &&& 63 = c % 64 := by
  intro n
  have hn : n = a * 65536 + b * 256 + c := by
    show shl32 (a : Int) 16 ||| shl32 (b : Int) 8 ||| toBits32 (c : Int) = _
    rw [shl32_natCast, shl32_natCast, toBits32_natCast]
    have h1 := Nat.mul_add_lt_is_or (i := 16) (b := b * 256) (by omega) a
    have h2 := Nat.mul_add_lt_is_or (i := 8) (b := c) (by omega) (a * 256 + b)
    have e1 : a * 2 ^ 16 % 4294967296 = 2 ^ 16 * a := by omega
    have e2 : b * 2 ^ 8 % 4294967296 = b * 256 := by omega
    have e3 : c % 4294967296 = c := by omega
    rw [e1, e2, e3, ← h1]
    have e4 : 2 ^ 16 * a + b * 256 = 2 ^ 8 * (a * 256 + b) := by omega
    rw [e4, ← h2]
    omega
  have m63 : ∀ x : Nat, x &&& 63 = x % 64 := fun x => Nat.and_pow_two_sub_one_eq_mod x 6
  simp only [bitsAt, m63, Nat.shiftRight_eq_div_pow, hn]
  omega

theorem base64Chars_digit : ∀ k : Nat, k < 64 → base64Chars.getD k 0 = Rfc4648.digit k := by
  decide

theorem getD_append_offset (pre suf : List Nat) (k : Nat) :
    (pre ++ suf).getD (pre.length + k) 0 = suf.getD k 0 := by
  induction pre with
  | nil => simp
  | cons x xs ih =>
    have : (x :: xs).length + k = (xs.length + k) + 1 := by simp; omega
    rw [List.cons_append, this, List.getD_cons_succ, ih]

theorem getElem?_append_offset (pre suf : List Nat) (k : Nat) :
    (pre ++ suf)[pre.length + k]? = suf[k]? := by
  induction pre with
  | nil => simp
  | cons x xs ih =>
    have : (x :: xs).length + k = (xs.length + k) + 1 := by simp; omega
    rw [List.cons_append, this, List.getElem?_cons_succ, ih]

/-- Past the end of `bytes` the encoding loop returns what it has. -/
theorem base64EncodeLoop_done (bytes : List Nat) (fuel i : Nat) (result : CodeUnits)
    (h : bytes.length ≤ i) : base64EncodeLoop bytes fuel i result = result := by
  cases fuel with
  | zero => rfl
  | succ f => simp only [base64EncodeLoop, if_neg (Nat.not_lt.mpr h)]

/-- An encoding pass over three bytes. -/
theorem base64EncodeStep_three (pre rest : List Nat) (a b c : Nat)
    (ha : a ≤ 255) (hb : b ≤ 255) (hc : c ≤ 255) :
    base64EncodeStep (pre ++ a :: b :: c :: rest) pre.length =
      [Rfc4648.digit (a / 4), Rfc4648.digit (a % 4 * 16 + b / 16),
        Rfc4648.digit (b % 16 * 4 + c / 64), Rfc4648.digit (c % 64)] := by
  have g0 := getD_append_offset pre (a :: b :: c :: rest) 0
  have g1 := getD_append_offset pre (a :: b :: c :: rest) 1
  have g2 := getD_append_offset pre (a :: b :: c :: rest) 2
  simp only [Nat.add_zero, List.getD_cons_zero, List.getD_cons_succ] at g0 g1 g2
  obtain ⟨f0, f1, f2, f3⟩ := encode_fields a b c ha hb hc
  have l1 : pre.length + 1 < (pre ++ a :: b :: c :: rest).length := by simp
  have l2 : pre.length + 2 < (pre ++ a :: b :: c :: rest).length := by simp
  simp only [base64EncodeStep, g0, g1, g2, f0, f1, f2, f3, if_pos l1, if_pos l2]
  rw [base64Chars_digit _ (by omega), base64Chars_digit _ (by omega),
    base64Chars_digit _ (by omega), base64Chars_digit _ (by omega)]

/-- An encoding pass over a last group of two bytes. -/
theorem base64EncodeStep_two (pre : List Nat) (a b : Nat) (ha : a ≤ 255) (hb : b ≤ 255) :
    base64EncodeStep (pre ++ [a, b]) pre.length =
      [Rfc4648.digit (a / 4), Rfc4648.digit (a % 4 * 16 + b / 16),
        Rfc4648.digit (b % 16 * 4), 61] := by
  have g0 := getD_append_offset pre [a, b] 0
  have g1 := getD_append_offset pre [a, b] 1
  have g2 := getD_append_offset pre [a, b] 2
  simp only [Nat.add_zero, List.getD_cons_zero, List.getD_cons_succ, List.getD_nil] at g0 g1 g2
  obtain ⟨f0, f1, f2, -⟩ := encode_fields a b 0 ha hb (by omega)
  have l1 : pre.length + 1 < (pre ++ [a, b]).length := by simp
  have l2 : ¬ pre.length + 2 < (pre ++ [a, b]).length := by simp
  simp only [base64EncodeStep, g0, g1, g2, f0, f1, f2, if_pos l1, if_neg l2, equalsSign]
  rw [base64Chars_digit _ (by omega), base64Chars_digit _ (by omega),
    base64Chars_digit _ (by omega)]
  simp

/-- An encoding pass over a last group of one byte. -/
theorem base64EncodeStep_one (pre : List Nat) (a : Nat) (ha : a ≤ 255) :
    base64EncodeStep (pre ++ [a]) pre.length =
      [Rfc4648.digit (a / 4), Rfc4648.digit (a % 4 * 16), 61, 61] := by
  have g0 := getD_append_offset pre [a] 0
  have g1 := getD_append_offset pre [a] 1
  have g2 := getD_append_offset pre [a] 2
  simp only [Nat.add_zero, List.getD_cons_zero, List.getD_cons_succ, List.getD_nil] at g0 g1 g2
  obtain ⟨f0, f1, -, -⟩ := encode_fields a 0 0 ha (by omega) (by omega)
  have l1 : ¬ pre.length + 1 < (pre ++ [a]).length := by simp
  have l2 : ¬ pre.length + 2 < (pre ++ [a]).length := by simp
  simp only [base64EncodeStep, g0, g1, g2, f0, f1, if_neg l1, if_neg l2, equalsSign]
  rw [base64Chars_digit _ (by omega), base64Chars_digit _ (by omega)]
  simp

/-- The encoding loop from the end of `pre` writes the standard encoding of what follows. -/
theorem base64EncodeLoop_eq (fuel : Nat) : ∀ (pre suf : List Nat) (result : CodeUnits),
    suf.length ≤ fuel → (∀ c ∈ suf, c ≤ 255) →
    base64EncodeLoop (pre ++ suf) fuel pre.length result = result ++ Rfc4648.encode suf := by
  induction fuel with
  | zero =>
    intro pre suf result hl _
    have : suf = [] := List.length_eq_zero.mp (by omega)
    subst this
    simp [base64EncodeLoop, Rfc4648.encode]
  | succ f ih =>
    intro pre suf result hl hb
    match suf, hl, hb with
    | [], _, _ => simp [base64EncodeLoop, Rfc4648.encode]
    | [a], _, hb =>
      have ha : a ≤ 255 := hb a (by simp)
      have l0 : pre.length < (pre ++ [a]).length := by simp
      simp only [base64EncodeLoop, if_pos l0, base64EncodeStep_one pre a ha]
      rw [base64EncodeLoop_done _ _ _ _ (by simp)]
      simp [Rfc4648.encode]
    | [a, b], _, hb =>
      have ha : a ≤ 255 := hb a (by simp)
      have hb2 : b ≤ 255 := hb b (by simp)
      have l0 : pre.length < (pre ++ [a, b]).length := by simp
      simp only [base64EncodeLoop, if_pos l0, base64EncodeStep_two pre a b ha hb2]
      rw [base64EncodeLoop_done _ _ _ _ (by simp)]
      simp [Rfc4648.encode]
    | a :: b :: c :: rest, hl, hb =>
      have ha : a ≤ 255 := hb a (by simp)
      have hb2 : b ≤ 255 := hb b (by simp)
      have hc : c ≤ 255 := hb c (by simp)
      have l0 : pre.length < (pre ++ a :: b :: c :: rest).length := by simp
      simp only [base64EncodeLoop, if_pos l0, base64EncodeStep_three pre rest a b c ha hb2 hc]
      have e : pre ++ a :: b :: c :: rest = (pre ++ [a, b, c]) ++ rest := by simp
      have e2 : pre.length + 3 = (pre ++ [a, b, c]).length := by simp
      rw [e, e2, ih (pre ++ [a, b, c]) rest _ (by simp at hl; omega)
        (fun x hx => hb x (by simp [hx]))]
      simp [Rfc4648.encode]

theorem base64Encode_eq_rfc (s : List Nat) (h : ∀ c ∈ s, c ≤ 255) :
    base64Encode s = Rfc4648.encode s := by
  have := base64EncodeLoop_eq s.length [] s [] (Nat.le_refl _) h
  simpa [base64Encode] using this

theorem rfc_digit_ne_equalsSign (v : Nat) : Rfc4648.digit v ≠ 61 := by
  unfold Rfc4648.digit
  split_ifs <;> omega

theorem equalsSign_not_mem_base64Body : ∀ s : List Nat, 61 ∉ base64Body s
  | [] => by simp [base64Body]
  | [a] => by
    have h1 := rfc_digit_ne_equalsSign (a / 4)
    have h2 := rfc_digit_ne_equalsSign (a % 4 * 16)
    simp [base64Body, Ne.symm h1, Ne.symm h2]
  | [a, b] => by
    have h1 := rfc_digit_ne_equalsSign (a / 4)
    have h2 := rfc_digit_ne_equalsSign (a % 4 * 16 + b / 16)
    have h3 := rfc_digit_ne_equalsSign (b % 16 * 4)
    simp [base64Body, Ne.symm h1, Ne.symm h2, Ne.symm h3]
  | a :: b :: c :: rest => by
    have h1 := rfc_digit_ne_equalsSign (a / 4)
    have h2 := rfc_digit_ne_equalsSign (a % 4 * 16 + b / 16)
    have h3 := rfc_digit_ne_equalsSign (b % 16 * 4 + c / 64)
    have h4 := rfc_digit_ne_equalsSign (c % 64)
    have ih := equalsSign_not_mem_base64Body rest
    simp [base64Body, Ne.symm h1, Ne.symm h2, Ne.symm h3, Ne.symm h4, ih]

theorem rfc_encode_eq_body : ∀ s : List Nat,
    Rfc4648.encode s = base64Body s ++ List.replicate ((3 - s.length % 3) % 3) 61
  | [] => by simp [Rfc4648.encode, base64Body]
  | [a] => by simp [Rfc4648.encode, base64Body, List.replicate]
  | [a, b] => by simp [Rfc4648.encode, base64Body, List.replicate]
  | a :: b :: c :: rest => by
    have ih := rfc_encode_eq_body rest
    have e : (a :: b :: c :: rest).length % 3 = rest.length % 3 := by
      simp only [List.length_cons]; omega
    rw [e]
    simp only [Rfc4648.encode, base64Body, ih, List.append_assoc]

theorem length_rfc_encode : ∀ s : List Nat, (Rfc4648.encode s).length = 4 * ((s.length + 2) / 3)
  | [] => by simp [Rfc4648.encode]
  | [a] => by simp [Rfc4648.encode]
  | [a, b] => by simp [Rfc4648.encode]
  | a :: b :: c :: rest => by
    have ih := length_rfc_encode rest
    simp only [Rfc4648.encode, List.length_append, List.length_cons, List.length_nil, ih]
    omega

theorem stripPadding_body (body : CodeUnits) (k : Nat) (h : 61 ∉ body) :
    stripPadding (body ++ List.replicate k 61) = body := by
  unfold stripPadding
  rw [List.reverse_append, List.reverse_replicate]
  have h1 : ∀ (k : Nat) (l : List Nat),
      List.dropWhile (fun c => c == equalsSign) (List.replicate k 61 ++ l) =
        List.dropWhile (fun c => c == equalsSign) l := by
    intro k l
    induction k with
    | zero => simp
    | succ n ih => simp [List.replicate_succ, equalsSign, ih]
  have h2 : ∀ l : List Nat, 61 ∉ l → List.dropWhile (fun c => c == equalsSign) l = l := by
    intro l hl
    cases l with
    | nil => rfl
    | cons x xs =>
      have hx : (x == equalsSign) = false := by
        simp only [equalsSign, beq_eq_false_iff_ne, ne_eq]
        exact fun e => hl (by simp [e])
      rw [List.dropWhile_cons, hx]
      rfl
  rw [h1, h2 _ (by simpa using h), List.reverse_reverse]

theorem base64Index_digit : ∀ v : Nat, v < 64 →
    base64Index (some (Rfc4648.digit v)) = (v : Int) := by
  decide

theorem orZero_eq (x : Int) : orZero x = x := by
  unfold orZero
  split_ifs with h
  · exact h.symm
  · rfl

theorem shl32_lt (x : Int) (k : Nat) : shl32 x k < 2 ^ 32 := toBits32_lt _

/-- The number `n` of a decoding pass over the four characters of three bytes, and its
three 8-bit fields. -/
theorem decode_fields (a b c : Nat) (ha : a ≤ 255) (hb : b ≤ 255) (hc : c ≤ 255) :
    let n := shl32 ((a / 4 : Nat) : Int) 18 ||| shl32 ((a % 4 * 16 + b / 16 : Nat) : Int) 12
      ||| shl32 ((b % 16 * 4 + c / 64 : Nat) : Int) 6 ||| toBits32 ((c % 64 : Nat) : Int)
    bitsAt n 16 255 = a ∧ bitsAt n 8 255 = b ∧ n &&& 255 = c := by
  intro n
  have hn : n = a * 65536 + b * 256 + c := by
    show shl32 ((a / 4 : Nat) : Int) 18 ||| shl32 ((a % 4 * 16 + b / 16 : Nat) : Int) 12
      ||| shl32 ((b % 16 * 4 + c / 64 : Nat) : Int) 6 ||| toBits32 ((c % 64 : Nat) : Int) = _
    rw [shl32_natCast, shl32_natCast, shl32_natCast, toBits32_natCast]
    have h1 := Nat.mul_add_lt_is_or (i := 18) (b := (a % 4 * 16 + b / 16) * 4096) (by omega)
      (a / 4)
    have h2 := Nat.mul_add_lt_is_or (i := 12) (b := (b % 16 * 4 + c / 64) * 64) (by omega)
      (a / 4 * 64 + (a % 4 * 16 + b / 16))
    have h3 := Nat.mul_add_lt_is_or (i := 6) (b := c % 64) (by omega)
      ((a / 4 * 64 + (a % 4 * 16 + b / 16)) * 64 + (b % 16 * 4 + c / 64))
    have e1 : a / 4 * 2 ^ 18 % 4294967296 = 2 ^ 18 * (a / 4) := by omega
    have e2 : (a % 4 * 16 + b / 16) * 2 ^ 12 % 4294967296 = (a % 4 * 16 + b / 16) * 4096 := by
      omega
    have e3 : (b % 16 * 4 + c / 64) * 2 ^ 6 % 4294967296 = (b % 16 * 4 + c / 64) * 64 := by omega
    have e4 : c % 64 % 4294967296 = c % 64 := by omega
    rw [e1, e2, e3, e4, ← h1]
    have e5 : 2 ^ 18 * (a / 4) + (a % 4 * 16 + b / 16) * 4096 =
        2 ^ 12 * (a / 4 * 64 + (a % 4 * 16 + b / 16)) := by omega
    rw [e5, ← h2]
    have e6 : 2 ^ 12 * (a / 4 * 64 + (a % 4 * 16 + b / 16)) + (b % 16 * 4 + c / 64) * 64 =
        2 ^ 6 * ((a / 4 * 64 + (a % 4 * 16 + b / 16)) * 64 + (b % 16 * 4 + c / 64)) := by omega
    rw [e6, ← h3]
    omega
  have m255 : ∀ x : Nat, x &&& 255 = x % 256 := fun x => Nat.and_pow_two_sub_one_eq_mod x 8
  simp only [bitsAt, m255, Nat.shiftRight_eq_div_pow, hn]
  omega

/-- Past the end of `str` the decoding loop returns what it has. -/
theorem base64DecodeLoop_done (str : CodeUnits) (fuel i : Nat) (result : CodeUnits)
    (h : str.length ≤ i) : base64DecodeLoop str fuel i result = result := by
  cases fuel with
  | zero => rfl
  | succ f => simp only [base64DecodeLoop, if_neg (Nat.not_lt.mpr h)]

/-- A decoding pass over the four characters of three bytes gives the bytes back. -/
theorem base64DecodeStep_four (pre post : CodeUnits) (a b c : Nat)
    (ha : a ≤ 255) (hb : b ≤ 255) (hc : c ≤ 255) :
    base64DecodeStep (pre ++ ([Rfc4648.digit (a / 4), Rfc4648.digit (a % 4 * 16 + b / 16),
      Rfc4648.digit (b % 16 * 4 + c / 64), Rfc4648.digit (c % 64)] ++ post)) pre.length =
      [a, b, c] := by
  have g0 := getElem?_append_offset pre ([Rfc4648.digit (a / 4),
    Rfc4648.digit (a % 4 * 16 + b / 16), Rfc4648.digit (b % 16 * 4 + c / 64),
    Rfc4648.digit (c % 64)] ++ post) 0
  have g1 := getElem?_append_offset pre ([Rfc4648.digit (a / 4),
    Rfc4648.digit (a % 4 * 16 + b / 16), Rfc4648.digit (b % 16 * 4 + c / 64),
    Rfc4648.digit (c % 64)] ++ post) 1
  have g2 := getElem?_append_offset pre ([Rfc4648.digit (a / 4),
    Rfc4648.digit (a % 4 * 16 + b / 16), Rfc4648.digit (b % 16 * 4 + c / 64),
    Rfc4648.digit (c % 64)] ++ post) 2
  have g3 := getElem?_append_offset pre ([Rfc4648.digit (a / 4),
    Rfc4648.digit (a % 4 * 16 + b / 16), Rfc4648.digit (b % 16 * 4 + c / 64),
    Rfc4648.digit (c % 64)] ++ post) 3
  simp only [Nat.add_zero, List.cons_append, List.nil_append, List.getElem?_cons_zero,
    List.getElem?_cons_succ] at g0 g1 g2 g3
  obtain ⟨f0, f1, f2⟩ := decode_fields a b c ha hb hc
  have n2 : ¬ some (Rfc4648.digit (b % 16 * 4 + c / 64)) = some equalsSign := by
    simpa [equalsSign] using rfc_digit_ne_equalsSign _
  have n3 : ¬ some (Rfc4648.digit (c % 64)) = some equalsSign := by
    simpa [equalsSign] using rfc_digit_ne_equalsSign _
  simp only [base64DecodeStep, List.cons_append, List.nil_append, g0, g1, g2, g3, orZero_eq,
    base64Index_digit (a / 4) (by omega), base64Index_digit (a % 4 * 16 + b / 16) (by omega),
    base64Index_digit (b % 16 * 4 + c / 64) (by omega), base64Index_digit (c % 64) (by omega),
    f0, f1, f2, if_neg n2, if_neg n3]

/-- A decoding pass that finds nothing at its fourth position, and no `=` at its third,
gives three code units 255. -/
theorem base64DecodeStep_short (str : CodeUnits) (i : Nat) (h3 : str[i + 3]? = none)
    (h2 : str[i + 2]? ≠ some equalsSign) :
    base64DecodeStep str i = [255, 255, 255] := by
  have hn : shl32 (base64Index str[i]?) 18 ||| shl32 (base64Index str[i + 1]?) 12
      ||| shl32 (orZero (base64Index str[i + 2]?)) 6
      ||| toBits32 (orZero (base64Index none)) = 4294967295 := by
    have : toBits32 (orZero (base64Index none)) = 4294967295 := by decide
    rw [this]
    exact or_allOnes _ (Nat.or_lt_two_pow (Nat.or_lt_two_pow (shl32_lt _ _) (shl32_lt _ _))
      (shl32_lt _ _))
  have n3 : ¬ (none : Option Nat) = some equalsSign := by simp
  simp only [base64DecodeStep, h3, hn, if_neg h2, if_neg n3]
  decide

/-- The decoding loop from the end of `pre` over the unpadded encoding of `suf`. -/
theorem base64DecodeLoop_eq (fuel : Nat) : ∀ (pre : CodeUnits) (suf : List Nat)
    (result : CodeUnits), suf.length ≤ fuel → (∀ c ∈ suf, c ≤ 255) →
    base64DecodeLoop (pre ++ base64Body suf) fuel pre.length result =
      result ++ base64Echo suf := by
  induction fuel with
  | zero =>
    intro pre suf result hl _
    have : suf = [] := List.length_eq_zero.mp (by omega)
    subst this
    simp [base64DecodeLoop, base64Echo]
  | succ f ih =>
    intro pre suf result hl hb
    match suf, hl, hb with
    | [], _, _ => simp [base64DecodeLoop, base64Body, base64Echo]
    | [a], _, _ =>
      have l0 : pre.length < (pre ++ base64Body [a]).length := by simp [base64Body]
      have h3 : (pre ++ base64Body [a])[pre.length + 3]? = none := by
        rw [getElem?_append_offset]; rfl
      have h2 : (pre ++ base64Body [a])[pre.length + 2]? ≠ some equalsSign := by
        rw [getElem?_append_offset]; simp [base64Body]
      simp only [base64DecodeLoop, if_pos l0, base64DecodeStep_short _ _ h3 h2]
      rw [base64DecodeLoop_done _ _ _ _ (by simp [base64Body])]
      rfl
    | [a, b], _, _ =>
      have l0 : pre.length < (pre ++ base64Body [a, b]).length := by simp [base64Body]
      have h3 : (pre ++ base64Body [a, b])[pre.length + 3]? = none := by
        rw [getElem?_append_offset]; rfl
      have h2 : (pre ++ base64Body [a, b])[pre.length + 2]? ≠ some equalsSign := by
        rw [getElem?_append_offset]
        simpa [base64Body, equalsSign] using rfc_digit_ne_equalsSign _
      simp only [base64DecodeLoop, if_pos l0, base64DecodeStep_short _ _ h3 h2]
      rw [base64DecodeLoop_done _ _ _ _ (by simp [base64Body])]
      rfl
    | a :: b :: c :: rest, hl, hb =>
      have ha : a ≤ 255 := hb a (by simp)
      have hb2 : b ≤ 255 := hb b (by simp)
      have hc : c ≤ 255 := hb c (by simp)
      have l0 : pre.length < (pre ++ base64Body (a :: b :: c :: rest)).length := by
        simp [base64Body]
      have hstep := base64DecodeStep_four pre (base64Body rest) a b c ha hb2 hc
      have e0 : base64Body (a :: b :: c :: rest) =
          [Rfc4648.digit (a / 4), Rfc4648.digit (a % 4 * 16 + b / 16),
            Rfc4648.digit (b % 16 * 4 + c / 64), Rfc4648.digit (c % 64)] ++ base64Body rest := rfl
      rw [e0] at l0 ⊢
      simp only [base64DecodeLoop, if_pos l0, hstep]
      have e : pre ++ ([Rfc4648.digit (a / 4), Rfc4648.digit (a % 4 * 16 + b / 16),
            Rfc4648.digit (b % 16 * 4 + c / 64), Rfc4648.digit (c % 64)] ++ base64Body rest) =
          (pre ++ [Rfc4648.digit (a / 4), Rfc4648.digit (a % 4 * 16 + b / 16),
            Rfc4648.digit (b % 16 * 4 + c / 64), Rfc4648.digit (c % 64)]) ++ base64Body rest := by
        simp
      have e2 : pre.length + 4 = (pre ++ [Rfc4648.digit (a / 4),
          Rfc4648.digit (a % 4 * 16 + b / 16), Rfc4648.digit (b % 16 * 4 + c / 64),
          Rfc4648.digit (c % 64)]).length := by simp
      rw [e, e2, ih _ rest _ (by simp at hl; omega) (fun x hx => hb x (by simp [hx]))]
      simp [base64Echo]

theorem length_base64Body_ge : ∀ s : List Nat, s.length ≤ (base64Body s).length
  | [] => by simp [base64Body]
  | [a] => by simp [base64Body]
  | [a, b] => by simp [base64Body]
  | a :: b :: c :: rest => by
    have ih := length_base64Body_ge rest
    simp only [base64Body, List.length_append, List.length_cons, List.length_nil]
    omega

/-- What the round trip gives: the echo of the byte list. -/
theorem base64Decode_base64Encode (s : List Nat) (h : ∀ c ∈ s, c ≤ 255) :
    base64Decode (base64Encode s) = base64Echo s := by
  rw [base64Encode_eq_rfc s h, rfc_encode_eq_body]
  unfold base64Decode
  rw [stripPadding_body _ _ (equalsSign_not_mem_base64Body s)]
  have := base64DecodeLoop_eq (base64Body s).length [] s [] (length_base64Body_ge s) h
  simpa using this

theorem length_base64Echo : ∀ s : List Nat, (base64Echo s).length = 3 * ((s.length + 2) / 3)
  | [] => by simp [base64Echo]
  | [a] => by simp [base64Echo]
  | [a, b] => by simp [base64Echo]
  | a :: b :: c :: rest => by
    have ih := length_base64Echo rest
    simp only [base64Echo, List.length_cons, ih]
    omega

theorem base64Echo_eq_self : ∀ s : List Nat, s.length % 3 = 0 → base64Echo s = s
  | [], _ => rfl
  | [a], h => by simp at h
  | [a, b], h => by simp at h
  | a :: b :: c :: rest, h => by
    have : rest.length % 3 = 0 := by simp only [List.length_cons] at h; omega
    simp only [base64Echo, base64Echo_eq_self rest this]

/-- More fuel than the code units left does not change what the encoding loop returns: it
leaves through its test `i < bytes.length`. -/
theorem base64EncodeLoop_fuel (bytes : List Nat) (fuel : Nat) : ∀ (i extra : Nat)
    (result : CodeUnits), bytes.length ≤ i + fuel →
    base64EncodeLoop bytes (fuel + extra) i result = base64EncodeLoop bytes fuel i result := by
  induction fuel with
  | zero =>
    intro i extra result h
    rw [base64EncodeLoop_done _ _ _ _ (by omega), base64EncodeLoop_done _ _ _ _ (by omega)]
  | succ f ih =>
    intro i extra result h
    have e : f + 1 + extra = (f + extra) + 1 := by omega
    rw [e]
    simp only [base64EncodeLoop]
    split_ifs
    · exact ih _ _ _ (by omega)
    · rfl

/-- More fuel than the code units left does not change what the decoding loop returns. -/
theorem base64DecodeLoop_fuel (str : CodeUnits) (fuel : Nat) : ∀ (i extra : Nat)
    (result : CodeUnits), str.length ≤ i + fuel →
    base64DecodeLoop str (fuel + extra) i result = base64DecodeLoop str fuel i result := by
  induction fuel with
  | zero =>
    intro i extra result h
    rw [base64DecodeLoop_done _ _ _ _ (by omega), base64DecodeLoop_done _ _ _ _ (by omega)]
  | succ f ih =>
    intro i extra result h
    have e : f + 1 + extra = (f + extra) + 1 := by omega
    rw [e]
    simp only [base64DecodeLoop]
    split_ifs
    · exact ih _ _ _ (by omega)
    · rfl

/-! ## C22: the Base64 round trip -/

/-- C22, as the code has it: for every string `s` whose character codes are all in 0..255,
`base64Decode(base64Encode(s))` equals `s` exactly when the length of `s` is divisible
by 3. A last group of one or two characters comes back as three characters of code 255:
the padding is removed before the loop, the missing positions are `undefined`, for which
`indexOf` gives `-1`, and `n` becomes `-1`. -/
theorem base64_round_trip_iff_whole_groups (s : List Nat) (h : ∀ c ∈ s, c ≤ 255) :
    base64Decode (base64Encode s) = s ↔ s.length % 3 = 0 := by
  rw [base64Decode_base64Encode s h]
  constructor
  · intro e
    have hl := length_base64Echo s
    rw [e] at hl
    omega
  · exact base64Echo_eq_self s

/-- C22 at the string `Man`, of length three: the round trip gives it back. -/
theorem base64_round_trip_iff_whole_groups_witness :
    (∀ c ∈ codeUnits "Man", c ≤ 255) ∧
    base64Decode (base64Encode (codeUnits "Man")) = codeUnits "Man" :=
  ⟨by decide, (base64_round_trip_iff_whole_groups (codeUnits "Man") (by decide)).mpr rfl⟩

/-- C22 fails at the one-character string `M`: it is encoded as `TQ==`, and `TQ==` is
decoded as three characters of code 255. -/
theorem base64_round_trip_fails_on_one_byte :
    base64Encode (codeUnits "M") = codeUnits "TQ==" ∧
    base64Decode (codeUnits "TQ==") = [255, 255, 255] ∧
    base64Decode (base64Encode (codeUnits "M")) ≠ codeUnits "M" := by
  decide

/-! ## C23: the two JavaScript dispatchers agree -/

/-- The `switch` statement of `runner.js` reads two of the engine's texts only: two
engines that agree on the message of a failed call and on the message of a failed
`JSON.parse` run it alike. -/
theorem switchBody_congr (EQ EN : JSEngine) (spider : JSSpider) (method : String)
    (methodArgs : List String) (hf : EQ.notAFunction = EN.notAFunction)
    (hp : EQ.parseErrorMessage = EN.parseErrorMessage) :
    switchBody EQ spider method methodArgs = switchBody EN spider method methodArgs := by
  cases EQ
  cases EN
  simp only at hf hp
  subst hf hp
  rfl

/-- The output step of Node never reaches its `TypeError`: on every plain-data value it
writes what the output step of QuickJS writes. -/
theorem node_emit_eq (E : JSEngine) (v : JSValue) : Node.emit E v = .ok (QuickJS.emit v) := by
  cases v <;> rfl

/-- Under two engines a JSON argument decodes to the same value, or fails under both,
each with its own message. -/
theorem argJson_engines (EQ EN : JSEngine) (methodArgs : List String) (i : Nat)
    (d : JSValue) :
    argJson EQ methodArgs i d = argJson EN methodArgs i d ∨
    ∃ mQ mN, argJson EQ methodArgs i d = .error mQ ∧ argJson EN methodArgs i d = .error mN := by
  unfold argJson
  cases methodArgs[i]? with
  | none => exact Or.inl rfl
  | some s =>
    by_cases hs : s = ""
    · simp only [hs, if_true]
      exact Or.inl trivial
    · simp only [hs, if_false]
      cases JSON.parse s with
      | some v => exact Or.inl rfl
      | none => exact Or.inr ⟨_, _, rfl, rfl⟩

/-- Under two engines a call with the same arguments does the same, or fails under both
before the extension is reached, each with its own message. -/
theorem invoke_engines (EQ EN : JSEngine) (spider : JSSpider) (name : String)
    (aQ aN : Except String (List JSValue))
    (h : aQ = aN ∨ ∃ mQ mN, aQ = .error mQ ∧ aN = .error mN) :
    invoke EQ spider name aQ = invoke EN spider name aN ∨
    ∃ mQ mN, invoke EQ spider name aQ = ([], .error mQ) ∧
      invoke EN spider name aN = ([], .error mN) := by
  rcases h with h | ⟨mQ, mN, hQ, hN⟩
  · subst h
    cases aQ with
    | error m => exact Or.inl rfl
    | ok as =>
      cases hm : spider name with
      | fn f => exact Or.inl (by simp only [invoke, hm])
      | absent =>
        exact Or.inr ⟨EQ.notAFunction name, EN.notAFunction name, by simp only [invoke, hm],
          by simp only [invoke, hm]⟩
      | data t =>
        exact Or.inr ⟨EQ.notAFunction name, EN.notAFunction name, by simp only [invoke, hm],
          by simp only [invoke, hm]⟩
  · subst hQ hN
    exact Or.inr ⟨mQ, mN, rfl, rfl⟩

/-- The arguments built from a decoded JSON argument are the same under two engines, or
an error under both. -/
theorem argJson_map_engines (EQ EN : JSEngine) (methodArgs : List String) (i : Nat)
    (d : JSValue) (g : JSValue → List JSValue) :
    (match argJson EQ methodArgs i d with
      | .ok v => (.ok (g v) : Except String (List JSValue))
      | .error m => .error m) =
    (match argJson EN methodArgs i d with
      | .ok v => (.ok (g v) : Except String (List JSValue))
      | .error m => .error m) ∨
    ∃ mQ mN,
      (match argJson EQ methodArgs i d with
        | .ok v => (.ok (g v) : Except String (List JSValue))
        | .error m => .error m) = .error mQ ∧
      (match argJson EN methodArgs i d with
        | .ok v => (.ok (g v) : Except String (List JSValue))
        | .error m => .error m) = .error mN := by
  rcases argJson_engines EQ EN methodArgs i d with h | ⟨mQ, mN, hQ, hN⟩
  · rw [h]
    exact Or.inl rfl
  · rw [hQ, hN]
    exact Or.inr ⟨mQ, mN, rfl, rfl⟩

/-- The `switch` statements of the two runners, each under its own engine, do the same,
or both fail before the extension is reached, each with its own engine's message. -/
theorem switch_engines (EQ EN : JSEngine) (spider : JSSpider) (method : String)
    (methodArgs : List String) :
    switchBody EQ spider method methodArgs = Node.switchBody EN spider method methodArgs ∨
    ∃ mQ mN, switchBody EQ spider method methodArgs = ([], .error mQ) ∧
      Node.switchBody EN spider method methodArgs = ([], .error mN) := by
  by_cases hm : method ∈ closedSet
  · simp only [closedSet, List.mem_cons, List.mem_singleton, List.not_mem_nil, or_false] at hm
    rcases hm with h | h | h | h | h | h | h | h | h | h | h <;> subst h <;>
      simp only [switchBody, Node.switchBody]
    · exact invoke_engines EQ EN spider _ _ _ (Or.inl rfl)
    · exact invoke_engines EQ EN spider _ _ _ (Or.inl rfl)
    · exact invoke_engines EQ EN spider _ _ _ (Or.inl rfl)
    · exact invoke_engines EQ EN spider _ _ _
        (argJson_map_engines EQ EN methodArgs 3 (.obj [])
          (fun extend => [argAt methodArgs 0, argAt methodArgs 1,
            .bool (argIsTrue methodArgs 2), extend]))
    · exact invoke_engines EQ EN spider _ _ _
        (argJson_map_engines EQ EN methodArgs 0 (.arr []) (fun ids => [ids]))
    · exact invoke_engines EQ EN spider _ _ _ (Or.inl rfl)
    · exact invoke_engines EQ EN spider _ _ _
        (argJson_map_engines EQ EN methodArgs 2 (.arr [])
          (fun vipFlags => [argAt methodArgs 0, argAt methodArgs 1, vipFlags]))
    · exact invoke_engines EQ EN spider _ _ _ (Or.inl rfl)
    · exact invoke_engines EQ EN spider _ _ _
        (argJson_map_engines EQ EN methodArgs 0 (.obj []) (fun params => [params]))
    · exact invoke_engines EQ EN spider _ _ _ (Or.inl rfl)
    · cases hd : spider "destroy" with
      | absent => exact Or.inl rfl
      | fn f => exact Or.inl rfl
      | data t =>
        cases t with
        | false => exact Or.inl rfl
        | true =>
          exact Or.inr ⟨EQ.notAFunction "destroy", EN.notAFunction "destroy", rfl, rfl⟩
  · rw [node_switchBody_eq, switchBody_unknown EQ spider method methodArgs hm,
      switchBody_unknown EN spider method methodArgs hm]
    exact Or.inl rfl

/-- The two dispatchers, each under its own engine, leave the same record, or both write
an error envelope without having called the extension, each with its own engine's
message. -/
theorem callMethod_engines (EQ EN : JSEngine) (spider : JSSpider) (method : String)
    (methodArgs : List String) :
    QuickJS.callMethod EQ spider method methodArgs =
      Node.callMethod EN spider method methodArgs ∨
    ∃ mQ mN,
      QuickJS.callMethod EQ spider method methodArgs =
        { calls := [], out := [errorEnvelope mQ], err := [failureLine method mQ] } ∧
      Node.callMethod EN spider method methodArgs =
        { calls := [], out := [errorEnvelope mN], err := [failureLine method mN] } := by
  rcases switch_engines EQ EN spider method methodArgs with h | ⟨mQ, mN, hQ, hN⟩
  · rcases hr : Node.switchBody EN spider method methodArgs with ⟨calls, r⟩
    rw [hr] at h
    cases r with
    | error m => exact Or.inl (by simp only [QuickJS.callMethod, Node.callMethod, h, hr])
    | ok v =>
      exact Or.inl (by simp only [QuickJS.callMethod, Node.callMethod, h, hr, node_emit_eq])
  · exact Or.inr ⟨mQ, mN, by simp only [QuickJS.callMethod, hQ],
      by simp only [Node.callMethod, hN]⟩

/-- C23, as amended: for every extension, method name and argument vector, the `callMethod`
of `runner.js` under one engine and the `callMethod` of `runner_node.js` under another
call the same extension method with the same decoded parameters. Whenever the extension
is called, and whenever the two engines give the same message to a failed call and to a
failed `JSON.parse`, they write the same texts to standard output and to standard error.
In every case either the texts on standard output are the same or both are one error
envelope, each with a message of its own engine. -/
theorem dispatchers_equivalent (EQ EN : JSEngine) (spider : JSSpider) (method : String)
    (methodArgs : List String) :
    (QuickJS.callMethod EQ spider method methodArgs).calls =
      (Node.callMethod EN spider method methodArgs).calls ∧
    ((QuickJS.callMethod EQ spider method methodArgs).calls ≠ [] →
      (QuickJS.callMethod EQ spider method methodArgs).out =
        (Node.callMethod EN spider method methodArgs).out ∧
      (QuickJS.callMethod EQ spider method methodArgs).err =
        (Node.callMethod EN spider method methodArgs).err) ∧
    (EQ.notAFunction = EN.notAFunction → EQ.parseErrorMessage = EN.parseErrorMessage →
      (QuickJS.callMethod EQ spider method methodArgs).out =
        (Node.callMethod EN spider method methodArgs).out ∧
      (QuickJS.callMethod EQ spider method methodArgs).err =
        (Node.callMethod EN spider method methodArgs).err) ∧
    ((QuickJS.callMethod EQ spider method methodArgs).out =
        (Node.callMethod EN spider method methodArgs).out ∨
      ∃ mQ mN, (QuickJS.callMethod EQ spider method methodArgs).out = [errorEnvelope mQ] ∧
        (Node.callMethod EN spider method methodArgs).out = [errorEnvelope mN]) := by
  refine ⟨?_, ?_, ?_, ?_⟩
  · rcases callMethod_engines EQ EN spider method methodArgs with h | ⟨mQ, mN, hQ, hN⟩
    · rw [h]
    · rw [hQ, hN]
  · intro hc
    rcases callMethod_engines EQ EN spider method methodArgs with h | ⟨mQ, mN, hQ, hN⟩
    · rw [h]
      exact ⟨rfl, rfl⟩
    · rw [hQ] at hc
      exact absurd rfl hc
  · intro hf hp
    have hs := switchBody_congr EQ EN spider method methodArgs hf hp
    have hn := node_switchBody_eq EN spider method methodArgs
    rcases h : switchBody EN spider method methodArgs with ⟨calls, r⟩
    rw [h] at hs hn
    cases r with
    | error m => simp only [QuickJS.callMethod, Node.callMethod, hs, hn, and_self]
    | ok v => simp only [QuickJS.callMethod, Node.callMethod, hs, hn, node_emit_eq, and_self]
  · rcases callMethod_engines EQ EN spider method methodArgs with h | ⟨mQ, mN, hQ, hN⟩
    · exact Or.inl (by rw [h])
    · exact Or.inr ⟨mQ, mN, by rw [hQ], by rw [hN]⟩

/-- C23 as amended, at the extension whose `homeContent` returns `{ list: [] }`, called
with the argument vector `["true"]` under the two sample engines: the same call, and the
same text on standard output. -/
theorem dispatchers_equivalent_witness :
    (QuickJS.callMethod sampleEngine catalogSpider "homeContent" ["true"]).calls ≠ [] ∧
    (QuickJS.callMethod sampleEngine catalogSpider "homeContent" ["true"]).calls =
      (Node.callMethod otherEngine catalogSpider "homeContent" ["true"]).calls ∧
    (QuickJS.callMethod sampleEngine catalogSpider "homeContent" ["true"]).out =
      (Node.callMethod otherEngine catalogSpider "homeContent" ["true"]).out ∧
    (Node.callMethod otherEngine catalogSpider "homeContent" ["true"]).out =
      ["\x7b\"list\":[]\x7d"] :=
  ⟨(by intro h; cases h),
    (dispatchers_equivalent sampleEngine otherEngine catalogSpider "homeContent" ["true"]).1,
    ((dispatchers_equivalent sampleEngine otherEngine catalogSpider "homeContent"
      ["true"]).2.1 (by intro h; cases h)).1,
    rfl⟩

/-- C23, refuted as stated: with an argument that is not JSON, `detailContent` fails in
`JSON.parse`, and the text each runner writes to standard output carries the message of
its own engine. Under two engines whose messages differ the two texts differ. -/
theorem dispatchers_differ_in_engine_message :
    JSON.parse "not json" = none ∧
    (QuickJS.callMethod sampleEngine baseSpider "detailContent" ["not json"]).out =
      [errorEnvelope "unexpected token"] ∧
    (Node.callMethod otherEngine baseSpider "detailContent" ["not json"]).out =
      [errorEnvelope "Unexpected token in JSON: not json"] ∧
    (QuickJS.callMethod sampleEngine baseSpider "detailContent" ["not json"]).out ≠
      (Node.callMethod otherEngine baseSpider "detailContent" ["not json"]).out := by
  refine ⟨rfl, rfl, rfl, ?_⟩
  decide

/-! ## C24: `base64Encode` is the standard encoding -/

/-- C24: for every string `s` whose character codes are all in 0..255, `base64Encode(s)`
is the RFC 4648 encoding of the bytes of `s`; its length is `4 * ceil(length(s) / 3)`, and
it is a body without any `=` followed by exactly `(3 - length(s) mod 3) mod 3` characters
`=`. -/
theorem base64Encode_is_rfc4648 (s : List Nat) (h : ∀ c ∈ s, c ≤ 255) :
    base64Encode s = Rfc4648.encode s ∧
    (base64Encode s).length = 4 * ((s.length + 2) / 3) ∧
    ∃ body : CodeUnits,
      base64Encode s = body ++ List.replicate ((3 - s.length % 3) % 3) equalsSign ∧
      equalsSign ∉ body := by
  rw [base64Encode_eq_rfc s h]
  exact ⟨rfl, length_rfc_encode s, base64Body s, rfc_encode_eq_body s,
    equalsSign_not_mem_base64Body s⟩

/-- C24 at the string `fooba` of RFC 4648, section 10: the encoding is `Zm9vYmE=`, eight
characters, the last one `=`. -/
theorem base64Encode_is_rfc4648_witness :
    (∀ c ∈ codeUnits "fooba", c ≤ 255) ∧
    base64Encode (codeUnits "fooba") = codeUnits "Zm9vYmE=" ∧
    Rfc4648.encode (codeUnits "fooba") = codeUnits "Zm9vYmE=" ∧
    (base64Encode (codeUnits "fooba")).length = 8 :=
  ⟨by decide, by decide, by decide,
    (base64Encode_is_rfc4648 (codeUnits "fooba") (by decide)).2.1⟩

/-! ## The entity pattern and the scan of `htmlDecode` -/

/-- At one of the six entities the pattern of `htmlDecode` matches exactly the entity, the
replacement is its character, and the specified decoding takes the same entity. -/
theorem entity_at_start (name : List Char) (c : Char) (h : (name, c) ∈ entities)
    (after : List Char) :
    entityMatch (name ++ after) = some (name, after) ∧ entityText name = [c] ∧
    entityPrefix (name ++ after) entities = some (c, after) ∧ 4 ≤ name.length := by
  simp only [entities, List.mem_cons, Prod.mk.injEq, List.mem_singleton, List.not_mem_nil,
    or_false] at h
  rcases h with ⟨rfl, rfl⟩ | ⟨rfl, rfl⟩ | ⟨rfl, rfl⟩ | ⟨rfl, rfl⟩ | ⟨rfl, rfl⟩ | ⟨rfl, rfl⟩ <;>
    exact ⟨rfl, rfl, by simp [entityPrefix, entities], by decide⟩

/-- Away from `&` neither the pattern nor any of the six entities starts. -/
theorem no_entity_at_other (c : Char) (rest : List Char) (h : c ≠ '&') :
    entityMatch (c :: rest) = none ∧ entityPrefix (c :: rest) entities = none := by
  have hb : ('&' == c) = false := by simpa using fun e => h e.symm
  constructor
  · simp only [entityMatch, if_neg h]
  · simp [entityPrefix, entities, List.isPrefixOf, hb]

/-- On a text in which every `&` starts one of the six entities, the scan of `htmlDecode`
and the specified decoding agree. -/
theorem htmlDecodeLoop_eq (fuel : Nat) : ∀ s : List Char, s.length ≤ fuel →
    (∀ pre post : List Char, s = pre ++ '&' :: post →
      ∃ e ∈ entities, e.1.isPrefixOf ('&' :: post) = true) →
    htmlDecodeLoop fuel s = replaceEntitiesLoop fuel s := by
  induction fuel with
  | zero => intro s _ _; rfl
  | succ f ih =>
    intro s hl h
    cases s with
    | nil => rfl
    | cons c rest =>
      by_cases hc : c = '&'
      · subst hc
        obtain ⟨⟨name, d⟩, he, hp⟩ := h [] rest rfl
        obtain ⟨after, ha⟩ := List.isPrefixOf_iff_prefix.mp hp
        obtain ⟨h1, h2, h3, h4⟩ := entity_at_start name d he after
        rw [← ha]
        cases hn : name ++ after with
        | nil =>
          have : (name ++ after).length = 0 := by rw [hn]; rfl
          simp only [List.length_append] at this
          omega
        | cons x xs =>
          rw [hn] at h1 h3
          simp only [htmlDecodeLoop, replaceEntitiesLoop, h1, h2, h3, List.singleton_append]
          have hlen : after.length ≤ f := by
            have : (name ++ after).length = rest.length + 1 := by rw [ha]; rfl
            simp only [List.length_append, List.length_cons] at this hl
            omega
          rw [ih after hlen (fun pre post e => h (name ++ pre) post (by rw [← ha, e]; simp))]
      · obtain ⟨h1, h2⟩ := no_entity_at_other c rest hc
        simp only [htmlDecodeLoop, replaceEntitiesLoop, h1, h2]
        rw [ih rest (by simp only [List.length_cons] at hl; omega)
          (fun pre post e => h (c :: pre) post (by rw [e]; rfl))]

/-- What `ampersandsStartEntities` decides. -/
theorem ampersandsStartEntities_spec : ∀ s : List Char, ampersandsStartEntities s = true →
    ∀ pre post : List Char, s = pre ++ '&' :: post →
      ∃ e ∈ entities, e.1.isPrefixOf ('&' :: post) = true := by
  intro s
  induction s with
  | nil => intro _ pre post e; simp at e
  | cons c rest ih =>
    intro h pre post e
    simp only [ampersandsStartEntities, Bool.and_eq_true, Bool.or_eq_true, bne_iff_ne, ne_eq,
      List.any_eq_true] at h
    cases pre with
    | nil =>
      simp only [List.nil_append, List.cons.injEq] at e
      obtain ⟨hc, hr⟩ := e
      subst hc hr
      rcases h.1 with h1 | h1
      · exact absurd rfl h1
      · exact h1
    | cons d pre2 =>
      simp only [List.cons_append, List.cons.injEq] at e
      exact ih h.2 pre2 post e.2

/-- A match of the entity pattern is followed by less text than it was tried on. -/
theorem entityMatch_length (c : Char) (rest entity after : List Char)
    (h : entityMatch (c :: rest) = some (entity, after)) : after.length < rest.length := by
  simp only [entityMatch] at h
  split_ifs at h with hc
  have hsplit := List.takeWhile_append_dropWhile (fun x => x != ';') rest
  split at h
  · cases h
  · cases h
  · rename_i run y ys hd _
    simp only [Option.some.injEq, Prod.mk.injEq] at h
    have : rest.length = (rest.takeWhile (fun x => x != ';')).length + (ys.length + 1) := by
      conv_lhs => rw [← hsplit]
      rw [List.length_append, hd, List.length_cons]
    rw [← h.2]
    omega

/-- More fuel than characters does not change what the scan of `htmlDecode` returns. -/
theorem htmlDecodeLoop_fuel (fuel : Nat) : ∀ (s : List Char) (extra : Nat), s.length ≤ fuel →
    htmlDecodeLoop (fuel + extra) s = htmlDecodeLoop fuel s := by
  induction fuel with
  | zero =>
    intro s extra h
    have : s = [] := List.length_eq_zero.mp (by omega)
    subst this
    cases extra <;> rfl
  | succ f ih =>
    intro s extra hl
    have e : f + 1 + extra = (f + extra) + 1 := by omega
    rw [e]
    cases s with
    | nil => rfl
    | cons c rest =>
      simp only [htmlDecodeLoop]
      cases hm : entityMatch (c :: rest) with
      | some p =>
        obtain ⟨entity, after⟩ := p
        have := entityMatch_length c rest entity after hm
        simp only
        rw [ih after extra (by simp only [List.length_cons] at hl; omega)]
      | none =>
        simp only
        rw [ih rest extra (by simp only [List.length_cons] at hl; omega)]

/-! ## C25: `htmlDecode` -/

/-- C25, as far as the code has it: for every text `s` in which every `&` starts one of
the six entities, `htmlDecode(s)` is `s` with each entity replaced by the character it
denotes and all other text unchanged. An `&` that starts no entity makes the pattern
`&[^;]+;` run on to the next `;` and take the entities in between with it. -/
theorem htmlDecode_replaces_entities (s : List Char)
    (h : ampersandsStartEntities s = true) :
    htmlDecode s = replaceEntities s :=
  htmlDecodeLoop_eq s.length s (Nat.le_refl _) (ampersandsStartEntities_spec s h)

/-- C25 at the text `1 &lt; 2 &amp;&amp; 3 &gt; 2`. -/
theorem htmlDecode_replaces_entities_witness :
    ampersandsStartEntities "1 &lt; 2 &amp;&amp; 3 &gt; 2".data = true ∧
    replaceEntities "1 &lt; 2 &amp;&amp; 3 &gt; 2".data = "1 < 2 && 3 > 2".data ∧
    htmlDecode "1 &lt; 2 &amp;&amp; 3 &gt; 2".data =
      replaceEntities "1 &lt; 2 &amp;&amp; 3 &gt; 2".data :=
  ⟨by decide, by decide,
    htmlDecode_replaces_entities "1 &lt; 2 &amp;&amp; 3 &gt; 2".data (by decide)⟩

/-- C25 fails at the text `Q&A &amp; more`: the match that starts at the first `&` is
`&A &amp;`, which is no key of the table, so the text comes back unchanged and the entity
`&amp;` in it is not replaced. -/
theorem htmlDecode_misses_entity_after_ampersand :
    htmlDecode "Q&A &amp; more".data = "Q&A &amp; more".data ∧
    replaceEntities "Q&A &amp; more".data = "Q&A & more".data ∧
    entityMatch "&A &amp; more".data = some ("&A &amp;".data, " more".data) := by
  decide

/-! ## The tag pattern and the scan of `stripTags` -/

/-- A match of the tag pattern starts with `<` and ends at the first `>` after it. -/
theorem tagMatch_some (c : Char) (rest after : List Char)
    (h : tagMatch (c :: rest) = some after) :
    c = '<' ∧ ∃ mid : List Char, '>' ∉ mid ∧ rest = mid ++ '>' :: after := by
  simp only [tagMatch] at h
  split_ifs at h with hc
  refine ⟨hc, ?_⟩
  have hsplit := List.takeWhile_append_dropWhile (fun x => x != '>') rest
  cases hd : rest.dropWhile (fun x => x != '>') with
  | nil => rw [hd] at h; cases h
  | cons y ys =>
    rw [hd] at h hsplit
    simp only [Option.some.injEq] at h
    subst h
    have hy : y = '>' := by
      have := List.head_dropWhile_not (fun x => x != '>') rest (by rw [hd]; simp)
      simp only [hd, List.head_cons] at this
      simpa using this
    subst hy
    refine ⟨rest.takeWhile (fun x => x != '>'), fun hm => ?_, hsplit.symm⟩
    have := List.mem_takeWhile_imp hm
    simp at this

/-- There is no match of the tag pattern where no `>` follows. -/
theorem tagMatch_none (c : Char) (rest : List Char) (h : c ≠ '<' ∨ '>' ∉ rest) :
    tagMatch (c :: rest) = none := by
  simp only [tagMatch]
  split_ifs with hc
  · have hr : '>' ∉ rest := h.resolve_left (fun e => e hc)
    have : rest.dropWhile (fun x => x != '>') = [] := by
      rw [List.dropWhile_eq_nil_iff]
      intro x hx
      have : x ≠ '>' := fun e => hr (e ▸ hx)
      simpa using this
    rw [this]
  · rfl

/-- Where the tag pattern does not match at a `<`, no `>` follows. -/
theorem no_gt_of_tagMatch_none (rest : List Char) (h : tagMatch ('<' :: rest) = none) :
    '>' ∉ rest := by
  intro hm
  simp only [tagMatch, if_true] at h
  cases hd : rest.dropWhile (fun x => x != '>') with
  | nil =>
    rw [List.dropWhile_eq_nil_iff] at hd
    have := hd _ hm
    simp at this
  | cons y ys => rw [hd] at h; cases h

/-- The scan writes characters of its input only. -/
theorem mem_of_mem_stripTagsLoop (fuel : Nat) : ∀ (s : List Char) (x : Char),
    x ∈ stripTagsLoop fuel s → x ∈ s := by
  induction fuel with
  | zero => intro s x h; simp [stripTagsLoop] at h
  | succ f ih =>
    intro s x h
    cases s with
    | nil => simp [stripTagsLoop] at h
    | cons c rest =>
      simp only [stripTagsLoop] at h
      cases hm : tagMatch (c :: rest) with
      | some after =>
        rw [hm] at h
        obtain ⟨-, mid, -, hr⟩ := tagMatch_some c rest after hm
        have := ih after x h
        rw [hr]
        simp [this]
      | none =>
        rw [hm] at h
        rcases List.mem_cons.mp h with e | e
        · simp [e]
        · exact List.mem_cons_of_mem _ (ih rest x e)

/-- The scan over a text with enough fuel leaves no `<` that a `>` follows. -/
theorem stripTagsLoop_no_tag (fuel : Nat) : ∀ s : List Char, s.length ≤ fuel →
    ∀ pre post : List Char, stripTagsLoop fuel s = pre ++ '<' :: post → '>' ∉ post := by
  induction fuel with
  | zero =>
    intro s _ pre post h
    simp [stripTagsLoop] at h
  | succ f ih =>
    intro s hl pre post h
    cases s with
    | nil => simp [stripTagsLoop] at h
    | cons c rest =>
      simp only [stripTagsLoop] at h
      cases hm : tagMatch (c :: rest) with
      | some after =>
        rw [hm] at h
        obtain ⟨-, mid, -, hr⟩ := tagMatch_some c rest after hm
        have hlen : after.length ≤ f := by
          have : rest.length = mid.length + (after.length + 1) := by rw [hr]; simp
          simp only [List.length_cons] at hl
          omega
        exact ih after hlen pre post h
      | none =>
        rw [hm] at h
        simp only at h
        cases pre with
        | nil =>
          simp only [List.nil_append, List.cons.injEq] at h
          obtain ⟨hc, hp⟩ := h
          subst hc
          intro hgt
          rw [← hp] at hgt
          exact no_gt_of_tagMatch_none rest hm (mem_of_mem_stripTagsLoop f rest _ hgt)
        | cons d pre2 =>
          simp only [List.cons_append, List.cons.injEq] at h
          exact ih rest (by simp only [List.length_cons] at hl; omega) pre2 post h.2

/-- The scan leaves a text unchanged in which no `<` is followed by a `>`. -/
theorem stripTagsLoop_fixed : ∀ (t : List Char) (fuel : Nat), t.length ≤ fuel →
    (∀ pre post : List Char, t = pre ++ '<' :: post → '>' ∉ post) →
    stripTagsLoop fuel t = t := by
  intro t
  induction t with
  | nil => intro fuel _ _; cases fuel <;> rfl
  | cons c rest ih =>
    intro fuel hl h
    cases fuel with
    | zero => simp at hl
    | succ f =>
      have hm : tagMatch (c :: rest) = none := by
        apply tagMatch_none
        by_cases hc : c = '<'
        · exact Or.inr (h [] rest (by simp [hc]))
        · exact Or.inl hc
      simp only [stripTagsLoop, hm]
      rw [ih f (by simp only [List.length_cons] at hl; omega)
        (fun pre post e => h (c :: pre) post (by simp [e]))]

/-- More fuel than characters does not change what the scan returns. -/
theorem stripTagsLoop_fuel (fuel : Nat) : ∀ (s : List Char) (extra : Nat), s.length ≤ fuel →
    stripTagsLoop (fuel + extra) s = stripTagsLoop fuel s := by
  induction fuel with
  | zero =>
    intro s extra h
    have : s = [] := List.length_eq_zero.mp (by omega)
    subst this
    cases extra <;> rfl
  | succ f ih =>
    intro s extra hl
    have e : f + 1 + extra = (f + extra) + 1 := by omega
    rw [e]
    cases s with
    | nil => rfl
    | cons c rest =>
      simp only [stripTagsLoop]
      cases hm : tagMatch (c :: rest) with
      | some after =>
        obtain ⟨-, mid, -, hr⟩ := tagMatch_some c rest after hm
        have hlen : after.length ≤ f := by
          have : rest.length = mid.length + (after.length + 1) := by rw [hr]; simp
          simp only [List.length_cons] at hl
          omega
        exact ih after extra hlen
      | none =>
        simp only
        rw [ih rest extra (by simp only [List.length_cons] at hl; omega)]

/-! ## C26: `stripTags` -/

/-- C26: for every text `s`, no `<` of `stripTags(s)` is followed anywhere later in it by a
`>`, and `stripTags(stripTags(s))` equals `stripTags(s)`. -/
theorem stripTags_leaves_no_tag (s : List Char) :
    (∀ pre post : List Char, stripTags s = pre ++ '<' :: post → '>' ∉ post) ∧
    stripTags (stripTags s) = stripTags s :=
  ⟨stripTagsLoop_no_tag s.length s (Nat.le_refl _),
    stripTagsLoop_fixed (stripTags s) _ (Nat.le_refl _)
      (stripTagsLoop_no_tag s.length s (Nat.le_refl _))⟩

/-- C26 at the text `<b>x</b> 1 < 2`: the two tags go, the lone `<` stays, and a second
pass changes nothing. -/
theorem stripTags_leaves_no_tag_witness :
    stripTags "<b>x</b> 1 < 2".data = "x 1 < 2".data ∧
    '>' ∉ " 2".data ∧
    stripTags (stripTags "<b>x</b> 1 < 2".data) = stripTags "<b>x</b> 1 < 2".data :=
  ⟨by decide, (stripTags_leaves_no_tag "<b>x</b> 1 < 2".data).1 "x 1 ".data " 2".data (by decide),
    (stripTags_leaves_no_tag "<b>x</b> 1 < 2".data).2⟩

/-! ## The loop of `matchAll` -/

/-- From a `lastIndex` at which the pattern matches the empty text, the loop of `matchAll`
comes back to the same `lastIndex` after every pass. -/
theorem matchAllLoop_stuck (re : RegExp) (str : List Char) (p : Nat) (hp : p ≤ str.length)
    (h : re.search str p = some (p, p)) (fuel : Nat) :
    ∀ result : List RegExpMatch, matchAllLoop re str fuel p result = none := by
  induction fuel with
  | zero => intro result; rfl
  | succ f ih =>
    intro result
    have he : re.exec str p = (some { index := p, text := (str.drop p).take (p - p) }, p) := by
      simp only [RegExp.exec, if_neg (Nat.not_lt.mpr hp), h]
    simp only [matchAllLoop, he]
    exact ih _

/-- When every match ends after the `lastIndex` it was searched from, the loop of
`matchAll` ends within one pass per index. -/
theorem matchAllLoop_returns (re : RegExp) (str : List Char)
    (h : ∀ i s e : Nat, re.search str i = some (s, e) → i < e) (n : Nat) :
    ∀ (i : Nat) (result : List RegExpMatch), str.length + 1 ≤ i + n →
    ∃ r, matchAllLoop re str (n + 1) i result = some r := by
  induction n with
  | zero =>
    intro i result hi
    have : str.length < i := by omega
    exact ⟨result, by simp only [matchAllLoop, RegExp.exec, if_pos this]⟩
  | succ k ih =>
    intro i result hi
    by_cases hl : str.length < i
    · exact ⟨result, by simp only [matchAllLoop, RegExp.exec, if_pos hl]⟩
    · cases hs : re.search str i with
      | none => exact ⟨result, by simp only [matchAllLoop, RegExp.exec, if_neg hl, hs]⟩
      | some se =>
        obtain ⟨s, e⟩ := se
        have hlt := h i s e hs
        obtain ⟨r, hr⟩ := ih e (result ++ [{ index := s, text := (str.drop s).take (e - s) }])
          (by omega)
        exact ⟨r, by
          have he : re.exec str i =
              (some { index := s, text := (str.drop s).take (e - s) }, e) := by
            simp only [RegExp.exec, if_neg hl, hs]
          rw [matchAllLoop, he]
          exact hr⟩

/-- A pattern whose matches are never empty brings `matchAll` to its end. -/
theorem matchAll_returns_of_progress (re : RegExp) (str : List Char)
    (h : ∀ i s e : Nat, re.search str i = some (s, e) → i < e) :
    ∃ r, matchAll str re (str.length + 2) = some r :=
  matchAllLoop_returns re str h (str.length + 1) 0 [] (by omega)

/-! ## C27: `matchAll` -/

/-- C27, refuted: for every text `str` and every pattern that matches the empty text at
the start of `str`, `matchAll(str, regex)` does not return: after any number of passes
the loop is still running. `exec` sets `lastIndex` to the end of the match, which for an
empty match is where the search began, and the loop does not move it on. -/
theorem matchAll_never_returns_on_empty_match (re : RegExp) (str : List Char)
    (h : re.search str 0 = some (0, 0)) (fuel : Nat) :
    matchAll str re fuel = none :=
  matchAllLoop_stuck re str 0 (Nat.zero_le _) h fuel []

/-- C27 at the text `ab` and the empty pattern: a thousand passes do not end the loop. -/
theorem matchAll_never_returns_on_empty_match_witness :
    emptyRegExp.search "ab".data 0 = some (0, 0) ∧
    matchAll "ab".data emptyRegExp 1000 = none :=
  ⟨rfl, matchAll_never_returns_on_empty_match emptyRegExp "ab".data rfl 1000⟩

/-- C27 at the text `baaa` and the pattern `a*`: the first match is the empty text at
index 0 and every later pass finds it again, while the pattern `a` ends the loop with the
three matches at the indices 1, 2 and 3. -/
theorem matchAll_a_star_repeats_first_match :
    (starRegExp 'a').exec "baaa".data 0 = (some { index := 0, text := [] }, 0) ∧
    matchAll "baaa".data (starRegExp 'a') 50 = none ∧
    matchAll "baaa".data (charRegExp 'a') 5 =
      some [{ index := 1, text := ['a'] }, { index := 2, text := ['a'] },
        { index := 3, text := ['a'] }] := by
  decide
